import Mathlib

/-!
Ghost-Hunt-Simulator: a shallow embedding of the room graph, the hunter and
ghost operations and the case file.

The C program keeps one `struct House` holding the array of rooms, the dynamic
array of hunters, the shared case file and the single ghost.  Here a pointer to
a room is its index in `house.rooms` (array elements are laid out in index
order, so the address comparison `from_room < target_room` is the comparison of
indices) and a pointer to a hunter is its index in `house.hunters`.  A pointer
that may be `NULL` is an `Option`.

C `int` counters (`hunter_count`, `connection_count`, `boredom`, `fear`) start
at 0 and are only incremented, reset to 0, or decremented inside a loop whose
guard makes them positive; they are natural numbers here.  `EvidenceByte`
(`unsigned char`) is a natural number and every store into it is reduced
modulo 256.

In the functions of one call, semaphores are not executed: `sem_wait` and
`sem_post` append an event to the field `lock_trace`, so that the order of lock
operations of every function can be read off.  The section on interleaved
execution gives `hunter_move` and `ghost_move` a second time, statement by
statement with semaphore values, for two actors running at the same time.
Names (`char name[]`) and the logging calls have no effect on the state and are
left out.  Every value returned by `rand_int_threadsafe` is an explicit argument
of the function that draws it.
-/

namespace GhostHunt

/-! ## defs.h -/

abbrev RoomPtr := Nat
abbrev HunterPtr := Nat
abbrev EvidenceByte := Nat

def MAX_ROOMS : Nat := 24
def MAX_ROOM_OCCUPANCY : Nat := 8
def MAX_CONNECTIONS : Nat := 8
def ENTITY_BOREDOM_MAX : Nat := 15
def HUNTER_FEAR_MAX : Nat := 15
def DEFAULT_GHOST_ID : Nat := 68057

inductive LogReason where
  | LR_EVIDENCE
  | LR_BORED
  | LR_AFRAID
deriving DecidableEq, Repr

inductive EvidenceType where
  | EV_EMF
  | EV_ORBS
  | EV_RADIO
  | EV_TEMPERATURE
  | EV_FINGERPRINTS
  | EV_WRITING
  | EV_INFRARED
deriving DecidableEq, Repr

/-- The integer value of an `enum EvidenceType` constant. -/
def EvidenceType.val : EvidenceType → Nat
  | .EV_EMF => 1 <<< 0
  | .EV_ORBS => 1 <<< 1
  | EvidenceType.EV_RADIO => 1 <<< 2
  | .EV_TEMPERATURE => 1 <<< 3
  | .EV_FINGERPRINTS => 1 <<< 4
  | .EV_WRITING => 1 <<< 5
  | .EV_INFRARED => 1 <<< 6

inductive GhostType where
  | GH_POLTERGEIST
  | GH_THE_MIMIC
  | GH_HANTU
  | GH_JINN
  | GH_PHANTOM
  | GH_BANSHEE
  | GH_GORYO
  | GH_BULLIES
  | GH_MYLING
  | GH_OBAKE
  | GH_YUREI
  | GH_ONI
  | GH_MOROI
  | GH_REVENANT
  | GH_SHADE
  | GH_ONRYO
  | GH_THE_TWINS
  | GH_DEOGEN
  | GH_THAYE
  | GH_YOKAI
  | GH_WRAITH
  | GH_RAIJU
  | GH_MARE
  | GH_SPIRIT
deriving DecidableEq, Repr

open EvidenceType

/-- The integer value of an `enum GhostType` constant. -/
def GhostType.val : GhostType → Nat
  | .GH_POLTERGEIST => EV_FINGERPRINTS.val ||| EV_TEMPERATURE.val ||| EV_WRITING.val
  | .GH_THE_MIMIC => EV_FINGERPRINTS.val ||| EV_TEMPERATURE.val ||| EV_RADIO.val
  | .GH_HANTU => EV_FINGERPRINTS.val ||| EV_TEMPERATURE.val ||| EV_ORBS.val
  | .GH_JINN => EV_FINGERPRINTS.val ||| EV_TEMPERATURE.val ||| EV_EMF.val
  | .GH_PHANTOM => EV_FINGERPRINTS.val ||| EV_INFRARED.val ||| EV_RADIO.val
  | .GH_BANSHEE => EV_FINGERPRINTS.val ||| EV_INFRARED.val ||| EV_ORBS.val
  | .GH_GORYO => EV_FINGERPRINTS.val ||| EV_INFRARED.val ||| EV_EMF.val
  | .GH_BULLIES => EV_FINGERPRINTS.val ||| EV_WRITING.val ||| EV_RADIO.val
  | .GH_MYLING => EV_FINGERPRINTS.val ||| EV_WRITING.val ||| EV_EMF.val
  | .GH_OBAKE => EV_FINGERPRINTS.val ||| EV_ORBS.val ||| EV_EMF.val
  | .GH_YUREI => EV_TEMPERATURE.val ||| EV_INFRARED.val ||| EV_ORBS.val
  | .GH_ONI => EV_TEMPERATURE.val ||| EV_INFRARED.val ||| EV_EMF.val
  | .GH_MOROI => EV_TEMPERATURE.val ||| EV_WRITING.val ||| EV_RADIO.val
  | .GH_REVENANT => EV_TEMPERATURE.val ||| EV_WRITING.val ||| EV_ORBS.val
  | .GH_SHADE => EV_TEMPERATURE.val ||| EV_WRITING.val ||| EV_EMF.val
  | .GH_ONRYO => EV_TEMPERATURE.val ||| EV_RADIO.val ||| EV_ORBS.val
  | .GH_THE_TWINS => EV_TEMPERATURE.val ||| EV_RADIO.val ||| EV_EMF.val
  | .GH_DEOGEN => EV_INFRARED.val ||| EV_WRITING.val ||| EV_RADIO.val
  | .GH_THAYE => EV_INFRARED.val ||| EV_WRITING.val ||| EV_ORBS.val
  | .GH_YOKAI => EV_INFRARED.val ||| EV_RADIO.val ||| EV_ORBS.val
  | .GH_WRAITH => EV_INFRARED.val ||| EV_RADIO.val ||| EV_EMF.val
  | .GH_RAIJU => EV_INFRARED.val ||| EV_ORBS.val ||| EV_EMF.val
  | .GH_MARE => EV_WRITING.val ||| EV_RADIO.val ||| EV_ORBS.val
  | .GH_SPIRIT => EV_WRITING.val ||| EV_RADIO.val ||| EV_EMF.val

structure CaseFile where
  collected : EvidenceByte
  solved : Bool
deriving DecidableEq, Repr

/-- The linked list of `struct RoomNode` hanging off `head`, first node first;
each entry is the node's `room` pointer. -/
structure RoomStack where
  head : List (Option RoomPtr)
deriving DecidableEq, Repr

/-- The fields of `struct Room`.  `connections` and `hunters` are the two
8-slot pointer arrays; `ghost` is `true` when the pointer holds the address of
the house's ghost (the only `struct Ghost` of the program) and `false` when it
is `NULL`. -/
structure Room where
  connections : List (Option RoomPtr)
  connection_count : Nat
  ghost : Bool
  hunters : List (Option HunterPtr)
  hunter_count : Nat
  is_exit : Bool
  evidence : EvidenceByte
deriving DecidableEq, Repr

/-- The fields of `struct Hunter`; `casefile` always points at the house's case
file and is not stored. -/
structure Hunter where
  id : Int
  current_room : RoomPtr
  device : EvidenceType
  path : RoomStack
  fear : Nat
  boredom : Nat
  should_exit : Bool
  return_to_van : Bool
  exit_reason : LogReason
deriving DecidableEq, Repr

structure Ghost where
  id : Nat
  type : GhostType
  current_room : RoomPtr
  boredom : Nat
  has_exited : Bool
deriving DecidableEq, Repr

/-- Identity of a semaphore: the mutex of a room or the mutex of the case file. -/
inductive LockId where
  | room (r : RoomPtr)
  | casefile
deriving DecidableEq, Repr

inductive LockEvent where
  | wait (l : LockId)
  | post (l : LockId)
deriving DecidableEq, Repr

/-- The fields of `struct House` together with the objects they point to.
`hunter_slots` is the number of `struct Hunter` slots of the block `hunters`
points to (0 when the pointer is `NULL`); `lock_trace` records the semaphore
operations performed so far. -/
structure House where
  rooms : RoomPtr → Room
  room_count : Nat
  starting_room : Option RoomPtr
  hunters : HunterPtr → Hunter
  hunter_count : Nat
  hunter_capacity : Nat
  hunter_slots : Nat
  caseFile : CaseFile
  ghost : Ghost
  lock_trace : List LockEvent

/-- Store into `house.rooms[p]`. -/
def House.setRoom (w : House) (p : RoomPtr) (r : Room) : House :=
  { w with rooms := Function.update w.rooms p r }

/-- Store into the hunter object at `h`. -/
def House.setHunter (w : House) (h : HunterPtr) (x : Hunter) : House :=
  { w with hunters := Function.update w.hunters h x }

def sem_wait (w : House) (l : LockId) : House :=
  { w with lock_trace := w.lock_trace ++ [LockEvent.wait l] }

def sem_post (w : House) (l : LockId) : House :=
  { w with lock_trace := w.lock_trace ++ [LockEvent.post l] }

/-- The semaphore operations a call added: the trace after the call without the
trace before it. -/
def lock_events (before after : House) : List LockEvent :=
  after.lock_trace.drop before.lock_trace.length

/-! ## helpers.h (not part of the sources) -/

/-- Modelled from the spec: the table behind `get_all_evidence_types`, "the
closed list of evidence kinds" (7 kinds), taken in the order of the enum. -/
def all_evidence_types : List EvidenceType :=
  [.EV_EMF, .EV_ORBS, EvidenceType.EV_RADIO, .EV_TEMPERATURE, .EV_FINGERPRINTS, .EV_WRITING,
   .EV_INFRARED]

/-- Modelled from the spec: the table behind `get_all_ghost_types`, "the closed
list of ghost profiles", taken in the order of the enum. -/
def all_ghost_types : List GhostType :=
  [.GH_POLTERGEIST, .GH_THE_MIMIC, .GH_HANTU, .GH_JINN, .GH_PHANTOM, .GH_BANSHEE,
   .GH_GORYO, .GH_BULLIES, .GH_MYLING, .GH_OBAKE, .GH_YUREI, .GH_ONI, .GH_MOROI,
   .GH_REVENANT, .GH_SHADE, .GH_ONRYO, .GH_THE_TWINS, .GH_DEOGEN, .GH_THAYE,
   .GH_YOKAI, .GH_WRAITH, .GH_RAIJU, .GH_MARE, .GH_SPIRIT]

/-- Modelled from the spec: `evidence_is_valid_ghost`, the predicate "does this
mask exactly equal some profile". -/
def evidence_is_valid_ghost (mask : EvidenceByte) : Bool :=
  all_ghost_types.any (fun g => g.val == mask)

/-! ## evidence.c -/

/-- The statement `*ev |= type;`, stored back into an `unsigned char`. -/
def evidence_set (ev : EvidenceByte) (type : EvidenceType) : EvidenceByte :=
  (ev ||| type.val) % 256

/-- The statement `*ev &= ~type;` where `~type` is the complement of a 32-bit `int`, stored
back into an `unsigned char`. -/
def evidence_clear (ev : EvidenceByte) (type : EvidenceType) : EvidenceByte :=
  (ev &&& (2 ^ 32 - 1 - type.val)) % 256

def evidence_has (ev : EvidenceByte) (type : EvidenceType) : Bool :=
  (ev &&& type.val) != 0

/-- The loop `for(int i=0; i < 8; i++) if(ev & (1<<i)) count++;`. -/
def evidence_count_bits (ev : EvidenceByte) : Nat :=
  (List.range 8).foldl (fun count i => if (ev &&& (1 <<< i)) != 0 then count + 1 else count) 0

def evidence_has_three_unique (mask : EvidenceByte) : Bool :=
  decide (evidence_count_bits mask ≥ 3)

/-! ## roomstack.c -/

def roomstack_init : RoomStack :=
  { head := [] }

/-- The argument `alloc_ok` tells whether `malloc` returned a node. -/
def roomstack_push (stack : RoomStack) (room : Option RoomPtr) (alloc_ok : Bool) : RoomStack :=
  if alloc_ok then { head := room :: stack.head } else stack

/-- Returns the popped room pointer (`none` is `NULL`) and the stack left. -/
def roomstack_pop (stack : RoomStack) : Option RoomPtr × RoomStack :=
  match stack.head with
  | [] => (none, stack)
  | room :: next => (room, { head := next })

def roomstack_is_empty (stack : RoomStack) : Bool :=
  stack.head.isEmpty

/-- The loop `while(!roomstack_is_empty(stack)) roomstack_pop(stack);` with at
most `n` iterations left. -/
def roomstack_clear_loop : Nat → RoomStack → RoomStack
  | 0, stack => stack
  | n + 1, stack =>
    if roomstack_is_empty stack then stack else roomstack_clear_loop n (roomstack_pop stack).2

/-- The loop is run for as many iterations as the list has nodes, which empties
it (`roomstack_clear_loop_length`). -/
def roomstack_clear (stack : RoomStack) : RoomStack :=
  roomstack_clear_loop stack.head.length stack

/-! ## room.c -/

def room_init (is_exit : Bool) : Room :=
  { connections := List.replicate MAX_CONNECTIONS none
    connection_count := 0
    ghost := false
    hunters := List.replicate MAX_ROOM_OCCUPANCY none
    hunter_count := 0
    is_exit := is_exit
    evidence := 0 }

/-- Both rooms are read from and written to the house in turn, as the two
`if` blocks do through the pointers `a` and `b` (which may be equal). -/
def room_connect (w : House) (a b : RoomPtr) : House :=
  let w1 :=
    if (w.rooms a).connection_count < MAX_CONNECTIONS then
      w.setRoom a { w.rooms a with
        connections := (w.rooms a).connections.set (w.rooms a).connection_count (some b)
        connection_count := (w.rooms a).connection_count + 1 }
    else w
  if (w1.rooms b).connection_count < MAX_CONNECTIONS then
    w1.setRoom b { w1.rooms b with
      connections := (w1.rooms b).connections.set (w1.rooms b).connection_count (some a)
      connection_count := (w1.rooms b).connection_count + 1 }
  else w1

def room_add_evidence (room : Room) (evidence : EvidenceType) : Room :=
  { room with evidence := evidence_set room.evidence evidence }

/-- Returns the `bool` result and the room after the call. -/
def room_add_hunter (room : Room) (hunter : HunterPtr) : Bool × Room :=
  if room.hunter_count ≥ MAX_ROOM_OCCUPANCY then
    (false, room)
  else
    (true, { room with
      hunters := room.hunters.set room.hunter_count (some hunter)
      hunter_count := room.hunter_count + 1 })

/-- The inner loop `for(int j = i; j < room->hunter_count-1; j++)
room->hunters[j] = room->hunters[j+1];` with `n` iterations left. -/
def room_shift_down (hunters : List (Option HunterPtr)) : Nat → Nat → List (Option HunterPtr)
  | 0, _ => hunters
  | n + 1, j => room_shift_down (hunters.set j (hunters.getD (j + 1) none)) n (j + 1)

/-- The outer loop of `room_remove_hunter` at index `i` with `n` iterations
left (`n = hunter_count - i`). -/
def room_remove_hunter_loop (room : Room) (hunter : HunterPtr) : Nat → Nat → Room
  | 0, _ => room
  | n + 1, i =>
    if room.hunters.getD i none = some hunter then
      { room with
        hunters := (room_shift_down room.hunters (room.hunter_count - 1 - i) i).set
          (room.hunter_count - 1) none
        hunter_count := room.hunter_count - 1 }
    else room_remove_hunter_loop room hunter n (i + 1)

def room_remove_hunter (room : Room) (hunter : HunterPtr) : Room :=
  room_remove_hunter_loop room hunter room.hunter_count 0

/-- Returns the `bool` result and the house after the two semaphore calls. -/
def room_has_hunters (w : House) (room : RoomPtr) : Bool × House :=
  let w := sem_wait w (.room room)
  let result := decide ((w.rooms room).hunter_count > 0)
  let w := sem_post w (.room room)
  (result, w)

/-! ## hunter.c -/

/-- The argument `rnd` is the value of `rand_int_threadsafe(0, count)`, the
index into the table of evidence kinds; an index outside the table leaves the
device field as it was. -/
def hunter_init (old : Hunter) (id : Int) (starting_room : RoomPtr) (rnd : Nat) : Hunter :=
  { id := id
    current_room := starting_room
    device := all_evidence_types.getD rnd old.device
    path := roomstack_init
    fear := 0
    boredom := 0
    should_exit := false
    return_to_van := false
    exit_reason := .LR_BORED }

/-- Returns the `bool` result and the house after the call, for a call that
returns.  The two `sem_wait` are recorded in `lock_trace` and do not block: the
function describes the call made with both room semaphores free and
`target_room` another room than the hunter's current room.  With `target_room`
the current room, `first` and `second` are the same semaphore and the call
does not come back from the second `sem_wait`
(`hunter_move_self_target_blocks`); statements about what the call returns take
`target_room ≠ current_room` as a hypothesis. -/
def hunter_move (w : House) (hunter : HunterPtr) (target_room : RoomPtr) : Bool × House :=
  let from_room := (w.hunters hunter).current_room
  let first := if from_room < target_room then from_room else target_room
  let second := if from_room < target_room then target_room else from_room
  let w := sem_wait w (.room first)
  let w := sem_wait w (.room second)
  if (w.rooms target_room).hunter_count ≥ MAX_ROOM_OCCUPANCY then
    let w := sem_post w (.room second)
    let w := sem_post w (.room first)
    (false, w)
  else
    let w := w.setRoom from_room (room_remove_hunter (w.rooms from_room) hunter)
    let w := w.setHunter hunter { w.hunters hunter with current_room := target_room }
    let w := w.setRoom target_room (room_add_hunter (w.rooms target_room) hunter).2
    let w := sem_post w (.room second)
    let w := sem_post w (.room first)
    (true, w)

def hunter_update_stats (w : House) (hunter : HunterPtr) : House :=
  let cur := (w.hunters hunter).current_room
  let w := sem_wait w (.room cur)
  let ghost_present := (w.rooms cur).ghost
  let w := sem_post w (.room cur)
  if ghost_present then
    w.setHunter hunter { w.hunters hunter with boredom := 0, fear := (w.hunters hunter).fear + 1 }
  else
    w.setHunter hunter { w.hunters hunter with boredom := (w.hunters hunter).boredom + 1 }

/-- The argument `rnd` is the value of `rand_int_threadsafe(0, count)` drawn for
the device swap; an index outside the table leaves the device as it was. -/
def hunter_check_van (w : House) (hunter : HunterPtr) (rnd : Nat) : House :=
  if !(w.rooms (w.hunters hunter).current_room).is_exit then
    w
  else
    let w := w.setHunter hunter
      { w.hunters hunter with path := roomstack_clear (w.hunters hunter).path }
    let w :=
      if (w.hunters hunter).return_to_van then
        w.setHunter hunter { w.hunters hunter with return_to_van := false }
      else w
    let w := sem_wait w .casefile
    if evidence_has_three_unique w.caseFile.collected &&
        evidence_is_valid_ghost w.caseFile.collected then
      let w := { w with caseFile := { w.caseFile with solved := true } }
      let w := sem_post w .casefile
      let cur := (w.hunters hunter).current_room
      let w := sem_wait w (.room cur)
      let w := w.setRoom cur (room_remove_hunter (w.rooms cur) hunter)
      let w := sem_post w (.room cur)
      w.setHunter hunter
        { w.hunters hunter with should_exit := true, exit_reason := .LR_EVIDENCE }
    else
      let w := sem_post w .casefile
      w.setHunter hunter
        { w.hunters hunter with
          device := all_evidence_types.getD rnd (w.hunters hunter).device }

def hunter_check_exit_conditions (w : House) (hunter : HunterPtr) : House :=
  if (w.hunters hunter).boredom > ENTITY_BOREDOM_MAX then
    let cur := (w.hunters hunter).current_room
    let w := sem_wait w (.room cur)
    let w := w.setRoom cur (room_remove_hunter (w.rooms cur) hunter)
    let w := sem_post w (.room cur)
    w.setHunter hunter { w.hunters hunter with should_exit := true, exit_reason := .LR_BORED }
  else if (w.hunters hunter).fear > HUNTER_FEAR_MAX then
    let cur := (w.hunters hunter).current_room
    let w := sem_wait w (.room cur)
    let w := w.setRoom cur (room_remove_hunter (w.rooms cur) hunter)
    let w := sem_post w (.room cur)
    w.setHunter hunter { w.hunters hunter with should_exit := true, exit_reason := .LR_AFRAID }
  else w

/-- The argument `rnd` is the value of `rand_int_threadsafe(0, 100)`, drawn only
on the branch without matching evidence. -/
def hunter_gather_evidence (w : House) (hunter : HunterPtr) (rnd : Nat) : House :=
  if (w.rooms (w.hunters hunter).current_room).is_exit then
    w
  else
    let cur := (w.hunters hunter).current_room
    let device := (w.hunters hunter).device
    let w := sem_wait w (.room cur)
    let has_matching_evidence := evidence_has (w.rooms cur).evidence device
    if has_matching_evidence then
      let w := w.setRoom cur
        { w.rooms cur with evidence := evidence_clear (w.rooms cur).evidence device }
      let w := sem_post w (.room cur)
      let w := sem_wait w .casefile
      let w := { w with
        caseFile := { w.caseFile with collected := evidence_set w.caseFile.collected device } }
      let w := sem_post w .casefile
      if !(w.rooms (w.hunters hunter).current_room).is_exit then
        w.setHunter hunter { w.hunters hunter with return_to_van := true }
      else w
    else
      let w := sem_post w (.room cur)
      if rnd < 10 then
        w.setHunter hunter { w.hunters hunter with return_to_van := true }
      else w

/-- The tail of `hunter_choose_move` once a non-`NULL` target is known: the move
attempt and the push of the room just left. -/
def hunter_choose_move_attempt (w : House) (hunter : HunterPtr) (old_room target_room : RoomPtr)
    (alloc_ok : Bool) : House :=
  let r := hunter_move w hunter target_room
  if r.1 && !(r.2.hunters hunter).return_to_van then
    r.2.setHunter hunter
      { r.2.hunters hunter with
        path := roomstack_push (r.2.hunters hunter).path (some old_room) alloc_ok }
  else r.2

/-- The argument `rnd` is the value of `rand_int_threadsafe(0, connection_count)`
and `alloc_ok` tells whether the `malloc` of `roomstack_push` succeeds.  A `NULL`
entry read from `connections` would be dereferenced by `hunter_move`; the house
is then returned as it is (the slots below `connection_count` are never
`NULL` after `room_connect`). -/
def hunter_choose_move (w : House) (hunter : HunterPtr) (rnd : Nat) (alloc_ok : Bool) : House :=
  let old_room := (w.hunters hunter).current_room
  if (w.hunters hunter).return_to_van then
    let r := roomstack_pop (w.hunters hunter).path
    let w := w.setHunter hunter { w.hunters hunter with path := r.2 }
    match r.1 with
    | none => w
    | some target_room => hunter_choose_move_attempt w hunter old_room target_room alloc_ok
  else
    if (w.rooms old_room).connection_count = 0 then
      w
    else
      match (w.rooms old_room).connections.getD rnd none with
      | none => w
      | some target_room => hunter_choose_move_attempt w hunter old_room target_room alloc_ok

/-- One iteration of the `while(!hunter->should_exit)` loop of `hunter_thread`,
entered with `should_exit` false. -/
def hunter_thread_body (w : House) (hunter : HunterPtr) (rnd_van rnd_gather rnd_move : Nat)
    (alloc_ok : Bool) : House :=
  let w := hunter_update_stats w hunter
  let w := hunter_check_van w hunter rnd_van
  let w := if !(w.hunters hunter).should_exit then hunter_check_exit_conditions w hunter else w
  if !(w.hunters hunter).should_exit then
    let w := hunter_gather_evidence w hunter rnd_gather
    hunter_choose_move w hunter rnd_move alloc_ok
  else w

/-! ## ghost.c -/

/-- The arguments are the values of `rand_int_threadsafe(0, count)` (index into
the table of ghost types; an index outside the table leaves the field as it
was) and of `rand_int_threadsafe(1, house->room_count)`. -/
def ghost_init (w : House) (rnd_type rnd_room : Nat) : House :=
  let w := { w with ghost := { w.ghost with
    id := DEFAULT_GHOST_ID
    type := all_ghost_types.getD rnd_type w.ghost.type
    current_room := rnd_room } }
  let w := w.setRoom rnd_room { w.rooms rnd_room with ghost := true }
  { w with ghost := { w.ghost with boredom := 0, has_exited := false } }

def ghost_update_stats (w : House) : House :=
  let r := room_has_hunters w w.ghost.current_room
  if r.1 then
    { r.2 with ghost := { r.2.ghost with boredom := 0 } }
  else
    { r.2 with ghost := { r.2.ghost with boredom := r.2.ghost.boredom + 1 } }

/-- Returns the `bool` result and the house after the call. -/
def ghost_check_exit (w : House) : Bool × House :=
  if w.ghost.boredom > ENTITY_BOREDOM_MAX then
    let w := { w with ghost := { w.ghost with has_exited := true } }
    let cur := w.ghost.current_room
    let w := sem_wait w (.room cur)
    let w := w.setRoom cur { w.rooms cur with ghost := false }
    let w := sem_post w (.room cur)
    (true, w)
  else (false, w)

/-- The loop of `ghost_leave_evidence` that copies into `ghost_evidence` the
kinds of the table whose bit is set in the ghost type, in table order.  The C
array has 3 elements; a write at index 3 or more is outside it. -/
def ghost_evidence_candidates (type : GhostType) : List EvidenceType :=
  all_evidence_types.foldl
    (fun ghost_evidence e => if (type.val &&& e.val) != 0 then ghost_evidence ++ [e]
      else ghost_evidence) []

/-- The argument `rnd` is the value of `rand_int_threadsafe(0, ghost_ev_count)`;
an index outside the collected kinds leaves the house as it is. -/
def ghost_leave_evidence (w : House) (rnd : Nat) : House :=
  let ghost_evidence := ghost_evidence_candidates w.ghost.type
  if ghost_evidence.length > 0 then
    match ghost_evidence.get? rnd with
    | none => w
    | some evidence_to_leave =>
      let cur := w.ghost.current_room
      let w := sem_wait w (.room cur)
      let w := w.setRoom cur
        { w.rooms cur with evidence := evidence_set (w.rooms cur).evidence evidence_to_leave }
      sem_post w (.room cur)
  else w

/-- The argument `rnd` is the value of
`rand_int_threadsafe(0, from_room->connection_count)`.  A `NULL` entry read from
`connections` would be dereferenced; the house is then returned as it is.  The
`sem_wait` calls are recorded in `lock_trace` and do not block: the function
describes the call made with the room semaphores free and a target room other
than the ghost's current room.  With a room connected with itself drawn as
target, `first` and `second` are the same semaphore and the call does not come
back from the second `sem_wait` (`ghost_move_self_target_blocks`); statements
about the house after a move take `target_room ≠ from_room` as a hypothesis. -/
def ghost_move (w : House) (rnd : Nat) : House :=
  let r := room_has_hunters w w.ghost.current_room
  if r.1 then
    r.2
  else
    let w := r.2
    if (w.rooms w.ghost.current_room).connection_count = 0 then
      w
    else
      let from_room := w.ghost.current_room
      match (w.rooms from_room).connections.getD rnd none with
      | none => w
      | some target_room =>
        let first := if from_room < target_room then from_room else target_room
        let second := if from_room < target_room then target_room else from_room
        let w := sem_wait w (.room first)
        let w := sem_wait w (.room second)
        let w := w.setRoom from_room { w.rooms from_room with ghost := false }
        let w := { w with ghost := { w.ghost with current_room := target_room } }
        let w := w.setRoom target_room { w.rooms target_room with ghost := true }
        let w := sem_post w (.room second)
        sem_post w (.room first)

/-- The argument `action` is the value of `rand_int_threadsafe(0, 3)` and `rnd`
the value drawn by the action chosen. -/
def ghost_take_action (w : House) (action rnd : Nat) : House :=
  if action = 0 then
    w
  else if action = 1 then
    ghost_leave_evidence w rnd
  else
    ghost_move w rnd

/-- One iteration of the `while(!ghost->has_exited)` loop of `ghost_thread`. -/
def ghost_thread_body (w : House) (action rnd : Nat) : House :=
  let w := ghost_update_stats w
  let r := ghost_check_exit w
  if !r.1 then ghost_take_action r.2 action rnd else r.2

/-! ## house.c -/

/-- The argument `malloc_ok` tells whether the `malloc` of the hunter array
returned a block.  The rooms and the other ghost fields are not written. -/
def house_init (w : House) (malloc_ok : Bool) : House :=
  { w with
    room_count := 0
    starting_room := none
    hunter_capacity := 4
    hunter_count := 0
    hunter_slots := if malloc_ok then 4 else 0
    caseFile := { collected := 0, solved := false }
    ghost := { w.ghost with has_exited := false } }

/-- The last two statements of `house_add_hunter`: the call of `hunter_init` on
the slot `hunters[hunter_count]` and the increment.  `hunter_init` dereferences
`starting_room` for its log line; with a `NULL` starting room the house is
returned as it is. -/
def house_add_hunter_store (w : House) (id : Int) (rnd : Nat) : House :=
  match w.starting_room with
  | none => w
  | some starting_room =>
    let w := w.setHunter w.hunter_count
      (hunter_init (w.hunters w.hunter_count) id starting_room rnd)
    { w with hunter_count := w.hunter_count + 1 }

/-- The argument `realloc_ok` tells whether `realloc` returns a block and `rnd`
is the draw of `hunter_init`. -/
def house_add_hunter (w : House) (id : Int) (rnd : Nat) (realloc_ok : Bool) : House :=
  if w.hunter_count ≥ w.hunter_capacity then
    let w := { w with hunter_capacity := w.hunter_capacity * 2 }
    if !realloc_ok then
      w
    else
      house_add_hunter_store { w with hunter_slots := w.hunter_capacity } id rnd
  else house_add_hunter_store w id rnd

/-! ## The operations of the program as data

Every function of the program that changes the house is one constructor, with
the values it draws as arguments, so that statements about "every operation"
and about every sequence of operations can be written down. -/

inductive HunterOp where
  | move (target_room : RoomPtr)
  | update_stats
  | check_van (rnd : Nat)
  | check_exit_conditions
  | gather_evidence (rnd : Nat)
  | choose_move (rnd : Nat) (alloc_ok : Bool)
  | thread_body (rnd_van rnd_gather rnd_move : Nat) (alloc_ok : Bool)
deriving DecidableEq, Repr

def HunterOp.run (w : House) (hunter : HunterPtr) : HunterOp → House
  | .move target_room => (hunter_move w hunter target_room).2
  | .update_stats => hunter_update_stats w hunter
  | .check_van rnd => hunter_check_van w hunter rnd
  | .check_exit_conditions => hunter_check_exit_conditions w hunter
  | .gather_evidence rnd => hunter_gather_evidence w hunter rnd
  | .choose_move rnd alloc_ok => hunter_choose_move w hunter rnd alloc_ok
  | .thread_body rnd_van rnd_gather rnd_move alloc_ok =>
    hunter_thread_body w hunter rnd_van rnd_gather rnd_move alloc_ok

inductive GhostOp where
  | update_stats
  | check_exit
  | leave_evidence (rnd : Nat)
  | move (rnd : Nat)
  | take_action (action rnd : Nat)
  | thread_body (action rnd : Nat)
deriving DecidableEq, Repr

def GhostOp.run (w : House) : GhostOp → House
  | .update_stats => ghost_update_stats w
  | .check_exit => (ghost_check_exit w).2
  | .leave_evidence rnd => ghost_leave_evidence w rnd
  | .move rnd => ghost_move w rnd
  | .take_action action rnd => ghost_take_action w action rnd
  | .thread_body action rnd => ghost_thread_body w action rnd

inductive Op where
  | room_init (room : RoomPtr) (is_exit : Bool)
  | room_connect (a b : RoomPtr)
  | room_add_evidence (room : RoomPtr) (evidence : EvidenceType)
  | room_add_hunter (room : RoomPtr) (hunter : HunterPtr)
  | room_remove_hunter (room : RoomPtr) (hunter : HunterPtr)
  | house_init (malloc_ok : Bool)
  | house_add_hunter (id : Int) (rnd : Nat) (realloc_ok : Bool)
  | ghost_init (rnd_type rnd_room : Nat)
  | hunter (hunter : HunterPtr) (op : HunterOp)
  | ghost (op : GhostOp)
deriving DecidableEq, Repr

def Op.run (w : House) : Op → House
  | .room_init room is_exit => w.setRoom room (GhostHunt.room_init is_exit)
  | .room_connect a b => GhostHunt.room_connect w a b
  | .room_add_evidence room evidence =>
    w.setRoom room (GhostHunt.room_add_evidence (w.rooms room) evidence)
  | .room_add_hunter room h =>
    w.setRoom room (GhostHunt.room_add_hunter (w.rooms room) h).2
  | .room_remove_hunter room h =>
    w.setRoom room (GhostHunt.room_remove_hunter (w.rooms room) h)
  | .house_init malloc_ok => GhostHunt.house_init w malloc_ok
  | .house_add_hunter id rnd realloc_ok => GhostHunt.house_add_hunter w id rnd realloc_ok
  | .ghost_init rnd_type rnd_room => GhostHunt.ghost_init w rnd_type rnd_room
  | .hunter h op => op.run w h
  | .ghost op => op.run w

/-- The house after a sequence of operations, first operation first. -/
def run_ops (w : House) (ops : List Op) : House :=
  ops.foldl Op.run w

/-! ## Auxiliary definitions for the statements -/

/-- Bit position of an evidence kind. -/
def EvidenceType.index : EvidenceType → Nat
  | .EV_EMF => 0
  | .EV_ORBS => 1
  | EvidenceType.EV_RADIO => 2
  | .EV_TEMPERATURE => 3
  | .EV_FINGERPRINTS => 4
  | .EV_WRITING => 5
  | .EV_INFRARED => 6

/-- What an operation may do to the case file: keep it, or set `solved`, or add
one kind to `collected`. -/
def CaseFile.grows (c d : CaseFile) : Prop :=
  (c.solved = true → d.solved = true) ∧
  (∀ t : EvidenceType,
    evidence_has c.collected t = true → evidence_has d.collected t = true) ∧
  evidence_count_bits c.collected ≤ evidence_count_bits d.collected

/-- The elementary changes the program makes to one room. -/
inductive RoomStep : Room → Room → Prop where
  | refl (r : Room) : RoomStep r r
  | trans {a b c : Room} : RoomStep a b → RoomStep b c → RoomStep a c
  | remove (r : Room) (h : HunterPtr) : RoomStep r (room_remove_hunter r h)
  | add (r : Room) (h : HunterPtr) : RoomStep r (room_add_hunter r h).2
  | set_evidence (r : Room) (t : EvidenceType) :
      RoomStep r { r with evidence := evidence_set r.evidence t }
  | clear_evidence (r : Room) (t : EvidenceType) :
      RoomStep r { r with evidence := evidence_clear r.evidence t }
  | set_ghost (r : Room) (b : Bool) : RoomStep r { r with ghost := b }
  | connect (r : Room) (q : RoomPtr) : r.connection_count < MAX_CONNECTIONS →
      RoomStep r { r with
        connections := r.connections.set r.connection_count (some q)
        connection_count := r.connection_count + 1 }
  | init (r : Room) (is_exit : Bool) : RoomStep r (room_init is_exit)

/-- The occupants of a room: the first `hunter_count` slots of `hunters`. -/
def Room.occupants (r : Room) : List (Option HunterPtr) :=
  r.hunters.take r.hunter_count

/-- The lock events of a two-room section on rooms `a` and `b`: acquire the room
with the lower address, acquire the other, release the other, release the first. -/
def two_room_lock_events (a b : RoomPtr) : List LockEvent :=
  [.wait (.room (min a b)), .wait (.room (max a b)),
   .post (.room (max a b)), .post (.room (min a b))]

/-- One lock event against the set of locks held: `none` when a room lock is
acquired while the case-file lock is held or the case-file lock is acquired
while a room lock is held, otherwise the locks held afterwards. -/
def lock_step (held : List LockId) : LockEvent → Option (List LockId)
  | .wait (.room r) => if held.contains .casefile then none else some (.room r :: held)
  | .wait .casefile =>
    if held.any (fun l => l != .casefile) then none else some (.casefile :: held)
  | .post l => some (held.erase l)

/-- Runs a trace of lock events from the locks `held`; `some h` when no event
violates the rule of `lock_step`, with `h` the locks held at the end. -/
def locks_apart : List LockId → List LockEvent → Option (List LockId)
  | held, [] => some held
  | held, e :: es => (lock_step held e).bind (fun h => locks_apart h es)

/-- The events added between two houses never hold the case-file lock together
with a room lock and leave no lock held. -/
def LocksApart (w v : House) : Prop :=
  ∃ es, v.lock_trace = w.lock_trace ++ es ∧ locks_apart [] es = some []

/-- Calls of `roomstack_push` for the rooms of the list in turn, every `malloc`
succeeding. -/
def roomstack_push_all (stack : RoomStack) (rooms : List RoomPtr) : RoomStack :=
  rooms.foldl (fun s r => roomstack_push s (some r) true) stack

/-- Runs `n` times `roomstack_is_empty` followed by `roomstack_pop`; returns the
results of the two calls of every round, first round first, and the stack left. -/
def roomstack_pop_n : Nat → RoomStack → List (Bool × Option RoomPtr) × RoomStack
  | 0, stack => ([], stack)
  | n + 1, stack =>
    let empty := roomstack_is_empty stack
    let r := roomstack_pop stack
    let rest := roomstack_pop_n n r.2
    ((empty, r.1) :: rest.1, rest.2)

/-- The fields of a hunter that decide whether and why its thread ends. -/
def Hunter.status (h : Hunter) : Nat × Nat × Bool × LogReason :=
  (h.fear, h.boredom, h.should_exit, h.exit_reason)

/-- The test of `hunter_check_van` that ends the hunt: the hunter stands in the
exit room and the ledger holds at least three kinds that form a ghost profile. -/
def van_check_solves (w : House) (hunter : HunterPtr) : Bool :=
  (w.rooms (w.hunters hunter).current_room).is_exit &&
    (evidence_has_three_unique w.caseFile.collected &&
      evidence_is_valid_ghost w.caseFile.collected)

/-! ## The loops of the two threads

`hunter_thread` and `ghost_thread` are `while` loops around one iteration
(`hunter_thread_body`, `ghost_thread_body`).  They are given by the house after
their first `n` iterations; between two iterations the other threads of the
program may run any list of operations. -/

/-- The values drawn during one iteration of the loop of `hunter_thread`: by the
device swap of `hunter_check_van`, by `hunter_gather_evidence`, by
`hunter_choose_move`, and whether the `malloc` of `roomstack_push` succeeds. -/
structure HunterDraws where
  rnd_van : Nat
  rnd_gather : Nat
  rnd_move : Nat
  alloc_ok : Bool
deriving DecidableEq, Repr

/-- The house after the first `n` iterations of the loop
`while(!hunter->should_exit)` of `hunter_thread`.  Iteration `i` (counted from
0) draws the values `draws i`; before it tests the loop condition, the other
threads perform the operations `others i`.  Once the condition fails the thread
has returned and changes nothing any more. -/
def hunter_thread_iterations (hunter : HunterPtr) (draws : Nat → HunterDraws)
    (others : Nat → List Op) : Nat → House → House
  | 0, w => w
  | n + 1, w =>
    let w := hunter_thread_iterations hunter draws others n w
    let w := run_ops w (others n)
    if (w.hunters hunter).should_exit then w
    else hunter_thread_body w hunter (draws n).rnd_van (draws n).rnd_gather (draws n).rnd_move
      (draws n).alloc_ok

/-- The house in which iteration `i` of the loop of `hunter_thread` starts: the
house after `i` iterations and the operations `others i` of the other threads. -/
def hunter_iteration_start (hunter : HunterPtr) (draws : Nat → HunterDraws)
    (others : Nat → List Op) (i : Nat) (w : House) : House :=
  run_ops (hunter_thread_iterations hunter draws others i w) (others i)

/-- The house after the first `n` iterations of the loop
`while(!ghost->has_exited)` of `ghost_thread`.  Iteration `i` (counted from 0)
draws the action `(draws i).1` and the value `(draws i).2` for it; before it
tests the loop condition, the other threads perform the operations `others i`.
Once the condition fails the thread has returned and changes nothing any more. -/
def ghost_thread_iterations (draws : Nat → Nat × Nat) (others : Nat → List Op) :
    Nat → House → House
  | 0, w => w
  | n + 1, w =>
    let w := ghost_thread_iterations draws others n w
    let w := run_ops w (others n)
    if w.ghost.has_exited then w else ghost_thread_body w (draws n).1 (draws n).2

/-- The house in which iteration `i` of the loop of `ghost_thread` starts: the
house after `i` iterations and the operations `others i` of the other threads. -/
def ghost_iteration_start (draws : Nat → Nat × Nat) (others : Nat → List Op) (i : Nat)
    (w : House) : House :=
  run_ops (ghost_thread_iterations draws others i w) (others i)

/-- The rooms adjacent to a room: the first `connection_count` slots of
`connections`. -/
def Room.neighbours (r : Room) : List (Option RoomPtr) :=
  r.connections.take r.connection_count

/-- The elementary changes the operations of a hunter thread make to one room:
they list and unlist hunters and clear evidence bits. -/
inductive HunterStep : Room → Room → Prop where
  | refl (r : Room) : HunterStep r r
  | trans {a b c : Room} : HunterStep a b → HunterStep b c → HunterStep a c
  | remove (r : Room) (h : HunterPtr) : HunterStep r (room_remove_hunter r h)
  | add (r : Room) (h : HunterPtr) : HunterStep r (room_add_hunter r h).2
  | clear_evidence (r : Room) (t : EvidenceType) :
      HunterStep r { r with evidence := evidence_clear r.evidence t }

/-- Every evidence kind of the mask `m` is a kind of the mask `n`. -/
def evidence_within (m n : EvidenceByte) : Prop :=
  ∀ t : EvidenceType, evidence_has m t = true → evidence_has n t = true

/-- The evidence of the house comes from the ghost: the mask of every room and
the ledger hold only kinds of the ghost type, and a solved case file holds exactly
the ghost type. -/
def OnProfile (w : House) : Prop :=
  (∀ p : RoomPtr, evidence_within (w.rooms p).evidence w.ghost.type.val) ∧
  evidence_within w.caseFile.collected w.ghost.type.val ∧
  (w.caseFile.solved = true → w.caseFile.collected = w.ghost.type.val)

/-- The ghost references of the rooms agree with the ghost: a room refers to the
ghost exactly when the ghost has not exited and the room is its current room. -/
def GhostRef (w : House) : Prop :=
  ∀ p : RoomPtr, (w.rooms p).ghost = (!w.ghost.has_exited && decide (p = w.ghost.current_room))

/-- Is the operation one of a hunter thread. -/
def Op.by_hunter : Op → Bool
  | .hunter _ _ => true
  | _ => false

/-- Is the operation one of a hunter thread or of the ghost thread. -/
def Op.by_actor : Op → Bool
  | .hunter _ _ => true
  | .ghost _ => true
  | _ => false

/-! ## Interleaved execution of two moves

The functions above run one call from start to end.  To speak about two
actors moving at the same time, `hunter_move` and `ghost_move` are also given
statement by statement: a thread is a program counter with the locals of the
call, one step executes one statement on the shared house, and `sem_wait` on a
semaphore whose value is 0 cannot step.  Room semaphores start at 1
(`sem_init(&room->mutex,0,1)`).  Run alone towards another room, a thread
computes what the function of the same name computes
(`hunter_move_thread_alone`, `ghost_move_thread_alone`); run alone towards the
room it starts in, it stops for good at the second `sem_wait`
(`hunter_move_self_target_blocks`, `ghost_move_self_target_blocks`). -/

/-- The shared memory of the threads: the house and the values of the room
semaphores. -/
structure Shared where
  house : House
  sem : RoomPtr → Nat

/-- The call `sem_wait(&room->mutex)`: blocked (`none`) when the value is 0, otherwise the
value is decremented. -/
def Shared.wait (s : Shared) (room : RoomPtr) : Option Shared :=
  if s.sem room = 0 then none
  else some { house := sem_wait s.house (.room room)
              sem := Function.update s.sem room (s.sem room - 1) }

/-- The call `sem_post(&room->mutex)`: the value is incremented. -/
def Shared.post (s : Shared) (room : RoomPtr) : Shared :=
  { house := sem_post s.house (.room room)
    sem := Function.update s.sem room (s.sem room + 1) }

/-- The statement of `hunter_move` a thread is about to execute: `start` is
`from_room = hunter->current_room` (the locals `first` and `second` follow from
it), `wait_first` and `wait_second` are the two `sem_wait`, `check` is the test
`target_room->hunter_count >= MAX_ROOM_OCCUPANCY`, `full_post_second` and
`full_post_first` are the two `sem_post` before `return false`, `remove` is the
call of `room_remove_hunter`, `set_room` the assignment to
`hunter->current_room`, `add` the call of `room_add_hunter`, `post_second` and
`post_first` the two `sem_post` before `return true`, and `done r` is reached
when the call has returned `r`. -/
inductive MovePc where
  | start
  | wait_first
  | wait_second
  | check
  | full_post_second
  | full_post_first
  | remove
  | set_room
  | add
  | post_second
  | post_first
  | done (result : Bool)
deriving DecidableEq, Repr

/-- A call `hunter_move(hunter, target_room)` in progress; `from_room` is the
local variable, set by the first statement. -/
structure MoveThread where
  hunter : HunterPtr
  target_room : RoomPtr
  from_room : RoomPtr
  pc : MovePc
deriving DecidableEq, Repr

/-- The local `first` of `hunter_move`. -/
def MoveThread.first (t : MoveThread) : RoomPtr :=
  if t.from_room < t.target_room then t.from_room else t.target_room

/-- The local `second` of `hunter_move`. -/
def MoveThread.second (t : MoveThread) : RoomPtr :=
  if t.from_room < t.target_room then t.target_room else t.from_room

/-- One statement of `hunter_move`; `none` when the thread is blocked in
`sem_wait` or has returned. -/
def MoveThread.step (s : Shared) (t : MoveThread) : Option (Shared × MoveThread) :=
  match t.pc with
  | .start =>
    some (s, { t with from_room := (s.house.hunters t.hunter).current_room, pc := .wait_first })
  | .wait_first => (s.wait t.first).map (fun s => (s, { t with pc := .wait_second }))
  | .wait_second => (s.wait t.second).map (fun s => (s, { t with pc := .check }))
  | .check =>
    if (s.house.rooms t.target_room).hunter_count ≥ MAX_ROOM_OCCUPANCY then
      some (s, { t with pc := .full_post_second })
    else some (s, { t with pc := .remove })
  | .full_post_second => some (s.post t.second, { t with pc := .full_post_first })
  | .full_post_first => some (s.post t.first, { t with pc := .done false })
  | .remove =>
    some ({ s with house := (s.house.setRoom t.from_room
              (room_remove_hunter (s.house.rooms t.from_room) t.hunter)) },
          { t with pc := .set_room })
  | .set_room =>
    some ({ s with house := (s.house.setHunter t.hunter
              { s.house.hunters t.hunter with current_room := t.target_room }) },
          { t with pc := .add })
  | .add =>
    some ({ s with house := (s.house.setRoom t.target_room
              (room_add_hunter (s.house.rooms t.target_room) t.hunter).2) },
          { t with pc := .post_second })
  | .post_second => some (s.post t.second, { t with pc := .post_first })
  | .post_first => some (s.post t.first, { t with pc := .done true })
  | .done _ => none

/-- The statement of `ghost_move` a thread is about to execute:
`has_hunters_wait`, `has_hunters_read` and `has_hunters_post` are the three
statements of `room_has_hunters` (the `return` on a true result is taken with
the last), `check_connections` is the test `connection_count == 0`, `pick` reads
`from_room` and `target_room = from_room->connections[random_index]`,
`wait_first` and `wait_second` are the two `sem_wait`, `clear_from` is
`from_room->ghost = NULL`, `set_current` the assignment to
`ghost->current_room`, `set_target` is `target_room->ghost = ghost`,
`post_second` and `post_first` are the two `sem_post`, and `done` is reached
when the call has returned. -/
inductive GhostPc where
  | has_hunters_wait
  | has_hunters_read
  | has_hunters_post (result : Bool)
  | check_connections
  | pick
  | wait_first
  | wait_second
  | clear_from
  | set_current
  | set_target
  | post_second
  | post_first
  | done
deriving DecidableEq, Repr

/-- A call `ghost_move(ghost)` in progress with its draw `rnd` and its locals. -/
structure GhostThread where
  rnd : Nat
  from_room : RoomPtr
  target_room : RoomPtr
  pc : GhostPc
deriving DecidableEq, Repr

def GhostThread.first (t : GhostThread) : RoomPtr :=
  if t.from_room < t.target_room then t.from_room else t.target_room

def GhostThread.second (t : GhostThread) : RoomPtr :=
  if t.from_room < t.target_room then t.target_room else t.from_room

/-- One statement of `ghost_move`; `none` when the thread is blocked in
`sem_wait` or has returned.  The `return` after `room_has_hunters` is taken
together with its `sem_post`. -/
def GhostThread.step (s : Shared) (t : GhostThread) : Option (Shared × GhostThread) :=
  match t.pc with
  | .has_hunters_wait =>
    (s.wait s.house.ghost.current_room).map (fun s => (s, { t with pc := .has_hunters_read }))
  | .has_hunters_read =>
    some (s, { t with pc := (.has_hunters_post
      (decide ((s.house.rooms s.house.ghost.current_room).hunter_count > 0))) })
  | .has_hunters_post result =>
    some (s.post s.house.ghost.current_room,
      { t with pc := if result then .done else .check_connections })
  | .check_connections =>
    if (s.house.rooms s.house.ghost.current_room).connection_count = 0 then
      some (s, { t with pc := .done })
    else some (s, { t with pc := .pick })
  | .pick =>
    match (s.house.rooms s.house.ghost.current_room).connections.getD t.rnd none with
    | none => some (s, { t with pc := .done })
    | some target_room =>
      some (s, { t with from_room := s.house.ghost.current_room, target_room := target_room,
                        pc := .wait_first })
  | .wait_first => (s.wait t.first).map (fun s => (s, { t with pc := .wait_second }))
  | .wait_second => (s.wait t.second).map (fun s => (s, { t with pc := .clear_from }))
  | .clear_from =>
    some ({ s with house := (s.house.setRoom t.from_room
              { s.house.rooms t.from_room with ghost := false }) },
          { t with pc := .set_current })
  | .set_current =>
    some ({ s with house := { s.house with
              ghost := { s.house.ghost with current_room := t.target_room } } },
          { t with pc := .set_target })
  | .set_target =>
    some ({ s with house := (s.house.setRoom t.target_room
              { s.house.rooms t.target_room with ghost := true }) },
          { t with pc := .post_second })
  | .post_second => some (s.post t.second, { t with pc := .post_first })
  | .post_first => some (s.post t.first, { t with pc := .done })
  | .done => none

/-- An actor: a hunter executing `hunter_move` or the ghost executing
`ghost_move`. -/
inductive Actor where
  | hunter (t : MoveThread)
  | ghost (t : GhostThread)
deriving DecidableEq, Repr

def Actor.step (s : Shared) : Actor → Option (Shared × Actor)
  | .hunter t => (t.step s).map (fun r => (r.1, .hunter r.2))
  | .ghost t => (t.step s).map (fun r => (r.1, .ghost r.2))

/-- The call has returned. -/
def Actor.finished : Actor → Bool
  | .hunter t => match t.pc with
    | .done _ => true
    | _ => false
  | .ghost t => decide (t.pc = .done)

/-- Two actors running on one shared memory. -/
structure Conc where
  shared : Shared
  left : Actor
  right : Actor

/-- One step of the actor chosen by the scheduler (`true` for the left one);
`none` when that actor is blocked or has returned. -/
def Conc.step (c : Conc) (pick_left : Bool) : Option Conc :=
  if pick_left then
    (c.left.step c.shared).map (fun r => { c with shared := r.1, left := r.2 })
  else
    (c.right.step c.shared).map (fun r => { c with shared := r.1, right := r.2 })

/-- The state after an interleaving, given as the list of scheduler choices;
`none` when a chosen actor could not step. -/
def Conc.run (c : Conc) : List Bool → Option Conc
  | [] => some c
  | b :: rest => (c.step b).bind (fun c => c.run rest)

def Conc.finished (c : Conc) : Bool :=
  c.left.finished && c.right.finished

/-- Number of times a hunter is listed among the occupants of a room. -/
def Room.listed (r : Room) (hunter : HunterPtr) : Nat :=
  r.occupants.count (some hunter)

/-- Runs a thread of `hunter_move` alone for at most `n` statements. -/
def MoveThread.run_alone : Nat → Shared → MoveThread → Shared × MoveThread
  | 0, s, t => (s, t)
  | n + 1, s, t =>
    match t.step s with
    | none => (s, t)
    | some r => MoveThread.run_alone n r.1 r.2

/-- Runs a thread of `ghost_move` alone for at most `n` statements. -/
def GhostThread.run_alone : Nat → Shared → GhostThread → Shared × GhostThread
  | 0, s, t => (s, t)
  | n + 1, s, t =>
    match t.step s with
    | none => (s, t)
    | some r => GhostThread.run_alone n r.1 r.2

/-- Is 1 when a thread of `hunter_move` at this statement holds the lock `first`. -/
def MovePc.holds_first : MovePc → Nat
  | .wait_second | .check | .full_post_second | .full_post_first | .remove | .set_room | .add
  | .post_second | .post_first => 1
  | _ => 0

/-- Is 1 when a thread of `hunter_move` at this statement holds the lock `second`. -/
def MovePc.holds_second : MovePc → Nat
  | .check | .full_post_second | .remove | .set_room | .add | .post_second => 1
  | _ => 0

/-- Is 1 when a thread of `hunter_move` from `src` to `dst` at statement `pc` holds
the lock of room `r`. -/
def MovePc.holds (pc : MovePc) (src dst r : RoomPtr) : Nat :=
  if r = (if src < dst then src else dst) then pc.holds_first
  else if r = (if src < dst then dst else src) then pc.holds_second
  else 0

/-- What is known of hunter `h` moving from `src` to `dst` when its thread is at
statement `pc`: where `current_room` points, how often the hunter is listed in
the two rooms, and that the target has a free slot once the check has passed. -/
def MoveData (w : House) (h : HunterPtr) (src dst : RoomPtr) : MovePc → Prop
  | .remove =>
    (w.hunters h).current_room = src ∧ (w.rooms src).listed h = 1 ∧
      (w.rooms dst).listed h = 0 ∧ (w.rooms dst).hunter_count < MAX_ROOM_OCCUPANCY
  | .set_room =>
    (w.hunters h).current_room = src ∧ (w.rooms src).listed h = 0 ∧
      (w.rooms dst).listed h = 0 ∧ (w.rooms dst).hunter_count < MAX_ROOM_OCCUPANCY
  | .add =>
    (w.hunters h).current_room = dst ∧ (w.rooms src).listed h = 0 ∧
      (w.rooms dst).listed h = 0 ∧ (w.rooms dst).hunter_count < MAX_ROOM_OCCUPANCY
  | .post_second | .post_first | .done true =>
    (w.hunters h).current_room = dst ∧ (w.rooms src).listed h = 0 ∧ (w.rooms dst).listed h = 1
  | _ =>
    (w.hunters h).current_room = src ∧ (w.rooms src).listed h = 1 ∧ (w.rooms dst).listed h = 0

/-- The two rooms are well formed: 8 slots, at most 8 occupants. -/
def RoomsOk (w : House) (a b : RoomPtr) : Prop :=
  (w.rooms a).hunters.length = MAX_ROOM_OCCUPANCY ∧
  (w.rooms a).hunter_count ≤ MAX_ROOM_OCCUPANCY ∧
  (w.rooms b).hunters.length = MAX_ROOM_OCCUPANCY ∧
  (w.rooms b).hunter_count ≤ MAX_ROOM_OCCUPANCY

/-- What a step of `hunter_move` by hunter `h` leaves alone: the ghost, the
other hunters, the ghost reference and the connections of every room, the
listings of the other hunters; and the rooms change only while the other actor
holds neither lock (`xs`, `xd` are its holdings of the two locks). -/
def MoveFrame (w v : House) (h : HunterPtr) (xs xd : Nat) : Prop :=
  v.ghost = w.ghost ∧
  (∀ k, k ≠ h → v.hunters k = w.hunters k) ∧
  (∀ r, (v.rooms r).ghost = (w.rooms r).ghost ∧
    (v.rooms r).connections = (w.rooms r).connections ∧
    (v.rooms r).connection_count = (w.rooms r).connection_count) ∧
  (∀ k r, k ≠ h → (v.rooms r).listed k = (w.rooms r).listed k) ∧
  (v.rooms = w.rooms ∨ (xs = 0 ∧ xd = 0))

/-- Invariant of two hunters moving in opposite directions: hunter `h1` from
room `a` to room `b` (left actor) and hunter `h2` from `b` to `a` (right actor). -/
def DuelInv (a b : RoomPtr) (h1 h2 : HunterPtr) (c : Conc) : Prop :=
  ∃ t1 t2 : MoveThread,
    c.left = .hunter t1 ∧ c.right = .hunter t2 ∧
    t1.hunter = h1 ∧ t1.target_room = b ∧ (t1.pc ≠ .start → t1.from_room = a) ∧
    t2.hunter = h2 ∧ t2.target_room = a ∧ (t2.pc ≠ .start → t2.from_room = b) ∧
    c.shared.sem a + t1.pc.holds a b a + t2.pc.holds b a a = 1 ∧
    c.shared.sem b + t1.pc.holds a b b + t2.pc.holds b a b = 1 ∧
    RoomsOk c.shared.house a b ∧
    MoveData c.shared.house h1 a b t1.pc ∧
    MoveData c.shared.house h2 b a t2.pc

/-- Is 1 when a thread of `ghost_move` at this statement is inside
`room_has_hunters`, holding the lock of the ghost's room. -/
def GhostPc.in_probe : GhostPc → Nat
  | .has_hunters_read | .has_hunters_post _ => 1
  | _ => 0

/-- Is 1 when a thread of `ghost_move` at this statement holds the lock `first`. -/
def GhostPc.holds_first : GhostPc → Nat
  | .wait_second | .clear_from | .set_current | .set_target | .post_second | .post_first => 1
  | _ => 0

/-- Is 1 when a thread of `ghost_move` at this statement holds the lock `second`. -/
def GhostPc.holds_second : GhostPc → Nat
  | .clear_from | .set_current | .set_target | .post_second => 1
  | _ => 0

/-- The number of times a thread of `ghost_move` from `src` to `dst` at statement
`pc` holds the lock of room `r`. -/
def GhostPc.holds (pc : GhostPc) (src dst r : RoomPtr) : Nat :=
  (if r = src then pc.in_probe else 0) +
  (if r = (if src < dst then src else dst) then pc.holds_first
   else if r = (if src < dst then dst else src) then pc.holds_second
   else 0)

/-- The ghost is in room `r` and in no other of the two rooms `r`, `o`:
`current_room` points to `r`, the ghost reference of `r` is set and that of `o`
is `NULL`. -/
def ghost_in (w : House) (r o : RoomPtr) : Prop :=
  w.ghost.current_room = r ∧ (w.rooms r).ghost = true ∧ (w.rooms o).ghost = false

/-- What is known of the ghost moving from `src` to `dst` when its thread is at
statement `t.pc`. -/
def GhostData (w : House) (src dst : RoomPtr) (t : GhostThread) : Prop :=
  match t.pc with
  | .has_hunters_wait | .has_hunters_read | .has_hunters_post _ | .check_connections | .pick =>
    ghost_in w src dst
  | .wait_first | .wait_second | .clear_from =>
    ghost_in w src dst ∧ t.from_room = src ∧ t.target_room = dst
  | .set_current =>
    w.ghost.current_room = src ∧ (w.rooms src).ghost = false ∧ (w.rooms dst).ghost = false ∧
      t.from_room = src ∧ t.target_room = dst
  | .set_target =>
    w.ghost.current_room = dst ∧ (w.rooms src).ghost = false ∧ (w.rooms dst).ghost = false ∧
      t.from_room = src ∧ t.target_room = dst
  | .post_second | .post_first =>
    ghost_in w dst src ∧ t.from_room = src ∧ t.target_room = dst
  | .done => ghost_in w src dst ∨ ghost_in w dst src

/-- What a step of `ghost_move` leaves alone: the hunters and, in every room,
the occupants, the count and the connections. -/
def GhostFrame (w v : House) : Prop :=
  v.hunters = w.hunters ∧
  ∀ r, (v.rooms r).hunters = (w.rooms r).hunters ∧
    (v.rooms r).hunter_count = (w.rooms r).hunter_count ∧
    (v.rooms r).connections = (w.rooms r).connections ∧
    (v.rooms r).connection_count = (w.rooms r).connection_count

/-- Invariant of a hunter and the ghost moving in opposite directions: hunter
`h` from room `a` to room `b` (left actor) and the ghost from `b` to `a` (right
actor, with draw `rnd`). -/
def HauntInv (a b : RoomPtr) (h : HunterPtr) (rnd : Nat) (c : Conc) : Prop :=
  ∃ (t : MoveThread) (g : GhostThread),
    c.left = .hunter t ∧ c.right = .ghost g ∧
    t.hunter = h ∧ t.target_room = b ∧ (t.pc ≠ .start → t.from_room = a) ∧
    g.rnd = rnd ∧
    c.shared.sem a + t.pc.holds a b a + g.pc.holds b a a = 1 ∧
    c.shared.sem b + t.pc.holds a b b + g.pc.holds b a b = 1 ∧
    RoomsOk c.shared.house a b ∧
    MoveData c.shared.house h a b t.pc ∧
    GhostData c.shared.house b a g ∧
    (c.shared.house.rooms b).connections.getD rnd none = some a

/-- Upper bound on the statements a thread of `hunter_move` still has to execute. -/
def MovePc.fuel : MovePc → Nat
  | .start => 9
  | .wait_first => 8
  | .wait_second => 7
  | .check => 6
  | .remove => 5
  | .set_room => 4
  | .add => 3
  | .post_second => 2
  | .post_first => 1
  | .full_post_second => 2
  | .full_post_first => 1
  | .done _ => 0

/-- Upper bound on the statements a thread of `ghost_move` still has to execute. -/
def GhostPc.fuel : GhostPc → Nat
  | .has_hunters_wait => 12
  | .has_hunters_read => 11
  | .has_hunters_post _ => 10
  | .check_connections => 9
  | .pick => 8
  | .wait_first => 7
  | .wait_second => 6
  | .clear_from => 5
  | .set_current => 4
  | .set_target => 3
  | .post_second => 2
  | .post_first => 1
  | .done => 0

def Actor.fuel : Actor → Nat
  | .hunter t => t.pc.fuel
  | .ghost t => t.pc.fuel

def Conc.fuel (c : Conc) : Nat :=
  c.left.fuel + c.right.fuel

/-- The value `hunter_move` returned, once the thread has returned. -/
def Actor.result : Actor → Option Bool
  | .hunter t => match t.pc with
    | .done r => some r
    | _ => none
  | .ghost _ => none

/-- Hunter `h` is in room `r` and not in room `o`: `current_room` points to `r`,
the hunter is listed exactly once among the occupants of `r` and not at all
among those of `o`. -/
def hunter_in (w : House) (h : HunterPtr) (r o : RoomPtr) : Prop :=
  (w.hunters h).current_room = r ∧ (w.rooms r).listed h = 1 ∧ (w.rooms o).listed h = 0

/-- Two hunters about to call `hunter_move`: `h1` towards `b` (left actor) and
`h2` towards `a` (right actor). -/
def two_hunters (s : Shared) (h1 h2 : HunterPtr) (a b : RoomPtr) : Conc :=
  { shared := s
    left := .hunter { hunter := h1, target_room := b, from_room := 0, pc := .start }
    right := .hunter { hunter := h2, target_room := a, from_room := 0, pc := .start } }

/-- A hunter about to call `hunter_move` towards `b` (left actor) and the ghost
about to call `ghost_move` with draw `rnd` (right actor). -/
def hunter_and_ghost (s : Shared) (h : HunterPtr) (b : RoomPtr) (rnd : Nat) : Conc :=
  { shared := s
    left := .hunter { hunter := h, target_room := b, from_room := 0, pc := .start }
    right := .ghost { rnd := rnd, from_room := 0, target_room := 0, pc := .has_hunters_wait } }

/-! ## Concrete houses used to instantiate the theorems -/

/-- A hunter as `hunter_init` leaves it, standing in room `room` with device `device`. -/
def sample_hunter (room : RoomPtr) (device : EvidenceType) : Hunter :=
  { id := 1, current_room := room, device := device, path := roomstack_init, fear := 0,
    boredom := 0, should_exit := false, return_to_van := false, exit_reason := .LR_BORED }

/-- Room 0 is the van (exit), every other room is an ordinary room; all rooms are
as `room_init` leaves them, hunter 0 stands in room 1 and the ghost is a
poltergeist placed in room 1. -/
def sample_house : House :=
  { rooms := fun p => room_init (p == 0)
    room_count := 2
    starting_room := some 0
    hunters := fun _ => sample_hunter 1 .EV_EMF
    hunter_count := 1
    hunter_capacity := 4
    hunter_slots := 4
    caseFile := { collected := 0, solved := false }
    ghost := { id := DEFAULT_GHOST_ID, type := .GH_POLTERGEIST, current_room := 1, boredom := 0,
               has_exited := false }
    lock_trace := [] }

/-- A room holding the eight hunters 10..17. -/
def full_room : Room :=
  { room_init false with
    hunters := [some 10, some 11, some 12, some 13, some 14, some 15, some 16, some 17]
    hunter_count := 8 }

/-- The sample house with the case already solved by the profile of a poltergeist. -/
def solved_house : House :=
  { sample_house with caseFile := { collected := GhostType.GH_POLTERGEIST.val, solved := true } }

/-- The sample house with room 2 holding eight hunters. -/
def crowded_house : House :=
  sample_house.setRoom 2 full_room

/-- The sample house with evidence of kind EMF lying in room 1, where hunter 0
stands with an EMF device. -/
def evidence_house : House :=
  sample_house.setRoom 1 { room_init false with evidence := EvidenceType.EV_EMF.val }

/-- The sample house after `room_connect` of the van (room 0) and room 1. -/
def connected_house : House :=
  room_connect sample_house 0 1

/-- Hunter 0 stands in the van (room 0) and is listed there; the case file holds
the three kinds of a poltergeist and is not yet solved. -/
def van_house : House :=
  { sample_house with
    rooms := fun p => if p = 0 then (room_add_hunter (room_init true) 0).2 else room_init false
    hunters := fun _ => sample_hunter 0 .EV_EMF
    caseFile := { collected := GhostType.GH_POLTERGEIST.val, solved := false } }

/-- Hunter 0 stands in room 1 and hunter 1 in room 2, each listed in its room. -/
def duel_house : House :=
  { sample_house with
    rooms := fun p =>
      if p = 1 then (room_add_hunter (room_init false) 0).2
      else if p = 2 then (room_add_hunter (room_init false) 1).2
      else room_init (p == 0)
    hunters := fun h => if h = 0 then sample_hunter 1 .EV_EMF else sample_hunter 2 .EV_EMF }

/-- Hunter 0 stands in room 1, listed there; rooms 1 and 2 are connected and the
ghost has been placed in room 2. -/
def haunted_house : House :=
  ghost_init (room_connect
    { sample_house with
      rooms := fun p => if p = 1 then (room_add_hunter (room_init false) 0).2
                        else room_init (p == 0) } 1 2) 0 2

/-- The duel house with every room semaphore at 1. -/
def duel_start : Shared :=
  { house := duel_house, sem := fun _ => 1 }

/-- The haunted house with every room semaphore at 1. -/
def haunt_start : Shared :=
  { house := haunted_house, sem := fun _ => 1 }

/-- An interleaving of two calls of `hunter_move`: both read their room, then
the left actor runs to the end, then the right one. -/
def duel_schedule : List Bool :=
  [true, false, true, true, true, true, true, true, true, true,
   false, false, false, false, false, false, false, false]

/-- An interleaving of `hunter_move` and `ghost_move`: the ghost finds its room
empty and picks its target, the hunter moves, then the ghost moves. -/
def haunt_schedule : List Bool :=
  [false, false, false, false, false, true, true, true, true, true, true, true, true, true,
   false, false, false, false, false, false, false]

/-- Hunters 1, 0 and 2 stand in room 1 and are listed there in this order;
hunter 3 stands in room 2 and is listed there. -/
def queue_house : House :=
  { sample_house with
    rooms := fun p =>
      if p = 1 then
        (room_add_hunter (room_add_hunter (room_add_hunter (room_init false) 1).2 0).2 2).2
      else if p = 2 then (room_add_hunter (room_init false) 3).2
      else room_init (p == 0)
    hunters := fun h => if h = 3 then sample_hunter 2 .EV_EMF else sample_hunter 1 .EV_EMF }

/-- Hunter 0 has walked from the van (room 0) to room 1, where it is listed, and
has `return_to_van` set with the van on its trail; meanwhile the van has filled
up with the eight hunters 10..17, who stand there. -/
def returning_house : House :=
  { sample_house with
    rooms := fun p =>
      if p = 0 then { full_room with is_exit := true }
      else if p = 1 then (room_add_hunter (room_init false) 0).2
      else room_init false
    hunters := fun h =>
      if h = 0 then
        { sample_hunter 1 .EV_EMF with return_to_van := true, path := { head := [some 0] } }
      else sample_hunter 0 .EV_EMF }

/-- The van (room 0) and room 1 are connected, hunter 0 stands in room 1 and is
listed there, and the ghost has been placed in room 2, which has no connections. -/
def quiet_house : House :=
  ghost_init (room_connect
    { sample_house with
      rooms := fun p => if p = 1 then (room_add_hunter (room_init false) 0).2
                        else room_init (p == 0) } 0 1) 0 2

/-- Hunter 0 is back in the van (room 0) and listed there, with `return_to_van`
still set, room 1 left on its trail and an EMF device; the ledger holds the kind
ORBS only. -/
def parked_house : House :=
  { sample_house with
    rooms := fun p => if p = 0 then (room_add_hunter (room_init true) 0).2 else room_init false
    hunters := fun _ =>
      { sample_hunter 0 .EV_EMF with return_to_van := true, path := { head := [some 1] } }
    caseFile := { collected := EvidenceType.EV_ORBS.val, solved := false } }

/-- Hunter 0 stands in room 1 between hunters 1 and 2 as in the queue house, with
boredom 16 and fear 16. -/
def weary_house : House :=
  queue_house.setHunter 0 { sample_hunter 1 .EV_EMF with boredom := 16, fear := 16 }

/-- Hunter 0 stands in room 1, listed there; rooms 1 and 2 are connected and the
ghost has been placed in room 1. -/
def cornered_house : House :=
  ghost_init (room_connect
    { sample_house with
      rooms := fun p => if p = 1 then (room_add_hunter (room_init false) 0).2
                        else room_init (p == 0) } 1 2) 0 1

/-- The quiet house with the boredom of the ghost at 15. -/
def fading_house : House :=
  { quiet_house with ghost := { quiet_house.ghost with boredom := 15 } }

/-- Rooms as `room_init` leaves them, then room 0 connected with each of the
rooms 1..8, which fills its 8 connection slots. -/
def hub_house : House :=
  run_ops sample_house
    [Op.room_connect 0 1, Op.room_connect 0 2, Op.room_connect 0 3, Op.room_connect 0 4,
     Op.room_connect 0 5, Op.room_connect 0 6, Op.room_connect 0 7, Op.room_connect 0 8]

/-- The house after `house_init` with a block of 4 hunter slots, the van as
starting room, and four calls of `house_add_hunter`, which fill the block. -/
def staffed_house : House :=
  run_ops { house_init sample_house true with starting_room := some 0, room_count := 2 }
    [Op.house_add_hunter 1 0 true, Op.house_add_hunter 2 1 true, Op.house_add_hunter 3 2 true,
     Op.house_add_hunter 4 3 true]

/-- Rooms as `room_init` leaves them with the van (room 0) connected to room 1
and room 1 to room 2, and one hunter (index 0) added by `house_add_hunter`, which
starts in the van. -/
def corridor_house : House :=
  house_add_hunter
    (room_connect (room_connect { sample_house with room_count := 3, hunter_count := 0 } 0 1) 1 2)
    7 0 true

/-- The draws of hunter 0 of the corridor house: it walks from the van to room 1,
on to room 2 and back to room 1, and in iteration 3 draws 5 in
`hunter_gather_evidence`, which sets `return_to_van`. -/
def corridor_draws (i : Nat) : HunterDraws :=
  if i = 1 then ⟨0, 50, 1, true⟩
  else if i = 3 then ⟨0, 5, 0, true⟩
  else ⟨0, 50, 0, true⟩

/-- What the other threads do between the iterations of hunter 0 of the corridor
house: before iteration 3, eight hunters are listed in room 2. -/
def corridor_others (i : Nat) : List Op :=
  if i = 3 then
    [Op.room_add_hunter 2 10, Op.room_add_hunter 2 11, Op.room_add_hunter 2 12,
     Op.room_add_hunter 2 13, Op.room_add_hunter 2 14, Op.room_add_hunter 2 15,
     Op.room_add_hunter 2 16, Op.room_add_hunter 2 17]
  else []

/-- The corridor house after four iterations of the loop of hunter 0. -/
def stalled_house : House :=
  hunter_thread_iterations 0 corridor_draws corridor_others 4 corridor_house

/-- Rooms as `room_init` leaves them and the case file as `house_init` leaves it;
hunters 0, 1 and 2 stand in room 1 with devices for the three kinds of a
poltergeist and hunter 3 stands in the van. -/
def case_house : House :=
  { sample_house with
    hunters := fun h =>
      if h = 0 then sample_hunter 1 .EV_TEMPERATURE
      else if h = 1 then sample_hunter 1 .EV_FINGERPRINTS
      else if h = 2 then sample_hunter 1 .EV_WRITING
      else sample_hunter 0 .EV_EMF
    hunter_count := 4 }

/-- The ghost leaves its three kinds of evidence in room 1, hunters 0, 1 and 2
gather one kind each, and hunter 3 checks the case file in the van. -/
def case_ops : List Op :=
  [Op.ghost (GhostOp.leave_evidence 0), Op.ghost (GhostOp.leave_evidence 1),
   Op.ghost (GhostOp.leave_evidence 2), Op.hunter 0 (HunterOp.gather_evidence 50),
   Op.hunter 1 (HunterOp.gather_evidence 50), Op.hunter 2 (HunterOp.gather_evidence 50),
   Op.hunter 3 (HunterOp.check_van 0)]

/-- Rooms as `room_init` leaves them, hunter 0 in room 1 and the ghost placed in
room 2 by `ghost_init`. -/
def lone_house : House :=
  ghost_init sample_house 0 2

/-- Rooms as `room_init` leaves them with the van (room 0) connected to room 1,
room 1 to room 2 and room 2 to room 3, the ghost placed in room 3 by
`ghost_init`, and then one hunter (index 0) added by `house_add_hunter`, which
starts in the van. -/
def idle_house : House :=
  house_add_hunter
    (ghost_init
      (room_connect (room_connect (room_connect
        { sample_house with room_count := 4, hunter_count := 0 } 0 1) 1 2) 2 3) 0 3)
    7 0 true

/-- The idle house at the start of the fifth iteration of the loop of hunter 0
(iteration 4 counted from 0), run with the draws and the other threads of the
corridor house: the hunter has walked from the van to room 1, to room 2 and back
to room 1, and its return move to room 2, full by then, has failed. -/
def idle_stalled_house : House :=
  hunter_iteration_start 0 corridor_draws corridor_others 4 idle_house

/-- The house in which hunter 0 calls `hunter_move` in that fifth iteration:
after `hunter_update_stats`, `hunter_check_van`, `hunter_check_exit_conditions`
and `hunter_gather_evidence` (draw 50), and after `hunter_choose_move` has
popped the top of the trail. -/
def idle_call_house : House :=
  let w := hunter_update_stats idle_stalled_house 0
  let w := hunter_check_van w 0 0
  let w := hunter_check_exit_conditions w 0
  let w := hunter_gather_evidence w 0 50
  w.setHunter 0 { w.hunters 0 with path := (roomstack_pop (w.hunters 0).path).2 }

/-! ## Basic facts -/


theorem EvidenceType.val_eq_two_pow (t : EvidenceType) : t.val = 2 ^ t.index := by
  cases t <;> rfl

theorem EvidenceType.index_lt (t : EvidenceType) : t.index < 7 := by
  cases t <;> decide

theorem EvidenceType.index_injective {t u : EvidenceType} (h : t.index = u.index) : t = u := by
  cases t <;> cases u <;> first | rfl | (exact absurd h (by decide))

theorem and_two_pow_ne_zero (m k : Nat) : ((m &&& 2 ^ k) != 0) = m.testBit k := by
  rw [Nat.and_two_pow]
  cases hb : m.testBit k
  · simp
  · have : 2 ^ k ≠ 0 := by positivity
    simp [this]

theorem evidence_has_eq_testBit (m : EvidenceByte) (t : EvidenceType) :
    evidence_has m t = m.testBit t.index := by
  unfold evidence_has
  rw [EvidenceType.val_eq_two_pow, and_two_pow_ne_zero]

theorem evidence_set_testBit (m : EvidenceByte) (t : EvidenceType) (i : Nat) :
    (evidence_set m t).testBit i = (decide (i < 8) && (m.testBit i || decide (t.index = i))) := by
  unfold evidence_set
  rw [show (256 : Nat) = 2 ^ 8 from rfl, Nat.testBit_mod_two_pow, Nat.testBit_or,
    EvidenceType.val_eq_two_pow, Nat.testBit_two_pow]

theorem evidence_clear_testBit (m : EvidenceByte) (t : EvidenceType) (i : Nat) :
    (evidence_clear m t).testBit i =
      (decide (i < 8) && (m.testBit i && !decide (t.index = i))) := by
  unfold evidence_clear
  have hk : t.val < 2 ^ 32 := by cases t <;> decide
  rw [show (256 : Nat) = 2 ^ 8 from rfl, Nat.testBit_mod_two_pow, Nat.testBit_and,
    show 2 ^ 32 - 1 - t.val = 2 ^ 32 - (t.val + 1) by omega,
    Nat.testBit_two_pow_sub_succ hk, EvidenceType.val_eq_two_pow, Nat.testBit_two_pow]
  by_cases h8 : i < 8
  · have : i < 32 := by omega
    simp [h8, this]
  · simp [h8]

theorem evidence_set_lt (m : EvidenceByte) (t : EvidenceType) : evidence_set m t < 256 :=
  Nat.mod_lt _ (by decide)

theorem evidence_clear_lt (m : EvidenceByte) (t : EvidenceType) : evidence_clear m t < 256 :=
  Nat.mod_lt _ (by decide)

theorem evidence_has_set_self (m : EvidenceByte) (t : EvidenceType) :
    evidence_has (evidence_set m t) t = true := by
  have := t.index_lt
  rw [evidence_has_eq_testBit, evidence_set_testBit]
  simp; omega

theorem evidence_has_set_other (m : EvidenceByte) {t u : EvidenceType} (h : u ≠ t) :
    evidence_has (evidence_set m t) u = evidence_has m u := by
  have := u.index_lt
  have hne : t.index ≠ u.index := fun e => h (EvidenceType.index_injective e).symm
  rw [evidence_has_eq_testBit, evidence_set_testBit, evidence_has_eq_testBit]
  have h8 : u.index < 8 := by omega
  simp [h8, hne]

theorem evidence_has_set_of_has (m : EvidenceByte) (t u : EvidenceType)
    (h : evidence_has m u = true) : evidence_has (evidence_set m t) u = true := by
  by_cases e : u = t
  · subst e; exact evidence_has_set_self m u
  · rw [evidence_has_set_other m e]; exact h

theorem evidence_has_clear_self (m : EvidenceByte) (t : EvidenceType) :
    evidence_has (evidence_clear m t) t = false := by
  rw [evidence_has_eq_testBit, evidence_clear_testBit]
  simp

theorem evidence_has_clear_other (m : EvidenceByte) {t u : EvidenceType} (h : u ≠ t) :
    evidence_has (evidence_clear m t) u = evidence_has m u := by
  have := u.index_lt
  have hne : t.index ≠ u.index := fun e => h (EvidenceType.index_injective e).symm
  rw [evidence_has_eq_testBit, evidence_clear_testBit, evidence_has_eq_testBit]
  have h8 : u.index < 8 := by omega
  simp [h8, hne]

theorem count_foldl_mono (l : List Nat) (p q : Nat → Bool)
    (hpq : ∀ i ∈ l, p i = true → q i = true) (a b : Nat) (hab : a ≤ b) :
    l.foldl (fun count i => if p i then count + 1 else count) a ≤
      l.foldl (fun count i => if q i then count + 1 else count) b := by
  induction l generalizing a b with
  | nil => simpa using hab
  | cons x xs ih =>
    simp only [List.foldl_cons]
    apply ih (fun i hi => hpq i (List.mem_cons_of_mem _ hi))
    have hx := hpq x (List.mem_cons_self _ _)
    cases hp : p x <;> cases hq : q x <;> simp_all
    omega

theorem evidence_count_bits_mono (m n : EvidenceByte)
    (h : ∀ i < 8, m.testBit i = true → n.testBit i = true) :
    evidence_count_bits m ≤ evidence_count_bits n := by
  unfold evidence_count_bits
  have key : ∀ (x : Nat),
      (fun (count i : Nat) => if (x &&& (1 <<< i)) != 0 then count + 1 else count)
      = (fun (count i : Nat) => if x.testBit i then count + 1 else count) := by
    intro x; funext count i
    rw [Nat.one_shiftLeft, and_two_pow_ne_zero]
  rw [key m, key n]
  apply count_foldl_mono _ _ _ _ _ _ (le_refl 0)
  intro i hi
  exact h i (List.mem_range.mp hi)

theorem evidence_count_bits_set_ge (m : EvidenceByte) (t : EvidenceType) :
    evidence_count_bits m ≤ evidence_count_bits (evidence_set m t) := by
  apply evidence_count_bits_mono
  intro i hi hb
  rw [evidence_set_testBit]
  simp [hi, hb]


theorem roomstack_clear_loop_length (n : Nat) (stack : RoomStack) (h : stack.head.length ≤ n) :
    roomstack_clear_loop n stack = { head := [] } := by
  induction n generalizing stack with
  | zero =>
    cases stack with
    | mk head =>
      have : head = [] := List.length_eq_zero.mp (Nat.le_zero.mp h)
      subst this; rfl
  | succ n ih =>
    cases stack with
    | mk head =>
      cases head with
      | nil => rfl
      | cons x xs =>
        simp only [roomstack_clear_loop, roomstack_is_empty, roomstack_pop, List.isEmpty_cons]
        exact ih _ (by simpa using h)

theorem roomstack_clear_eq (stack : RoomStack) : roomstack_clear stack = { head := [] } :=
  roomstack_clear_loop_length _ _ (le_refl _)

@[simp] theorem sem_wait_rooms (w : House) (l : LockId) : (sem_wait w l).rooms = w.rooms := rfl
@[simp] theorem sem_wait_hunters (w : House) (l : LockId) :
    (sem_wait w l).hunters = w.hunters := rfl
@[simp] theorem sem_wait_caseFile (w : House) (l : LockId) :
    (sem_wait w l).caseFile = w.caseFile := rfl
@[simp] theorem sem_wait_ghost (w : House) (l : LockId) : (sem_wait w l).ghost = w.ghost := rfl
@[simp] theorem sem_post_rooms (w : House) (l : LockId) : (sem_post w l).rooms = w.rooms := rfl
@[simp] theorem sem_post_hunters (w : House) (l : LockId) :
    (sem_post w l).hunters = w.hunters := rfl
@[simp] theorem sem_post_caseFile (w : House) (l : LockId) :
    (sem_post w l).caseFile = w.caseFile := rfl
@[simp] theorem sem_post_ghost (w : House) (l : LockId) : (sem_post w l).ghost = w.ghost := rfl
@[simp] theorem setRoom_hunters (w : House) (p : RoomPtr) (r : Room) :
    (w.setRoom p r).hunters = w.hunters := rfl
@[simp] theorem setRoom_caseFile (w : House) (p : RoomPtr) (r : Room) :
    (w.setRoom p r).caseFile = w.caseFile := rfl
@[simp] theorem setRoom_ghost (w : House) (p : RoomPtr) (r : Room) :
    (w.setRoom p r).ghost = w.ghost := rfl
@[simp] theorem setRoom_lock_trace (w : House) (p : RoomPtr) (r : Room) :
    (w.setRoom p r).lock_trace = w.lock_trace := rfl
@[simp] theorem setRoom_rooms (w : House) (p : RoomPtr) (r : Room) :
    (w.setRoom p r).rooms = Function.update w.rooms p r := rfl
@[simp] theorem setHunter_rooms (w : House) (h : HunterPtr) (x : Hunter) :
    (w.setHunter h x).rooms = w.rooms := rfl
@[simp] theorem setHunter_caseFile (w : House) (h : HunterPtr) (x : Hunter) :
    (w.setHunter h x).caseFile = w.caseFile := rfl
@[simp] theorem setHunter_ghost (w : House) (h : HunterPtr) (x : Hunter) :
    (w.setHunter h x).ghost = w.ghost := rfl
@[simp] theorem setHunter_lock_trace (w : House) (h : HunterPtr) (x : Hunter) :
    (w.setHunter h x).lock_trace = w.lock_trace := rfl
@[simp] theorem setHunter_hunters (w : House) (h : HunterPtr) (x : Hunter) :
    (w.setHunter h x).hunters = Function.update w.hunters h x := rfl

theorem CaseFile.grows_refl (c : CaseFile) : c.grows c :=
  ⟨id, fun _ h => h, le_refl _⟩

theorem CaseFile.grows_trans {c d e : CaseFile} (h1 : c.grows d) (h2 : d.grows e) : c.grows e :=
  ⟨fun h => h2.1 (h1.1 h), fun t h => h2.2.1 t (h1.2.1 t h), le_trans h1.2.2 h2.2.2⟩

theorem hunter_move_caseFile (w : House) (hunter : HunterPtr) (t : RoomPtr) :
    (hunter_move w hunter t).2.caseFile = w.caseFile := by
  simp only [hunter_move]
  split_ifs <;> simp

theorem hunter_update_stats_caseFile (w : House) (hunter : HunterPtr) :
    (hunter_update_stats w hunter).caseFile = w.caseFile := by
  simp only [hunter_update_stats]
  split_ifs <;> simp

theorem hunter_check_van_caseFile (w : House) (hunter : HunterPtr) (rnd : Nat) :
    (hunter_check_van w hunter rnd).caseFile = w.caseFile ∨
    (hunter_check_van w hunter rnd).caseFile = { w.caseFile with solved := true } := by
  simp only [hunter_check_van]
  split_ifs <;> simp

theorem hunter_check_exit_conditions_caseFile (w : House) (hunter : HunterPtr) :
    (hunter_check_exit_conditions w hunter).caseFile = w.caseFile := by
  simp only [hunter_check_exit_conditions]
  split_ifs <;> simp

theorem hunter_gather_evidence_caseFile (w : House) (hunter : HunterPtr) (rnd : Nat) :
    (hunter_gather_evidence w hunter rnd).caseFile = w.caseFile ∨
    (hunter_gather_evidence w hunter rnd).caseFile =
      { w.caseFile with
        collected := evidence_set w.caseFile.collected (w.hunters hunter).device } := by
  simp only [hunter_gather_evidence]
  split_ifs <;> simp

theorem hunter_choose_move_attempt_caseFile (w : House) (hunter : HunterPtr) (o t : RoomPtr)
    (b : Bool) : (hunter_choose_move_attempt w hunter o t b).caseFile = w.caseFile := by
  simp only [hunter_choose_move_attempt]
  split_ifs <;> simp [hunter_move_caseFile]

theorem hunter_choose_move_caseFile (w : House) (hunter : HunterPtr) (rnd : Nat) (b : Bool) :
    (hunter_choose_move w hunter rnd b).caseFile = w.caseFile := by
  simp only [hunter_choose_move]
  split_ifs
  · split <;> simp [hunter_choose_move_attempt_caseFile]
  · rfl
  · split <;> simp [hunter_choose_move_attempt_caseFile]

theorem RoomStep.update_self (f : RoomPtr → Room) (a p : RoomPtr) (r : Room)
    (h : RoomStep (f a) r) : RoomStep (f p) (Function.update f a r p) := by
  by_cases hp : p = a
  · subst hp; simpa using h
  · rw [Function.update_noteq hp]; exact RoomStep.refl _

theorem hunter_move_room_step (w : House) (hunter : HunterPtr) (t p : RoomPtr) :
    RoomStep (w.rooms p) ((hunter_move w hunter t).2.rooms p) := by
  simp only [hunter_move]
  split_ifs
  all_goals try simp only [sem_wait_rooms, sem_post_rooms, setRoom_rooms, setHunter_rooms]
  all_goals first
    | exact RoomStep.refl _
    | exact RoomStep.trans (RoomStep.update_self _ _ _ _ (RoomStep.remove _ _))
        (RoomStep.update_self _ _ _ _ (RoomStep.add _ _))

theorem hunter_update_stats_rooms (w : House) (hunter : HunterPtr) :
    (hunter_update_stats w hunter).rooms = w.rooms := by
  simp only [hunter_update_stats]
  split_ifs <;> simp

theorem hunter_check_van_room_step (w : House) (hunter : HunterPtr) (rnd : Nat) (p : RoomPtr) :
    RoomStep (w.rooms p) ((hunter_check_van w hunter rnd).rooms p) := by
  simp only [hunter_check_van]
  split_ifs
  all_goals try simp only [sem_wait_rooms, sem_post_rooms, setRoom_rooms, setHunter_rooms]
  all_goals first
    | exact RoomStep.refl _
    | exact RoomStep.update_self _ _ _ _ (RoomStep.remove _ _)

theorem hunter_check_exit_conditions_room_step (w : House) (hunter : HunterPtr) (p : RoomPtr) :
    RoomStep (w.rooms p) ((hunter_check_exit_conditions w hunter).rooms p) := by
  simp only [hunter_check_exit_conditions]
  split_ifs
  all_goals try simp only [sem_wait_rooms, sem_post_rooms, setRoom_rooms, setHunter_rooms]
  all_goals first
    | exact RoomStep.refl _
    | exact RoomStep.update_self _ _ _ _ (RoomStep.remove _ _)

theorem hunter_gather_evidence_room_step (w : House) (hunter : HunterPtr) (rnd : Nat)
    (p : RoomPtr) : RoomStep (w.rooms p) ((hunter_gather_evidence w hunter rnd).rooms p) := by
  simp only [hunter_gather_evidence]
  split_ifs
  all_goals try simp only [sem_wait_rooms, sem_post_rooms, setRoom_rooms, setHunter_rooms]
  all_goals first
    | exact RoomStep.refl _
    | exact RoomStep.update_self _ _ _ _ (RoomStep.clear_evidence _ _)

theorem hunter_choose_move_attempt_room_step (w : House) (hunter : HunterPtr) (o t : RoomPtr)
    (b : Bool) (p : RoomPtr) :
    RoomStep (w.rooms p) ((hunter_choose_move_attempt w hunter o t b).rooms p) := by
  simp only [hunter_choose_move_attempt]
  split_ifs
  all_goals try simp only [setHunter_rooms]
  all_goals exact hunter_move_room_step _ _ _ _

theorem hunter_choose_move_room_step (w : House) (hunter : HunterPtr) (rnd : Nat) (b : Bool)
    (p : RoomPtr) : RoomStep (w.rooms p) ((hunter_choose_move w hunter rnd b).rooms p) := by
  simp only [hunter_choose_move]
  split_ifs
  · split
    · exact RoomStep.refl _
    · exact hunter_choose_move_attempt_room_step (w.setHunter hunter _) _ _ _ _ _
  · exact RoomStep.refl _
  · split
    · exact RoomStep.refl _
    · exact hunter_choose_move_attempt_room_step _ _ _ _ _ _



theorem room_remove_hunter_loop_count (room : Room) (hunter : HunterPtr) (n i : Nat) :
    (room_remove_hunter_loop room hunter n i).hunter_count ≤ room.hunter_count := by
  induction n generalizing i with
  | zero => simp [room_remove_hunter_loop]
  | succ n ih =>
    unfold room_remove_hunter_loop
    split
    · simp
    · exact ih (i + 1)

theorem room_remove_hunter_count_le (room : Room) (hunter : HunterPtr) :
    (room_remove_hunter room hunter).hunter_count ≤ room.hunter_count :=
  room_remove_hunter_loop_count room hunter _ _

theorem room_add_hunter_count_le (room : Room) (hunter : HunterPtr)
    (h : room.hunter_count ≤ MAX_ROOM_OCCUPANCY) :
    (room_add_hunter room hunter).2.hunter_count ≤ MAX_ROOM_OCCUPANCY := by
  unfold room_add_hunter
  split
  · exact h
  · simp only; omega

theorem RoomStep.of_rooms_eq {f g : RoomPtr → Room} (h : g = f) (p : RoomPtr) :
    RoomStep (f p) (g p) := by
  subst h; exact RoomStep.refl _

theorem hunter_thread_body_room_step (w : House) (hunter : HunterPtr) (r1 r2 r3 : Nat) (b : Bool)
    (p : RoomPtr) :
    RoomStep (w.rooms p) ((hunter_thread_body w hunter r1 r2 r3 b).rooms p) := by
  have h1 : RoomStep (w.rooms p) ((hunter_update_stats w hunter).rooms p) :=
    RoomStep.of_rooms_eq (hunter_update_stats_rooms w hunter) p
  have h2 := hunter_check_van_room_step (hunter_update_stats w hunter) hunter r1 p
  simp only [hunter_thread_body]
  split_ifs
  all_goals first
    | exact h1.trans h2
    | exact (h1.trans h2).trans (hunter_check_exit_conditions_room_step _ _ _)
    | exact (h1.trans h2).trans
        ((hunter_gather_evidence_room_step _ _ _ _).trans (hunter_choose_move_room_step _ _ _ _ _))
    | exact (h1.trans h2).trans ((hunter_check_exit_conditions_room_step _ _ _).trans
        ((hunter_gather_evidence_room_step _ _ _ _).trans (hunter_choose_move_room_step _ _ _ _ _)))

theorem hunter_op_room_step (w : House) (hunter : HunterPtr) (op : HunterOp) (p : RoomPtr) :
    RoomStep (w.rooms p) ((op.run w hunter).rooms p) := by
  cases op with
  | move t => exact hunter_move_room_step _ _ _ _
  | update_stats => exact RoomStep.of_rooms_eq (hunter_update_stats_rooms w hunter) p
  | check_van rnd => exact hunter_check_van_room_step _ _ _ _
  | check_exit_conditions => exact hunter_check_exit_conditions_room_step _ _ _
  | gather_evidence rnd => exact hunter_gather_evidence_room_step _ _ _ _
  | choose_move rnd b => exact hunter_choose_move_room_step _ _ _ _ _
  | thread_body r1 r2 r3 b => exact hunter_thread_body_room_step _ _ _ _ _ _ _

@[simp] theorem room_has_hunters_rooms (w : House) (r : RoomPtr) :
    (room_has_hunters w r).2.rooms = w.rooms := rfl
@[simp] theorem room_has_hunters_hunters (w : House) (r : RoomPtr) :
    (room_has_hunters w r).2.hunters = w.hunters := rfl
@[simp] theorem room_has_hunters_caseFile (w : House) (r : RoomPtr) :
    (room_has_hunters w r).2.caseFile = w.caseFile := rfl
@[simp] theorem room_has_hunters_ghost (w : House) (r : RoomPtr) :
    (room_has_hunters w r).2.ghost = w.ghost := rfl
@[simp] theorem room_has_hunters_result (w : House) (r : RoomPtr) :
    (room_has_hunters w r).1 = decide ((w.rooms r).hunter_count > 0) := rfl

theorem ghost_update_stats_rooms (w : House) : (ghost_update_stats w).rooms = w.rooms := by
  simp only [ghost_update_stats]
  split_ifs <;> rfl

theorem ghost_check_exit_room_step (w : House) (p : RoomPtr) :
    RoomStep (w.rooms p) ((ghost_check_exit w).2.rooms p) := by
  simp only [ghost_check_exit]
  split_ifs
  · exact RoomStep.update_self _ _ _ _ (RoomStep.set_ghost _ _)
  · exact RoomStep.refl _

theorem ghost_leave_evidence_room_step (w : House) (rnd : Nat) (p : RoomPtr) :
    RoomStep (w.rooms p) ((ghost_leave_evidence w rnd).rooms p) := by
  simp only [ghost_leave_evidence]
  split_ifs
  · split
    · exact RoomStep.refl _
    · exact RoomStep.update_self _ _ _ _ (RoomStep.set_evidence _ _)
  · exact RoomStep.refl _

theorem ghost_move_room_step (w : House) (rnd : Nat) (p : RoomPtr) :
    RoomStep (w.rooms p) ((ghost_move w rnd).rooms p) := by
  simp only [ghost_move]
  split_ifs
  · exact RoomStep.refl _
  · exact RoomStep.refl _
  · split
    · exact RoomStep.refl _
    · exact RoomStep.trans (RoomStep.update_self _ _ _ _ (RoomStep.set_ghost _ _))
        (RoomStep.update_self _ _ _ _ (RoomStep.set_ghost _ _))

theorem ghost_take_action_room_step (w : House) (action rnd : Nat) (p : RoomPtr) :
    RoomStep (w.rooms p) ((ghost_take_action w action rnd).rooms p) := by
  simp only [ghost_take_action]
  split_ifs
  · exact RoomStep.refl _
  · exact ghost_leave_evidence_room_step _ _ _
  · exact ghost_move_room_step _ _ _

theorem ghost_thread_body_room_step (w : House) (action rnd : Nat) (p : RoomPtr) :
    RoomStep (w.rooms p) ((ghost_thread_body w action rnd).rooms p) := by
  have h1 : RoomStep (w.rooms p) ((ghost_update_stats w).rooms p) :=
    RoomStep.of_rooms_eq (ghost_update_stats_rooms w) p
  have h2 := ghost_check_exit_room_step (ghost_update_stats w) p
  simp only [ghost_thread_body]
  split_ifs
  · exact (h1.trans h2).trans (ghost_take_action_room_step _ _ _ _)
  · exact h1.trans h2

theorem ghost_op_room_step (w : House) (op : GhostOp) (p : RoomPtr) :
    RoomStep (w.rooms p) ((op.run w).rooms p) := by
  cases op with
  | update_stats => exact RoomStep.of_rooms_eq (ghost_update_stats_rooms w) p
  | check_exit => exact ghost_check_exit_room_step _ _
  | leave_evidence rnd => exact ghost_leave_evidence_room_step _ _ _
  | move rnd => exact ghost_move_room_step _ _ _
  | take_action action rnd => exact ghost_take_action_room_step _ _ _ _
  | thread_body action rnd => exact ghost_thread_body_room_step _ _ _ _

theorem room_connect_room_step (w : House) (a b p : RoomPtr) :
    RoomStep (w.rooms p) ((room_connect w a b).rooms p) := by
  simp only [room_connect]
  split_ifs with h1 h2 h2
  · exact RoomStep.trans (RoomStep.update_self _ _ _ _ (RoomStep.connect _ _ h1))
      (RoomStep.update_self _ _ _ _ (RoomStep.connect _ _ h2))
  · exact RoomStep.update_self _ _ _ _ (RoomStep.connect _ _ h1)
  · exact RoomStep.update_self _ _ _ _ (RoomStep.connect _ _ h2)
  · exact RoomStep.refl _

theorem house_add_hunter_rooms (w : House) (id : Int) (rnd : Nat) (b : Bool) :
    (house_add_hunter w id rnd b).rooms = w.rooms := by
  simp only [house_add_hunter, house_add_hunter_store]
  split_ifs
  · rfl
  · split <;> rfl
  · split <;> rfl

theorem op_room_step (w : House) (op : Op) (p : RoomPtr) :
    RoomStep (w.rooms p) ((op.run w).rooms p) := by
  cases op with
  | room_init r e => exact RoomStep.update_self _ _ _ _ (RoomStep.init _ _)
  | room_connect a b => exact room_connect_room_step _ _ _ _
  | room_add_evidence r e => exact RoomStep.update_self _ _ _ _ (RoomStep.set_evidence _ _)
  | room_add_hunter r h => exact RoomStep.update_self _ _ _ _ (RoomStep.add _ _)
  | room_remove_hunter r h => exact RoomStep.update_self _ _ _ _ (RoomStep.remove _ _)
  | house_init b => exact RoomStep.refl _
  | house_add_hunter id rnd b => exact RoomStep.of_rooms_eq (house_add_hunter_rooms _ _ _ _) p
  | ghost_init rt rr => exact RoomStep.update_self _ _ _ _ (RoomStep.set_ghost _ _)
  | hunter h op => exact hunter_op_room_step _ _ _ _
  | ghost op => exact ghost_op_room_step _ _ _

theorem run_ops_room_step (w : House) (ops : List Op) (p : RoomPtr) :
    RoomStep (w.rooms p) ((run_ops w ops).rooms p) := by
  induction ops generalizing w with
  | nil => exact RoomStep.refl _
  | cons op ops ih => exact (op_room_step w op p).trans (ih (op.run w))

theorem CaseFile.grows_of_eq {c d : CaseFile} (h : d = c) : c.grows d := by
  subst h; exact CaseFile.grows_refl _

theorem CaseFile.grows_solved (c : CaseFile) : c.grows { c with solved := true } :=
  ⟨fun _ => rfl, fun _ h => h, le_refl _⟩

theorem CaseFile.grows_set (c : CaseFile) (t : EvidenceType) :
    c.grows { c with collected := evidence_set c.collected t } :=
  ⟨id, fun u h => evidence_has_set_of_has _ t u h, evidence_count_bits_set_ge _ _⟩

theorem hunter_check_van_grows (w : House) (hunter : HunterPtr) (rnd : Nat) :
    w.caseFile.grows (hunter_check_van w hunter rnd).caseFile := by
  rcases hunter_check_van_caseFile w hunter rnd with h | h
  · exact CaseFile.grows_of_eq h
  · rw [h]; exact CaseFile.grows_solved _

theorem hunter_gather_evidence_grows (w : House) (hunter : HunterPtr) (rnd : Nat) :
    w.caseFile.grows (hunter_gather_evidence w hunter rnd).caseFile := by
  rcases hunter_gather_evidence_caseFile w hunter rnd with h | h
  · exact CaseFile.grows_of_eq h
  · rw [h]; exact CaseFile.grows_set _ _

theorem hunter_thread_body_grows (w : House) (hunter : HunterPtr) (r1 r2 r3 : Nat) (b : Bool) :
    w.caseFile.grows (hunter_thread_body w hunter r1 r2 r3 b).caseFile := by
  have h1 : w.caseFile.grows (hunter_update_stats w hunter).caseFile :=
    CaseFile.grows_of_eq (hunter_update_stats_caseFile w hunter)
  have h2 := CaseFile.grows_trans h1
    (hunter_check_van_grows (hunter_update_stats w hunter) hunter r1)
  have h3 : ∀ v : House, v.caseFile.grows (hunter_check_exit_conditions v hunter).caseFile :=
    fun v => CaseFile.grows_of_eq (hunter_check_exit_conditions_caseFile v hunter)
  have h4 : ∀ v : House, v.caseFile.grows
      (hunter_choose_move (hunter_gather_evidence v hunter r2) hunter r3 b).caseFile :=
    fun v => CaseFile.grows_trans (hunter_gather_evidence_grows v hunter r2)
      (CaseFile.grows_of_eq (hunter_choose_move_caseFile _ hunter r3 b))
  simp only [hunter_thread_body]
  split_ifs
  all_goals first
    | exact h2
    | exact CaseFile.grows_trans h2 (h3 _)
    | exact CaseFile.grows_trans h2 (h4 _)
    | exact CaseFile.grows_trans h2 (CaseFile.grows_trans (h3 _) (h4 _))

theorem hunter_op_grows (w : House) (hunter : HunterPtr) (op : HunterOp) :
    w.caseFile.grows (op.run w hunter).caseFile := by
  cases op with
  | move t => exact CaseFile.grows_of_eq (hunter_move_caseFile _ _ _)
  | update_stats => exact CaseFile.grows_of_eq (hunter_update_stats_caseFile _ _)
  | check_van rnd => exact hunter_check_van_grows _ _ _
  | check_exit_conditions => exact CaseFile.grows_of_eq (hunter_check_exit_conditions_caseFile _ _)
  | gather_evidence rnd => exact hunter_gather_evidence_grows _ _ _
  | choose_move rnd b => exact CaseFile.grows_of_eq (hunter_choose_move_caseFile _ _ _ _)
  | thread_body r1 r2 r3 b => exact hunter_thread_body_grows _ _ _ _ _ _

theorem ghost_update_stats_caseFile (w : House) :
    (ghost_update_stats w).caseFile = w.caseFile := by
  simp only [ghost_update_stats]
  split_ifs <;> rfl

theorem ghost_check_exit_caseFile (w : House) :
    (ghost_check_exit w).2.caseFile = w.caseFile := by
  simp only [ghost_check_exit]
  split_ifs <;> rfl

theorem ghost_leave_evidence_caseFile (w : House) (rnd : Nat) :
    (ghost_leave_evidence w rnd).caseFile = w.caseFile := by
  simp only [ghost_leave_evidence]
  split_ifs
  · split <;> rfl
  · rfl

theorem ghost_move_caseFile (w : House) (rnd : Nat) :
    (ghost_move w rnd).caseFile = w.caseFile := by
  simp only [ghost_move]
  split_ifs
  · rfl
  · rfl
  · split <;> rfl

theorem ghost_take_action_caseFile (w : House) (action rnd : Nat) :
    (ghost_take_action w action rnd).caseFile = w.caseFile := by
  simp only [ghost_take_action]
  split_ifs
  · rfl
  · exact ghost_leave_evidence_caseFile _ _
  · exact ghost_move_caseFile _ _

theorem ghost_thread_body_caseFile (w : House) (action rnd : Nat) :
    (ghost_thread_body w action rnd).caseFile = w.caseFile := by
  simp only [ghost_thread_body]
  split_ifs
  · rw [ghost_take_action_caseFile, ghost_check_exit_caseFile, ghost_update_stats_caseFile]
  · rw [ghost_check_exit_caseFile, ghost_update_stats_caseFile]

theorem ghost_op_caseFile (w : House) (op : GhostOp) : (op.run w).caseFile = w.caseFile := by
  cases op with
  | update_stats => exact ghost_update_stats_caseFile _
  | check_exit => exact ghost_check_exit_caseFile _
  | leave_evidence rnd => exact ghost_leave_evidence_caseFile _ _
  | move rnd => exact ghost_move_caseFile _ _
  | take_action action rnd => exact ghost_take_action_caseFile _ _ _
  | thread_body action rnd => exact ghost_thread_body_caseFile _ _ _

theorem room_connect_caseFile (w : House) (a b : RoomPtr) :
    (room_connect w a b).caseFile = w.caseFile := by
  simp only [room_connect]
  split_ifs <;> rfl

theorem house_add_hunter_caseFile (w : House) (id : Int) (rnd : Nat) (b : Bool) :
    (house_add_hunter w id rnd b).caseFile = w.caseFile := by
  simp only [house_add_hunter, house_add_hunter_store]
  split_ifs
  · rfl
  · split <;> rfl
  · split <;> rfl

theorem op_grows (w : House) (op : Op) (hop : ∀ b, op ≠ Op.house_init b) :
    w.caseFile.grows (op.run w).caseFile := by
  cases op with
  | room_init r e => exact CaseFile.grows_refl _
  | room_connect a b => exact CaseFile.grows_of_eq (room_connect_caseFile _ _ _)
  | room_add_evidence r e => exact CaseFile.grows_refl _
  | room_add_hunter r h => exact CaseFile.grows_refl _
  | room_remove_hunter r h => exact CaseFile.grows_refl _
  | house_init b => exact absurd rfl (hop b)
  | house_add_hunter id rnd b => exact CaseFile.grows_of_eq (house_add_hunter_caseFile _ _ _ _)
  | ghost_init rt rr => exact CaseFile.grows_refl _
  | hunter h op => exact hunter_op_grows _ _ _
  | ghost op => exact CaseFile.grows_of_eq (ghost_op_caseFile _ _)

theorem RoomStep.hunter_count_le {r s : Room} (h : RoomStep r s)
    (hr : r.hunter_count ≤ MAX_ROOM_OCCUPANCY) : s.hunter_count ≤ MAX_ROOM_OCCUPANCY := by
  induction h with
  | refl r => exact hr
  | trans _ _ ih1 ih2 => exact ih2 (ih1 hr)
  | remove r h => exact le_trans (room_remove_hunter_count_le r h) hr
  | add r h => exact room_add_hunter_count_le r h hr
  | set_evidence r t => exact hr
  | clear_evidence r t => exact hr
  | set_ghost r b => exact hr
  | connect r q _ => exact hr
  | init r e => exact Nat.zero_le _


theorem room_shift_down_length (hs : List (Option HunterPtr)) (n j : Nat) :
    (room_shift_down hs n j).length = hs.length := by
  induction n generalizing hs j with
  | zero => rfl
  | succ n ih => simp [room_shift_down, ih]

theorem room_shift_down_eq (hs : List (Option HunterPtr)) (n j : Nat) (h : j + n < hs.length) :
    room_shift_down hs n j = hs.take j ++ (hs.drop (j + 1)).take n ++ hs.drop (j + n) := by
  induction n generalizing hs j with
  | zero => simp [room_shift_down]
  | succ n ih =>
    have hj : j < hs.length := by omega
    have hj1 : j + 1 < hs.length := by omega
    simp only [room_shift_down]
    rw [ih _ _ (by simpa using (by omega : j + 1 + n < hs.length))]
    rw [List.drop_set_of_lt _ _ (by omega : j < j + 1 + 1),
      List.drop_set_of_lt _ _ (by omega : j < j + 1 + n)]
    have htake : List.take (j + 1) (hs.set j (hs.getD (j + 1) none)) =
        List.take j hs ++ [hs.getD (j + 1) none] := by
      rw [List.set_eq_take_append_cons_drop, if_pos hj]
      rw [show List.take j hs ++ hs.getD (j + 1) none :: List.drop (j + 1) hs =
        (List.take j hs ++ [hs.getD (j + 1) none]) ++ List.drop (j + 1) hs by simp]
      apply List.take_left'
      simp [List.length_take, Nat.min_eq_left (Nat.le_of_lt hj)]
    rw [htake, List.drop_eq_getElem_cons hj1, List.take_succ_cons,
      List.getD_eq_getElem _ _ hj1]
    simp [Nat.add_assoc, Nat.add_comm 1 n]

theorem room_remove_hunter_loop_occupants (room : Room) (hunter : HunterPtr) (n i : Nat)
    (hn : i + n = room.hunter_count) (hc : room.hunter_count ≤ room.hunters.length)
    (hpre : some hunter ∉ room.hunters.take i) :
    (room_remove_hunter_loop room hunter n i).occupants = room.occupants.erase (some hunter) := by
  induction n generalizing i with
  | zero =>
    have : i = room.hunter_count := by omega
    subst this
    simp only [room_remove_hunter_loop, Room.occupants]
    exact (List.erase_of_not_mem hpre).symm
  | succ n ih =>
    have hi : i < room.hunters.length := by omega
    simp only [room_remove_hunter_loop]
    split
    · rename_i hfound
      rw [List.getD_eq_getElem _ _ hi] at hfound
      simp only [Room.occupants]
      have hlen : room.hunter_count - 1 < (room_shift_down room.hunters
          (room.hunter_count - 1 - i) i).length := by
        rw [room_shift_down_length]; omega
      rw [List.set_eq_take_append_cons_drop, if_pos hlen, List.take_left' (by
        simp [List.length_take]; omega)]
      rw [room_shift_down_eq _ _ _ (by omega)]
      rw [show i + (room.hunter_count - 1 - i) = room.hunter_count - 1 by omega]
      rw [List.take_left' (by simp [List.length_take, List.length_drop]; omega)]
      rw [show room.hunter_count = i + (room.hunter_count - 1 - i + 1) by omega, List.take_add,
        List.drop_eq_getElem_cons hi, List.take_succ_cons, hfound,
        List.erase_append_right _ hpre, List.erase_cons_head]
      simp
    · rename_i hnot
      apply ih (i + 1) (by omega)
      rw [List.take_succ]
      intro hmem
      rcases List.mem_append.mp hmem with h1 | h1
      · exact hpre h1
      · rw [List.getD_eq_getElem?_getD] at hnot
        cases hx : room.hunters[i]? with
        | none => simp [hx] at h1
        | some x => simp [hx] at h1 hnot; exact hnot h1.symm

/-- The function `room_remove_hunter` erases the first occurrence of the hunter from the
occupants and keeps the others in order. -/
theorem room_remove_hunter_occupants (room : Room) (hunter : HunterPtr)
    (hc : room.hunter_count ≤ room.hunters.length) :
    (room_remove_hunter room hunter).occupants = room.occupants.erase (some hunter) :=
  room_remove_hunter_loop_occupants room hunter _ 0 (by simp) hc (by simp)

theorem evidence_is_valid_ghost_iff (mask : EvidenceByte) :
    evidence_is_valid_ghost mask = true ↔ ∃ g : GhostType, g.val = mask := by
  constructor
  · intro h
    simp only [evidence_is_valid_ghost, all_ghost_types, List.any_cons, List.any_nil,
      Bool.or_false, Bool.or_eq_true, beq_iff_eq] at h
    rcases h with h | h | h | h | h | h | h | h | h | h | h | h | h | h | h | h | h | h | h | h |
      h | h | h | h <;> exact ⟨_, h⟩
  · rintro ⟨g, rfl⟩
    cases g <;> decide

theorem evidence_set_testBit_seven (m : EvidenceByte) (t : EvidenceType) :
    (evidence_set m t).testBit 7 = m.testBit 7 := by
  have := t.index_lt
  rw [evidence_set_testBit]
  have : t.index ≠ 7 := by omega
  simp [this]

theorem evidence_clear_testBit_seven (m : EvidenceByte) (t : EvidenceType) :
    (evidence_clear m t).testBit 7 = m.testBit 7 := by
  have := t.index_lt
  rw [evidence_clear_testBit]
  have : t.index ≠ 7 := by omega
  simp [this]

theorem evidence_has_three_unique_iff (mask : EvidenceByte) :
    evidence_has_three_unique mask = true ↔ 3 ≤ evidence_count_bits mask := by
  simp [evidence_has_three_unique]

@[simp] theorem sem_wait_lock_trace (w : House) (l : LockId) :
    (sem_wait w l).lock_trace = w.lock_trace ++ [LockEvent.wait l] := rfl

@[simp] theorem sem_post_lock_trace (w : House) (l : LockId) :
    (sem_post w l).lock_trace = w.lock_trace ++ [LockEvent.post l] := rfl

theorem ite_lt_eq_min (a b : Nat) : (if a < b then a else b) = min a b := by
  split_ifs <;> omega

theorem ite_lt_eq_max (a b : Nat) : (if a < b then b else a) = max a b := by
  split_ifs <;> omega

theorem hunter_move_lock_trace (w : House) (hunter : HunterPtr) (t : RoomPtr) :
    (hunter_move w hunter t).2.lock_trace =
      w.lock_trace ++ two_room_lock_events (w.hunters hunter).current_room t := by
  simp only [hunter_move, ite_lt_eq_min, ite_lt_eq_max, two_room_lock_events]
  split_ifs <;> simp

theorem hunter_update_stats_lock_trace (w : House) (hunter : HunterPtr) :
    (hunter_update_stats w hunter).lock_trace = w.lock_trace ++
      [.wait (.room (w.hunters hunter).current_room),
       .post (.room (w.hunters hunter).current_room)] := by
  simp only [hunter_update_stats]
  split_ifs <;> simp

theorem hunter_check_van_lock_trace (w : House) (hunter : HunterPtr) (rnd : Nat) :
    (hunter_check_van w hunter rnd).lock_trace = w.lock_trace ∨
    (hunter_check_van w hunter rnd).lock_trace = w.lock_trace ++
      [.wait .casefile, .post .casefile] ∨
    (hunter_check_van w hunter rnd).lock_trace = w.lock_trace ++
      [.wait .casefile, .post .casefile, .wait (.room (w.hunters hunter).current_room),
       .post (.room (w.hunters hunter).current_room)] := by
  simp only [hunter_check_van]
  split_ifs <;> simp

theorem hunter_check_exit_conditions_lock_trace (w : House) (hunter : HunterPtr) :
    (hunter_check_exit_conditions w hunter).lock_trace = w.lock_trace ∨
    (hunter_check_exit_conditions w hunter).lock_trace = w.lock_trace ++
      [.wait (.room (w.hunters hunter).current_room),
       .post (.room (w.hunters hunter).current_room)] := by
  simp only [hunter_check_exit_conditions]
  split_ifs <;> simp

theorem hunter_gather_evidence_lock_trace (w : House) (hunter : HunterPtr) (rnd : Nat) :
    (hunter_gather_evidence w hunter rnd).lock_trace = w.lock_trace ∨
    (hunter_gather_evidence w hunter rnd).lock_trace = w.lock_trace ++
      [.wait (.room (w.hunters hunter).current_room),
       .post (.room (w.hunters hunter).current_room)] ∨
    (hunter_gather_evidence w hunter rnd).lock_trace = w.lock_trace ++
      [.wait (.room (w.hunters hunter).current_room),
       .post (.room (w.hunters hunter).current_room), .wait .casefile, .post .casefile] := by
  simp only [hunter_gather_evidence]
  split_ifs <;> simp

theorem hunter_choose_move_attempt_lock_trace (w : House) (hunter : HunterPtr) (o t : RoomPtr)
    (b : Bool) : (hunter_choose_move_attempt w hunter o t b).lock_trace =
      w.lock_trace ++ two_room_lock_events (w.hunters hunter).current_room t := by
  simp only [hunter_choose_move_attempt]
  split_ifs <;> simp [hunter_move_lock_trace]

theorem hunter_choose_move_lock_trace (w : House) (hunter : HunterPtr) (rnd : Nat) (b : Bool) :
    (hunter_choose_move w hunter rnd b).lock_trace = w.lock_trace ∨
    ∃ t, (hunter_choose_move w hunter rnd b).lock_trace =
      w.lock_trace ++ two_room_lock_events (w.hunters hunter).current_room t := by
  simp only [hunter_choose_move]
  split_ifs
  · split
    · left; rfl
    · right
      rename_i t _
      refine ⟨t, ?_⟩
      rw [hunter_choose_move_attempt_lock_trace]
      simp
  · left; rfl
  · split
    · left; rfl
    · right
      rename_i t _
      exact ⟨t, hunter_choose_move_attempt_lock_trace _ _ _ _ _⟩

theorem locks_apart_append (held : List LockId) (es fs : List LockEvent) :
    locks_apart held (es ++ fs) = (locks_apart held es).bind (fun h => locks_apart h fs) := by
  induction es generalizing held with
  | nil => rfl
  | cons e es ih =>
    simp only [List.cons_append, locks_apart]
    cases lock_step held e with
    | none => rfl
    | some h => simpa using ih h

theorem LocksApart.refl (w : House) : LocksApart w w :=
  ⟨[], by simp, rfl⟩

theorem LocksApart.trans {u v w : House} (h1 : LocksApart u v) (h2 : LocksApart v w) :
    LocksApart u w := by
  obtain ⟨es, he, hes⟩ := h1
  obtain ⟨fs, hf, hfs⟩ := h2
  refine ⟨es ++ fs, by rw [hf, he, List.append_assoc], ?_⟩
  rw [locks_apart_append, hes]
  exact hfs

theorem locks_apart_of_eq {w v : House} (h : v.lock_trace = w.lock_trace) : LocksApart w v :=
  ⟨[], by simp [h], rfl⟩

theorem LocksApart.events {w v : House} (h : LocksApart w v) :
    locks_apart [] (lock_events w v) = some [] := by
  obtain ⟨es, he, hes⟩ := h
  simp only [lock_events, he, List.drop_left]
  exact hes

theorem locks_apart_two_room (a b : RoomPtr) :
    locks_apart [] (two_room_lock_events a b) = some [] := by
  simp [two_room_lock_events, locks_apart, lock_step]

theorem locks_apart_room (a : RoomPtr) :
    locks_apart [] [.wait (.room a), .post (.room a)] = some [] := by
  simp [locks_apart, lock_step]

theorem locks_apart_casefile_room (a : RoomPtr) :
    locks_apart [] [.wait .casefile, .post .casefile, .wait (.room a), .post (.room a)]
      = some [] := by
  simp [locks_apart, lock_step]

theorem locks_apart_room_casefile (a : RoomPtr) :
    locks_apart [] [.wait (.room a), .post (.room a), .wait .casefile, .post .casefile]
      = some [] := by
  simp [locks_apart, lock_step]

theorem hunter_move_locks_apart (w : House) (hunter : HunterPtr) (t : RoomPtr) :
    LocksApart w (hunter_move w hunter t).2 :=
  ⟨_, hunter_move_lock_trace w hunter t, locks_apart_two_room _ _⟩

theorem hunter_update_stats_locks_apart (w : House) (hunter : HunterPtr) :
    LocksApart w (hunter_update_stats w hunter) :=
  ⟨_, hunter_update_stats_lock_trace w hunter, locks_apart_room _⟩

theorem hunter_check_van_locks_apart (w : House) (hunter : HunterPtr) (rnd : Nat) :
    LocksApart w (hunter_check_van w hunter rnd) := by
  rcases hunter_check_van_lock_trace w hunter rnd with h | h | h
  · exact locks_apart_of_eq h
  · exact ⟨_, h, by decide⟩
  · exact ⟨_, h, locks_apart_casefile_room _⟩

theorem hunter_check_exit_conditions_locks_apart (w : House) (hunter : HunterPtr) :
    LocksApart w (hunter_check_exit_conditions w hunter) := by
  rcases hunter_check_exit_conditions_lock_trace w hunter with h | h
  · exact locks_apart_of_eq h
  · exact ⟨_, h, locks_apart_room _⟩

theorem hunter_gather_evidence_locks_apart (w : House) (hunter : HunterPtr) (rnd : Nat) :
    LocksApart w (hunter_gather_evidence w hunter rnd) := by
  rcases hunter_gather_evidence_lock_trace w hunter rnd with h | h | h
  · exact locks_apart_of_eq h
  · exact ⟨_, h, locks_apart_room _⟩
  · exact ⟨_, h, locks_apart_room_casefile _⟩

theorem hunter_choose_move_locks_apart (w : House) (hunter : HunterPtr) (rnd : Nat) (b : Bool) :
    LocksApart w (hunter_choose_move w hunter rnd b) := by
  rcases hunter_choose_move_lock_trace w hunter rnd b with h | ⟨t, h⟩
  · exact locks_apart_of_eq h
  · exact ⟨_, h, locks_apart_two_room _ _⟩

theorem hunter_thread_body_locks_apart (w : House) (hunter : HunterPtr) (r1 r2 r3 : Nat)
    (b : Bool) : LocksApart w (hunter_thread_body w hunter r1 r2 r3 b) := by
  have h2 := (hunter_update_stats_locks_apart w hunter).trans
    (hunter_check_van_locks_apart (hunter_update_stats w hunter) hunter r1)
  have h4 : ∀ v : House,
      LocksApart v (hunter_choose_move (hunter_gather_evidence v hunter r2) hunter r3 b) :=
    fun v => (hunter_gather_evidence_locks_apart v hunter r2).trans
      (hunter_choose_move_locks_apart _ hunter r3 b)
  simp only [hunter_thread_body]
  split_ifs
  all_goals first
    | exact h2
    | exact h2.trans (hunter_check_exit_conditions_locks_apart _ _)
    | exact h2.trans (h4 _)
    | exact h2.trans ((hunter_check_exit_conditions_locks_apart _ _).trans (h4 _))

theorem hunter_op_locks_apart (w : House) (hunter : HunterPtr) (op : HunterOp) :
    LocksApart w (op.run w hunter) := by
  cases op with
  | move t => exact hunter_move_locks_apart _ _ _
  | update_stats => exact hunter_update_stats_locks_apart _ _
  | check_van rnd => exact hunter_check_van_locks_apart _ _ _
  | check_exit_conditions => exact hunter_check_exit_conditions_locks_apart _ _
  | gather_evidence rnd => exact hunter_gather_evidence_locks_apart _ _ _
  | choose_move rnd b => exact hunter_choose_move_locks_apart _ _ _ _
  | thread_body r1 r2 r3 b => exact hunter_thread_body_locks_apart _ _ _ _ _ _

/-- The checker rejects a room lock taken inside the case-file section and a
case-file lock taken inside a room section. -/
theorem locks_apart_rejects :
    locks_apart [] [.wait .casefile, .wait (.room 1), .post (.room 1), .post .casefile] = none ∧
    locks_apart [] [.wait (.room 1), .wait .casefile, .post .casefile, .post (.room 1)] = none := by
  decide

theorem two_room_lock_events_comm (a b : RoomPtr) :
    two_room_lock_events a b = two_room_lock_events b a := by
  simp [two_room_lock_events, Nat.min_comm, Nat.max_comm]

theorem ghost_move_lock_trace (w : House) (rnd : Nat) (b : RoomPtr)
    (hempty : (w.rooms w.ghost.current_room).hunter_count = 0)
    (hconn : (w.rooms w.ghost.current_room).connection_count ≠ 0)
    (htarget : (w.rooms w.ghost.current_room).connections.getD rnd none = some b) :
    (ghost_move w rnd).lock_trace = w.lock_trace ++
      ([.wait (.room w.ghost.current_room), .post (.room w.ghost.current_room)] ++
        two_room_lock_events w.ghost.current_room b) := by
  simp only [ghost_move, room_has_hunters_result, room_has_hunters_rooms, room_has_hunters_ghost,
    hempty, hconn, htarget, ite_lt_eq_min, ite_lt_eq_max, two_room_lock_events]
  simp [room_has_hunters]

theorem room_remove_hunter_loop_frame (room : Room) (hunter : HunterPtr) (n i : Nat) :
    (room_remove_hunter_loop room hunter n i).hunters.length = room.hunters.length ∧
    (room_remove_hunter_loop room hunter n i).ghost = room.ghost ∧
    (room_remove_hunter_loop room hunter n i).connections = room.connections ∧
    (room_remove_hunter_loop room hunter n i).connection_count = room.connection_count ∧
    (room_remove_hunter_loop room hunter n i).is_exit = room.is_exit ∧
    (room_remove_hunter_loop room hunter n i).evidence = room.evidence := by
  induction n generalizing i with
  | zero => simp [room_remove_hunter_loop]
  | succ n ih =>
    unfold room_remove_hunter_loop
    split
    · simp [room_shift_down_length]
    · exact ih (i + 1)

theorem room_remove_hunter_frame (room : Room) (hunter : HunterPtr) :
    (room_remove_hunter room hunter).hunters.length = room.hunters.length ∧
    (room_remove_hunter room hunter).ghost = room.ghost ∧
    (room_remove_hunter room hunter).connections = room.connections ∧
    (room_remove_hunter room hunter).connection_count = room.connection_count ∧
    (room_remove_hunter room hunter).is_exit = room.is_exit ∧
    (room_remove_hunter room hunter).evidence = room.evidence :=
  room_remove_hunter_loop_frame room hunter _ _

theorem room_add_hunter_frame (room : Room) (hunter : HunterPtr) :
    (room_add_hunter room hunter).2.hunters.length = room.hunters.length ∧
    (room_add_hunter room hunter).2.ghost = room.ghost ∧
    (room_add_hunter room hunter).2.connections = room.connections ∧
    (room_add_hunter room hunter).2.connection_count = room.connection_count ∧
    (room_add_hunter room hunter).2.is_exit = room.is_exit ∧
    (room_add_hunter room hunter).2.evidence = room.evidence := by
  unfold room_add_hunter
  split <;> simp

theorem room_add_hunter_occupants (room : Room) (hunter : HunterPtr)
    (hlt : room.hunter_count < MAX_ROOM_OCCUPANCY)
    (hlen : room.hunters.length = MAX_ROOM_OCCUPANCY) :
    (room_add_hunter room hunter).2.occupants = room.occupants ++ [some hunter] ∧
    (room_add_hunter room hunter).2.hunter_count = room.hunter_count + 1 := by
  have hn : ¬ room.hunter_count ≥ MAX_ROOM_OCCUPANCY := by omega
  have hl : room.hunter_count < room.hunters.length := by omega
  have e : room_add_hunter room hunter = (true, { room with
      hunters := room.hunters.set room.hunter_count (some hunter)
      hunter_count := room.hunter_count + 1 }) := by
    simp [room_add_hunter, hn]
  rw [e]
  refine ⟨?_, rfl⟩
  show List.take (room.hunter_count + 1) (room.hunters.set room.hunter_count (some hunter)) =
    List.take room.hunter_count room.hunters ++ [some hunter]
  rw [List.set_eq_take_append_cons_drop, if_pos hl,
    show List.take room.hunter_count room.hunters ++
        some hunter :: List.drop (room.hunter_count + 1) room.hunters =
      (List.take room.hunter_count room.hunters ++ [some hunter]) ++
        List.drop (room.hunter_count + 1) room.hunters by simp]
  apply List.take_left'
  simp [List.length_take, Nat.min_eq_left (Nat.le_of_lt hl)]

theorem listed_remove_self (room : Room) (hunter : HunterPtr)
    (hc : room.hunter_count ≤ room.hunters.length) :
    (room_remove_hunter room hunter).listed hunter = room.listed hunter - 1 := by
  simp only [Room.listed, room_remove_hunter_occupants room hunter hc]
  exact List.count_erase_self _ _

theorem listed_remove_other (room : Room) {hunter x : HunterPtr} (hx : x ≠ hunter)
    (hc : room.hunter_count ≤ room.hunters.length) :
    (room_remove_hunter room hunter).listed x = room.listed x := by
  simp only [Room.listed, room_remove_hunter_occupants room hunter hc]
  apply List.count_erase_of_ne
  intro h; exact hx (Option.some.inj h)

theorem listed_add_self (room : Room) (hunter : HunterPtr)
    (hlt : room.hunter_count < MAX_ROOM_OCCUPANCY)
    (hlen : room.hunters.length = MAX_ROOM_OCCUPANCY) :
    (room_add_hunter room hunter).2.listed hunter = room.listed hunter + 1 := by
  simp [Room.listed, (room_add_hunter_occupants room hunter hlt hlen).1]

theorem listed_add_other (room : Room) {hunter x : HunterPtr} (hx : x ≠ hunter) :
    (room_add_hunter room hunter).2.listed x = room.listed x := by
  by_cases hfull : room.hunter_count ≥ MAX_ROOM_OCCUPANCY
  · simp [room_add_hunter, hfull]
  · have e : room_add_hunter room hunter = (true, { room with
        hunters := room.hunters.set room.hunter_count (some hunter)
        hunter_count := room.hunter_count + 1 }) := by
      simp [room_add_hunter, hfull]
    rw [e]
    show List.count (some x) (List.take (room.hunter_count + 1)
      (room.hunters.set room.hunter_count (some hunter))) =
      List.count (some x) (List.take room.hunter_count room.hunters)
    by_cases hl : room.hunter_count < room.hunters.length
    · rw [List.set_eq_take_append_cons_drop, if_pos hl,
        show List.take room.hunter_count room.hunters ++
            some hunter :: List.drop (room.hunter_count + 1) room.hunters =
          (List.take room.hunter_count room.hunters ++ [some hunter]) ++
            List.drop (room.hunter_count + 1) room.hunters by simp,
        List.take_left' (by simp [List.length_take, Nat.min_eq_left (Nat.le_of_lt hl)])]
      simp [List.count_append, hx]
    · rw [List.set_eq_take_append_cons_drop, if_neg hl,
        List.take_of_length_le (by omega), List.take_of_length_le (by omega)]

theorem shared_wait_eq_some {s s' : Shared} {r : RoomPtr} (h : s.wait r = some s') :
    s.sem r ≠ 0 ∧ s'.house.rooms = s.house.rooms ∧ s'.house.hunters = s.house.hunters ∧
    s'.house.ghost = s.house.ghost ∧
    s'.sem = Function.update s.sem r (s.sem r - 1) := by
  unfold Shared.wait at h
  split at h
  · cases h
  · rename_i hne
    cases h
    exact ⟨hne, rfl, rfl, rfl, rfl⟩

@[simp] theorem Shared.post_rooms (s : Shared) (r : RoomPtr) :
    (s.post r).house.rooms = s.house.rooms := rfl
@[simp] theorem Shared.post_hunters (s : Shared) (r : RoomPtr) :
    (s.post r).house.hunters = s.house.hunters := rfl
@[simp] theorem Shared.post_ghost (s : Shared) (r : RoomPtr) :
    (s.post r).house.ghost = s.house.ghost := rfl
@[simp] theorem Shared.post_sem (s : Shared) (r : RoomPtr) :
    (s.post r).sem = Function.update s.sem r (s.sem r + 1) := rfl

/-- The predicate `MoveData` only looks at the hunter's `current_room`, its listings in the
two rooms and, while the thread holds both locks, the count of the target. -/
theorem move_data_congr {w v : House} {h : HunterPtr} {src dst : RoomPtr} (pc : MovePc)
    (hd : MoveData w h src dst pc)
    (h1 : (v.hunters h).current_room = (w.hunters h).current_room)
    (h2 : (v.rooms src).listed h = (w.rooms src).listed h)
    (h3 : (v.rooms dst).listed h = (w.rooms dst).listed h)
    (h4 : pc.holds_second = 1 → (v.rooms dst).hunter_count = (w.rooms dst).hunter_count) :
    MoveData v h src dst pc := by
  cases pc with
  | done r => cases r <;> simp_all [MoveData]
  | _ => simp_all [MoveData, MovePc.holds_second]

theorem move_frame_of_eq {w v : House} {h : HunterPtr} {xs xd : Nat}
    (hr : v.rooms = w.rooms) (hh : v.hunters = w.hunters) (hg : v.ghost = w.ghost) :
    MoveFrame w v h xs xd :=
  ⟨hg, fun k _ => by rw [hh], fun r => by rw [hr]; exact ⟨rfl, rfl, rfl⟩,
    fun k r _ => by rw [hr], Or.inl hr⟩

theorem move_step_inv {s s' : Shared} {t t' : MoveThread} {src dst : RoomPtr}
    {xs xd : Nat} (hne : src ≠ dst)
    (htgt : t.target_room = dst) (hfrom : t.pc ≠ .start → t.from_room = src)
    (hsrc : s.sem src + t.pc.holds src dst src + xs = 1)
    (hdst : s.sem dst + t.pc.holds src dst dst + xd = 1)
    (hok : RoomsOk s.house src dst)
    (hd : MoveData s.house t.hunter src dst t.pc)
    (hstep : t.step s = some (s', t')) :
    t'.hunter = t.hunter ∧ t'.target_room = dst ∧ (t'.pc ≠ .start → t'.from_room = src) ∧
    s'.sem src + t'.pc.holds src dst src + xs = 1 ∧
    s'.sem dst + t'.pc.holds src dst dst + xd = 1 ∧
    RoomsOk s'.house src dst ∧
    MoveData s'.house t.hunter src dst t'.pc ∧
    MoveFrame s.house s'.house t.hunter xs xd := by
  obtain ⟨h, tgt, frm, pc⟩ := t
  simp only at htgt hfrom hsrc hdst hd hstep
  subst htgt
  cases pc with
  | start =>
    simp only [MoveThread.step, Option.some.injEq, Prod.mk.injEq] at hstep
    obtain ⟨rfl, rfl⟩ := hstep
    simp only [MoveData] at hd
    refine ⟨rfl, rfl, fun _ => hd.1, ?_, ?_, hok, ?_, move_frame_of_eq rfl rfl rfl⟩
    · simpa [MovePc.holds, MovePc.holds_first, MovePc.holds_second] using hsrc
    · simpa [MovePc.holds, MovePc.holds_first, MovePc.holds_second] using hdst
    · simpa [MoveData] using hd
  | wait_first =>
    have hf := hfrom (by simp)
    subst hf
    simp only [MoveThread.step, Option.map_eq_some', Prod.mk.injEq] at hstep
    obtain ⟨s1, hw, rfl, rfl⟩ := hstep
    obtain ⟨hs, hr, hh, hg, hsem⟩ := shared_wait_eq_some hw
    refine ⟨rfl, rfl, fun _ => rfl, ?_, ?_, ?_, ?_, move_frame_of_eq hr hh hg⟩
    · rw [hsem]
      rcases Nat.lt_or_gt_of_ne hne with hlt | hlt <;>
        simp [MovePc.holds, MovePc.holds_first, MovePc.holds_second, MoveThread.first,
          MoveThread.second, hlt, Nat.lt_asymm hlt, hne, Ne.symm hne, Function.update] at * <;>
        omega
    · rw [hsem]
      rcases Nat.lt_or_gt_of_ne hne with hlt | hlt <;>
        simp [MovePc.holds, MovePc.holds_first, MovePc.holds_second, MoveThread.first,
          MoveThread.second, hlt, Nat.lt_asymm hlt, hne, Ne.symm hne, Function.update] at * <;>
        omega
    · simpa [RoomsOk, hr] using hok
    · exact move_data_congr .wait_first hd (by rw [hh]) (by rw [hr]) (by rw [hr])
        (by simp [hr])
  | wait_second =>
    have hf := hfrom (by simp)
    subst hf
    simp only [MoveThread.step, Option.map_eq_some', Prod.mk.injEq] at hstep
    obtain ⟨s1, hw, rfl, rfl⟩ := hstep
    obtain ⟨hs, hr, hh, hg, hsem⟩ := shared_wait_eq_some hw
    refine ⟨rfl, rfl, fun _ => rfl, ?_, ?_, ?_, ?_, move_frame_of_eq hr hh hg⟩
    · rw [hsem]
      rcases Nat.lt_or_gt_of_ne hne with hlt | hlt <;>
        simp [MovePc.holds, MovePc.holds_first, MovePc.holds_second, MoveThread.first,
          MoveThread.second, hlt, Nat.lt_asymm hlt, hne, Ne.symm hne, Function.update] at * <;>
        omega
    · rw [hsem]
      rcases Nat.lt_or_gt_of_ne hne with hlt | hlt <;>
        simp [MovePc.holds, MovePc.holds_first, MovePc.holds_second, MoveThread.first,
          MoveThread.second, hlt, Nat.lt_asymm hlt, hne, Ne.symm hne, Function.update] at * <;>
        omega
    · simpa [RoomsOk, hr] using hok
    · exact move_data_congr .wait_second hd (by rw [hh]) (by rw [hr]) (by rw [hr])
        (by simp [hr])
  | check =>
    have hf := hfrom (by simp)
    subst hf
    simp only [MoveThread.step] at hstep
    split at hstep
    · simp only [Option.some.injEq, Prod.mk.injEq] at hstep
      obtain ⟨rfl, rfl⟩ := hstep
      refine ⟨rfl, rfl, fun _ => rfl, ?_, ?_, hok, ?_, move_frame_of_eq rfl rfl rfl⟩
      · rcases Nat.lt_or_gt_of_ne hne with hlt | hlt <;>
        simp [MovePc.holds, MovePc.holds_first, MovePc.holds_second, MoveThread.first,
          MoveThread.second, hlt, Nat.lt_asymm hlt, hne, Ne.symm hne, Function.update] at * <;>
        omega
      · rcases Nat.lt_or_gt_of_ne hne with hlt | hlt <;>
        simp [MovePc.holds, MovePc.holds_first, MovePc.holds_second, MoveThread.first,
          MoveThread.second, hlt, Nat.lt_asymm hlt, hne, Ne.symm hne, Function.update] at * <;>
        omega
      · exact move_data_congr .check hd rfl rfl rfl (fun _ => rfl)
    · rename_i hfree
      simp only [Option.some.injEq, Prod.mk.injEq] at hstep
      obtain ⟨rfl, rfl⟩ := hstep
      refine ⟨rfl, rfl, fun _ => rfl, ?_, ?_, hok, ?_, move_frame_of_eq rfl rfl rfl⟩
      · rcases Nat.lt_or_gt_of_ne hne with hlt | hlt <;>
        simp [MovePc.holds, MovePc.holds_first, MovePc.holds_second, MoveThread.first,
          MoveThread.second, hlt, Nat.lt_asymm hlt, hne, Ne.symm hne, Function.update] at * <;>
        omega
      · rcases Nat.lt_or_gt_of_ne hne with hlt | hlt <;>
        simp [MovePc.holds, MovePc.holds_first, MovePc.holds_second, MoveThread.first,
          MoveThread.second, hlt, Nat.lt_asymm hlt, hne, Ne.symm hne, Function.update] at * <;>
        omega
      · simp only [MoveData] at hd ⊢
        exact ⟨hd.1, hd.2.1, hd.2.2, by omega⟩
  | full_post_second =>
    have hf := hfrom (by simp)
    subst hf
    simp only [MoveThread.step, Option.some.injEq, Prod.mk.injEq] at hstep
    obtain ⟨rfl, rfl⟩ := hstep
    refine ⟨rfl, rfl, fun _ => rfl, ?_, ?_, ?_, ?_, move_frame_of_eq rfl rfl rfl⟩
    · simp only [Shared.post_sem]
      rcases Nat.lt_or_gt_of_ne hne with hlt | hlt <;>
        simp [MovePc.holds, MovePc.holds_first, MovePc.holds_second, MoveThread.first,
          MoveThread.second, hlt, Nat.lt_asymm hlt, hne, Ne.symm hne, Function.update] at * <;>
        omega
    · simp only [Shared.post_sem]
      rcases Nat.lt_or_gt_of_ne hne with hlt | hlt <;>
        simp [MovePc.holds, MovePc.holds_first, MovePc.holds_second, MoveThread.first,
          MoveThread.second, hlt, Nat.lt_asymm hlt, hne, Ne.symm hne, Function.update] at * <;>
        omega
    · simpa [RoomsOk] using hok
    · exact move_data_congr .full_post_second hd rfl rfl rfl (fun _ => rfl)
  | full_post_first =>
    have hf := hfrom (by simp)
    subst hf
    simp only [MoveThread.step, Option.some.injEq, Prod.mk.injEq] at hstep
    obtain ⟨rfl, rfl⟩ := hstep
    refine ⟨rfl, rfl, fun _ => rfl, ?_, ?_, ?_, ?_, move_frame_of_eq rfl rfl rfl⟩
    · simp only [Shared.post_sem]
      rcases Nat.lt_or_gt_of_ne hne with hlt | hlt <;>
        simp [MovePc.holds, MovePc.holds_first, MovePc.holds_second, MoveThread.first,
          MoveThread.second, hlt, Nat.lt_asymm hlt, hne, Ne.symm hne, Function.update] at * <;>
        omega
    · simp only [Shared.post_sem]
      rcases Nat.lt_or_gt_of_ne hne with hlt | hlt <;>
        simp [MovePc.holds, MovePc.holds_first, MovePc.holds_second, MoveThread.first,
          MoveThread.second, hlt, Nat.lt_asymm hlt, hne, Ne.symm hne, Function.update] at * <;>
        omega
    · simpa [RoomsOk] using hok
    · exact move_data_congr .full_post_first hd rfl rfl rfl (fun _ => rfl)
  | remove =>
    have hf := hfrom (by simp)
    subst hf
    simp only [MoveThread.step, Option.some.injEq, Prod.mk.injEq] at hstep
    obtain ⟨rfl, rfl⟩ := hstep
    have hx : xs = 0 ∧ xd = 0 := by
      constructor
      · rcases Nat.lt_or_gt_of_ne hne with hlt | hlt <;>
        simp [MovePc.holds, MovePc.holds_first, MovePc.holds_second, MoveThread.first,
          MoveThread.second, hlt, Nat.lt_asymm hlt, hne, Ne.symm hne, Function.update] at * <;>
        omega
      · rcases Nat.lt_or_gt_of_ne hne with hlt | hlt <;>
        simp [MovePc.holds, MovePc.holds_first, MovePc.holds_second, MoveThread.first,
          MoveThread.second, hlt, Nat.lt_asymm hlt, hne, Ne.symm hne, Function.update] at * <;>
        omega
    obtain ⟨hl1, hc1, hl2, hc2⟩ := hok
    simp only [MoveData] at hd
    have hfr := room_remove_hunter_frame (s.house.rooms frm) h
    refine ⟨rfl, rfl, fun _ => rfl, ?_, ?_, ?_, ?_, ?_⟩
    · rcases Nat.lt_or_gt_of_ne hne with hlt | hlt <;>
        simp [MovePc.holds, MovePc.holds_first, MovePc.holds_second, MoveThread.first,
          MoveThread.second, hlt, Nat.lt_asymm hlt, hne, Ne.symm hne, Function.update] at * <;>
        omega
    · rcases Nat.lt_or_gt_of_ne hne with hlt | hlt <;>
        simp [MovePc.holds, MovePc.holds_first, MovePc.holds_second, MoveThread.first,
          MoveThread.second, hlt, Nat.lt_asymm hlt, hne, Ne.symm hne, Function.update] at * <;>
        omega
    · refine ⟨?_, ?_, ?_, ?_⟩
      · simp [hfr.1, hl1]
      · simpa using le_trans (room_remove_hunter_count_le _ _) hc1
      · simpa [Function.update_noteq (Ne.symm hne)] using hl2
      · simpa [Function.update_noteq (Ne.symm hne)] using hc2
    · simp only [MoveData, setRoom_hunters, setRoom_rooms, Function.update_same,
        Function.update_noteq (Ne.symm hne)]
      refine ⟨hd.1, ?_, hd.2.2.1, hd.2.2.2⟩
      rw [listed_remove_self _ _ (by omega), hd.2.1]
    · refine ⟨rfl, fun k _ => rfl, fun r => ?_, fun k r hk => ?_, Or.inr hx⟩
      · by_cases hr : r = frm
        · subst hr
          simp only [setRoom_rooms, Function.update_same]
          exact ⟨hfr.2.1, hfr.2.2.1, hfr.2.2.2.1⟩
        · simp [Function.update_noteq hr]
      · by_cases hr : r = frm
        · subst hr
          simp only [setRoom_rooms, Function.update_same]
          exact listed_remove_other _ hk (by omega)
        · simp [Function.update_noteq hr]
  | set_room =>
    have hf := hfrom (by simp)
    subst hf
    simp only [MoveThread.step, Option.some.injEq, Prod.mk.injEq] at hstep
    obtain ⟨rfl, rfl⟩ := hstep
    simp only [MoveData] at hd
    refine ⟨rfl, rfl, fun _ => rfl, ?_, ?_, ?_, ?_, ?_⟩
    · rcases Nat.lt_or_gt_of_ne hne with hlt | hlt <;>
        simp [MovePc.holds, MovePc.holds_first, MovePc.holds_second, MoveThread.first,
          MoveThread.second, hlt, Nat.lt_asymm hlt, hne, Ne.symm hne, Function.update] at * <;>
        omega
    · rcases Nat.lt_or_gt_of_ne hne with hlt | hlt <;>
        simp [MovePc.holds, MovePc.holds_first, MovePc.holds_second, MoveThread.first,
          MoveThread.second, hlt, Nat.lt_asymm hlt, hne, Ne.symm hne, Function.update] at * <;>
        omega
    · simpa [RoomsOk] using hok
    · simp only [MoveData, setHunter_hunters, setHunter_rooms, Function.update_same]
      exact ⟨trivial, hd.2.1, hd.2.2.1, hd.2.2.2⟩
    · exact ⟨rfl, fun k hk => by simp [Function.update_noteq hk], fun r => ⟨rfl, rfl, rfl⟩,
        fun k r _ => rfl, Or.inl rfl⟩
  | add =>
    have hf := hfrom (by simp)
    subst hf
    simp only [MoveThread.step, Option.some.injEq, Prod.mk.injEq] at hstep
    obtain ⟨rfl, rfl⟩ := hstep
    have hx : xs = 0 ∧ xd = 0 := by
      constructor
      · rcases Nat.lt_or_gt_of_ne hne with hlt | hlt <;>
        simp [MovePc.holds, MovePc.holds_first, MovePc.holds_second, MoveThread.first,
          MoveThread.second, hlt, Nat.lt_asymm hlt, hne, Ne.symm hne, Function.update] at * <;>
        omega
      · rcases Nat.lt_or_gt_of_ne hne with hlt | hlt <;>
        simp [MovePc.holds, MovePc.holds_first, MovePc.holds_second, MoveThread.first,
          MoveThread.second, hlt, Nat.lt_asymm hlt, hne, Ne.symm hne, Function.update] at * <;>
        omega
    obtain ⟨hl1, hc1, hl2, hc2⟩ := hok
    simp only [MoveData] at hd
    have hfr := room_add_hunter_frame (s.house.rooms tgt) h
    have hocc := room_add_hunter_occupants (s.house.rooms tgt) h hd.2.2.2 hl2
    refine ⟨rfl, rfl, fun _ => rfl, ?_, ?_, ?_, ?_, ?_⟩
    · rcases Nat.lt_or_gt_of_ne hne with hlt | hlt <;>
        simp [MovePc.holds, MovePc.holds_first, MovePc.holds_second, MoveThread.first,
          MoveThread.second, hlt, Nat.lt_asymm hlt, hne, Ne.symm hne, Function.update] at * <;>
        omega
    · rcases Nat.lt_or_gt_of_ne hne with hlt | hlt <;>
        simp [MovePc.holds, MovePc.holds_first, MovePc.holds_second, MoveThread.first,
          MoveThread.second, hlt, Nat.lt_asymm hlt, hne, Ne.symm hne, Function.update] at * <;>
        omega
    · refine ⟨?_, ?_, ?_, ?_⟩
      · simpa [Function.update_noteq hne] using hl1
      · simpa [Function.update_noteq hne] using hc1
      · simp [hfr.1, hl2]
      · simp only [setRoom_rooms, Function.update_same, hocc.2]
        have := hd.2.2.2
        omega
    · simp only [MoveData, setRoom_hunters, setRoom_rooms, Function.update_same,
        Function.update_noteq hne]
      refine ⟨hd.1, hd.2.1, ?_⟩
      rw [listed_add_self _ _ hd.2.2.2 hl2, hd.2.2.1]
    · refine ⟨rfl, fun k _ => rfl, fun r => ?_, fun k r hk => ?_, Or.inr hx⟩
      · by_cases hr : r = tgt
        · subst hr
          simp only [setRoom_rooms, Function.update_same]
          exact ⟨hfr.2.1, hfr.2.2.1, hfr.2.2.2.1⟩
        · simp [Function.update_noteq hr]
      · by_cases hr : r = tgt
        · subst hr
          simp only [setRoom_rooms, Function.update_same]
          exact listed_add_other _ hk
        · simp [Function.update_noteq hr]
  | post_second =>
    have hf := hfrom (by simp)
    subst hf
    simp only [MoveThread.step, Option.some.injEq, Prod.mk.injEq] at hstep
    obtain ⟨rfl, rfl⟩ := hstep
    refine ⟨rfl, rfl, fun _ => rfl, ?_, ?_, ?_, ?_, move_frame_of_eq rfl rfl rfl⟩
    · simp only [Shared.post_sem]
      rcases Nat.lt_or_gt_of_ne hne with hlt | hlt <;>
        simp [MovePc.holds, MovePc.holds_first, MovePc.holds_second, MoveThread.first,
          MoveThread.second, hlt, Nat.lt_asymm hlt, hne, Ne.symm hne, Function.update] at * <;>
        omega
    · simp only [Shared.post_sem]
      rcases Nat.lt_or_gt_of_ne hne with hlt | hlt <;>
        simp [MovePc.holds, MovePc.holds_first, MovePc.holds_second, MoveThread.first,
          MoveThread.second, hlt, Nat.lt_asymm hlt, hne, Ne.symm hne, Function.update] at * <;>
        omega
    · simpa [RoomsOk] using hok
    · exact move_data_congr .post_second hd rfl rfl rfl (fun _ => rfl)
  | post_first =>
    have hf := hfrom (by simp)
    subst hf
    simp only [MoveThread.step, Option.some.injEq, Prod.mk.injEq] at hstep
    obtain ⟨rfl, rfl⟩ := hstep
    refine ⟨rfl, rfl, fun _ => rfl, ?_, ?_, ?_, ?_, move_frame_of_eq rfl rfl rfl⟩
    · simp only [Shared.post_sem]
      rcases Nat.lt_or_gt_of_ne hne with hlt | hlt <;>
        simp [MovePc.holds, MovePc.holds_first, MovePc.holds_second, MoveThread.first,
          MoveThread.second, hlt, Nat.lt_asymm hlt, hne, Ne.symm hne, Function.update] at * <;>
        omega
    · simp only [Shared.post_sem]
      rcases Nat.lt_or_gt_of_ne hne with hlt | hlt <;>
        simp [MovePc.holds, MovePc.holds_first, MovePc.holds_second, MoveThread.first,
          MoveThread.second, hlt, Nat.lt_asymm hlt, hne, Ne.symm hne, Function.update] at * <;>
        omega
    · simpa [RoomsOk] using hok
    · exact move_data_congr .post_first hd rfl rfl rfl (fun _ => rfl)
  | done r => simp [MoveThread.step] at hstep

theorem move_pc_holds_second_zero (pc : MovePc) {src dst : RoomPtr} (hne : src ≠ dst)
    (h0 : pc.holds src dst src = 0) (h1 : pc.holds src dst dst = 0) : pc.holds_second = 0 := by
  rcases Nat.lt_or_gt_of_ne hne with hlt | hlt <;>
    simp [MovePc.holds, hlt, Nat.lt_asymm hlt, hne, Ne.symm hne] at h0 h1 <;> assumption

/-- The data of the other hunter survive a step of `hunter_move`. -/
theorem move_data_of_frame {w v : House} {h k : HunterPtr} {src dst : RoomPtr} {pc : MovePc}
    (hd : MoveData w k src dst pc) (hf : MoveFrame w v h (pc.holds src dst dst)
      (pc.holds src dst src)) (hk : k ≠ h) (hne : src ≠ dst) : MoveData v k src dst pc := by
  obtain ⟨-, hh, -, hl, hr⟩ := hf
  refine move_data_congr _ hd (by rw [hh k hk]) (hl k src hk) (hl k dst hk) (fun hs => ?_)
  rcases hr with hr | ⟨h0, h1⟩
  · rw [hr]
  · have := move_pc_holds_second_zero pc hne h1 h0
    omega

theorem rooms_ok_symm {w : House} {a b : RoomPtr} (h : RoomsOk w a b) : RoomsOk w b a :=
  ⟨h.2.2.1, h.2.2.2, h.1, h.2.1⟩

theorem duel_inv_step {a b : RoomPtr} {h1 h2 : HunterPtr} {c c' : Conc} {pick_left : Bool}
    (hab : a ≠ b) (hh : h1 ≠ h2) (hinv : DuelInv a b h1 h2 c)
    (hstep : c.step pick_left = some c') : DuelInv a b h1 h2 c' := by
  obtain ⟨t1, t2, hl, hr, e1, e2, e3, e4, e5, e6, hsa, hsb, hok, hd1, hd2⟩ := hinv
  cases pick_left with
  | true =>
    simp only [Conc.step, if_true, hl, Actor.step, Option.map_map, Option.map_eq_some',
      Function.comp] at hstep
    obtain ⟨⟨s', t1'⟩, hs, rfl⟩ := hstep
    subst e1
    obtain ⟨g1, g2, g3, g4, g5, g6, g7, g8⟩ :=
      move_step_inv hab e2 e3 hsa hsb hok hd1 hs
    exact ⟨t1', t2, rfl, hr, g1, g2, g3, e4, e5, e6, g4, g5, g6, g7,
      move_data_of_frame hd2 g8 (Ne.symm hh) (Ne.symm hab)⟩
  | false =>
    simp only [Conc.step, Bool.false_eq_true, if_false, hr, Actor.step, Option.map_map,
      Option.map_eq_some', Function.comp] at hstep
    obtain ⟨⟨s', t2'⟩, hs, rfl⟩ := hstep
    subst e4
    obtain ⟨g1, g2, g3, g4, g5, g6, g7, g8⟩ :=
      move_step_inv (Ne.symm hab) e5 e6 (by omega : c.shared.sem b + t2.pc.holds b a b +
        t1.pc.holds a b b = 1) (by omega : c.shared.sem a + t2.pc.holds b a a +
        t1.pc.holds a b a = 1) (rooms_ok_symm hok) hd2 hs
    exact ⟨t1, t2', hl, rfl, e1, e2, e3, g1, g2, g3, by simp only; omega, by simp only; omega,
      rooms_ok_symm g6, move_data_of_frame hd1 g8 hh hab, g7⟩

theorem duel_inv_run {a b : RoomPtr} {h1 h2 : HunterPtr} (hab : a ≠ b) (hh : h1 ≠ h2)
    (sched : List Bool) {c c' : Conc} (hinv : DuelInv a b h1 h2 c)
    (hrun : c.run sched = some c') : DuelInv a b h1 h2 c' := by
  induction sched generalizing c with
  | nil =>
    simp only [Conc.run, Option.some.injEq] at hrun
    subst hrun; exact hinv
  | cons x rest ih =>
    simp only [Conc.run, Option.bind_eq_some] at hrun
    obtain ⟨c1, h1', h2'⟩ := hrun
    exact ih (duel_inv_step hab hh hinv h1') h2'

theorem shared_wait_isSome (s : Shared) (r : RoomPtr) :
    (s.wait r).isSome = decide (s.sem r ≠ 0) := by
  unfold Shared.wait
  split <;> simp_all

/-- A thread of `hunter_move` can step unless it waits for a semaphore at 0 or
has returned. -/
theorem move_thread_step_isSome (s : Shared) (t : MoveThread) :
    (t.step s).isSome = (match t.pc with
      | .wait_first => decide (s.sem t.first ≠ 0)
      | .wait_second => decide (s.sem t.second ≠ 0)
      | .done _ => false
      | _ => true) := by
  obtain ⟨h, tgt, frm, pc⟩ := t
  cases pc <;> simp [MoveThread.step, shared_wait_isSome]
  split <;> rfl

theorem conc_step_left_isSome (c : Conc) (t : MoveThread) (h : c.left = .hunter t) :
    (c.step true).isSome = (t.step c.shared).isSome := by
  simp [Conc.step, h, Actor.step]

theorem conc_step_right_isSome (c : Conc) (t : MoveThread) (h : c.right = .hunter t) :
    (c.step false).isSome = (t.step c.shared).isSome := by
  simp [Conc.step, h, Actor.step]

/-- No deadlock for two hunters: while one of them has not returned, one of them
can step. -/
theorem duel_inv_progress {a b : RoomPtr} {h1 h2 : HunterPtr} {c : Conc}
    (hab : a ≠ b) (hinv : DuelInv a b h1 h2 c) (hfin : c.finished = false) :
    (c.step true).isSome = true ∨ (c.step false).isSome = true := by
  obtain ⟨t1, t2, hl, hr, e1, e2, e3, e4, e5, e6, hsa, hsb, -, -, -⟩ := hinv
  rw [conc_step_left_isSome c t1 hl, conc_step_right_isSome c t2 hr,
    move_thread_step_isSome, move_thread_step_isSome]
  simp only [Conc.finished, hl, hr, Actor.finished] at hfin
  obtain ⟨k1, g1, f1, pc1⟩ := t1
  obtain ⟨k2, g2, f2, pc2⟩ := t2
  simp only at e1 e2 e3 e4 e5 e6 hsa hsb hfin ⊢
  subst e2 e5
  rcases Nat.lt_or_gt_of_ne hab with hlt | hlt
  all_goals
    have hlt' := Nat.lt_asymm hlt
    cases pc1 <;> cases pc2 <;>
      simp only [MovePc.holds, MovePc.holds_first, MovePc.holds_second, MoveThread.first,
        MoveThread.second, hlt, hlt', hab, Ne.symm hab, if_true, if_false, ne_eq,
        not_true_eq_false, not_false_eq_true, false_implies, true_implies, reduceCtorEq,
        decide_eq_true_eq, Bool.false_eq_true, or_false, false_or, or_true, true_or,
        Bool.and_self, Bool.and_true, Bool.and_false, Bool.true_and, Bool.false_and]
        at e3 e6 hsa hsb hfin ⊢ <;>
      (try subst e3) <;> (try subst e6) <;>
      (try simp only [hlt, hlt', if_true, if_false]) <;>
      omega

theorem ghost_frame_of_eq {w v : House} (hr : v.rooms = w.rooms) (hh : v.hunters = w.hunters) :
    GhostFrame w v :=
  ⟨hh, fun r => by rw [hr]; exact ⟨rfl, rfl, rfl, rfl⟩⟩

theorem ghost_in_congr {w v : House} {r o : RoomPtr} (h : ghost_in w r o)
    (hg : v.ghost = w.ghost) (hr : v.rooms = w.rooms) : ghost_in v r o := by
  unfold ghost_in at *
  rw [hg, hr]; exact h

theorem ghost_step_inv {s s' : Shared} {g g' : GhostThread} {src dst : RoomPtr}
    {xs xd : Nat} (hne : src ≠ dst)
    (hsrc : s.sem src + g.pc.holds src dst src + xs = 1)
    (hdst : s.sem dst + g.pc.holds src dst dst + xd = 1)
    (hd : GhostData s.house src dst g)
    (hconn : (s.house.rooms src).connections.getD g.rnd none = some dst)
    (hstep : g.step s = some (s', g')) :
    g'.rnd = g.rnd ∧
    s'.sem src + g'.pc.holds src dst src + xs = 1 ∧
    s'.sem dst + g'.pc.holds src dst dst + xd = 1 ∧
    GhostData s'.house src dst g' ∧
    GhostFrame s.house s'.house := by
  obtain ⟨rnd, frm, tgt, pc⟩ := g
  simp only at hsrc hdst hconn hstep
  cases pc with
  | has_hunters_wait =>
    simp only [GhostData] at hd
    simp only [GhostThread.step, Option.map_eq_some', Prod.mk.injEq, hd.1] at hstep
    obtain ⟨s1, hw, rfl, rfl⟩ := hstep
    obtain ⟨hs, hr, hh, hg, hsem⟩ := shared_wait_eq_some hw
    refine ⟨rfl, ?_, ?_, ?_, ghost_frame_of_eq hr hh⟩
    · rw [hsem]
      rcases Nat.lt_or_gt_of_ne hne with hlt | hlt <;>
        simp [GhostPc.holds, GhostPc.in_probe, GhostPc.holds_first, GhostPc.holds_second,
          GhostThread.first, GhostThread.second, hlt, Nat.lt_asymm hlt, hne, Ne.symm hne,
          Function.update] at * <;>
        omega
    · rw [hsem]
      rcases Nat.lt_or_gt_of_ne hne with hlt | hlt <;>
        simp [GhostPc.holds, GhostPc.in_probe, GhostPc.holds_first, GhostPc.holds_second,
          GhostThread.first, GhostThread.second, hlt, Nat.lt_asymm hlt, hne, Ne.symm hne,
          Function.update] at * <;>
        omega
    · simp only [GhostData]
      exact ghost_in_congr hd hg hr
  | has_hunters_read =>
    simp only [GhostData] at hd
    simp only [GhostThread.step, Option.some.injEq, Prod.mk.injEq] at hstep
    obtain ⟨rfl, rfl⟩ := hstep
    refine ⟨rfl, ?_, ?_, ?_, ghost_frame_of_eq rfl rfl⟩
    · rcases Nat.lt_or_gt_of_ne hne with hlt | hlt <;>
        simp [GhostPc.holds, GhostPc.in_probe, GhostPc.holds_first, GhostPc.holds_second,
          GhostThread.first, GhostThread.second, hlt, Nat.lt_asymm hlt, hne, Ne.symm hne,
          Function.update] at * <;>
        omega
    · rcases Nat.lt_or_gt_of_ne hne with hlt | hlt <;>
        simp [GhostPc.holds, GhostPc.in_probe, GhostPc.holds_first, GhostPc.holds_second,
          GhostThread.first, GhostThread.second, hlt, Nat.lt_asymm hlt, hne, Ne.symm hne,
          Function.update] at * <;>
        omega
    · simpa only [GhostData] using hd
  | has_hunters_post r =>
    simp only [GhostData] at hd
    simp only [GhostThread.step, Option.some.injEq, Prod.mk.injEq, hd.1] at hstep
    obtain ⟨rfl, rfl⟩ := hstep
    refine ⟨rfl, ?_, ?_, ?_, ghost_frame_of_eq rfl rfl⟩
    · simp only [Shared.post_sem]
      cases r <;>
      rcases Nat.lt_or_gt_of_ne hne with hlt | hlt <;>
        simp [GhostPc.holds, GhostPc.in_probe, GhostPc.holds_first, GhostPc.holds_second,
          GhostThread.first, GhostThread.second, hlt, Nat.lt_asymm hlt, hne, Ne.symm hne,
          Function.update] at * <;>
        omega
    · simp only [Shared.post_sem]
      cases r <;>
      rcases Nat.lt_or_gt_of_ne hne with hlt | hlt <;>
        simp [GhostPc.holds, GhostPc.in_probe, GhostPc.holds_first, GhostPc.holds_second,
          GhostThread.first, GhostThread.second, hlt, Nat.lt_asymm hlt, hne, Ne.symm hne,
          Function.update] at * <;>
        omega
    · cases r
      · simp only [GhostData, Bool.false_eq_true, if_false]
        exact ghost_in_congr hd rfl rfl
      · simp only [GhostData, if_true]
        exact Or.inl (ghost_in_congr hd rfl rfl)
  | check_connections =>
    simp only [GhostData] at hd
    simp only [GhostThread.step] at hstep
    split at hstep
    · simp only [Option.some.injEq, Prod.mk.injEq] at hstep
      obtain ⟨rfl, rfl⟩ := hstep
      refine ⟨rfl, ?_, ?_, ?_, ghost_frame_of_eq rfl rfl⟩
      · rcases Nat.lt_or_gt_of_ne hne with hlt | hlt <;>
        simp [GhostPc.holds, GhostPc.in_probe, GhostPc.holds_first, GhostPc.holds_second,
          GhostThread.first, GhostThread.second, hlt, Nat.lt_asymm hlt, hne, Ne.symm hne,
          Function.update] at * <;>
        omega
      · rcases Nat.lt_or_gt_of_ne hne with hlt | hlt <;>
        simp [GhostPc.holds, GhostPc.in_probe, GhostPc.holds_first, GhostPc.holds_second,
          GhostThread.first, GhostThread.second, hlt, Nat.lt_asymm hlt, hne, Ne.symm hne,
          Function.update] at * <;>
        omega
      · simp only [GhostData]
        exact Or.inl hd
    · simp only [Option.some.injEq, Prod.mk.injEq] at hstep
      obtain ⟨rfl, rfl⟩ := hstep
      refine ⟨rfl, ?_, ?_, ?_, ghost_frame_of_eq rfl rfl⟩
      · rcases Nat.lt_or_gt_of_ne hne with hlt | hlt <;>
        simp [GhostPc.holds, GhostPc.in_probe, GhostPc.holds_first, GhostPc.holds_second,
          GhostThread.first, GhostThread.second, hlt, Nat.lt_asymm hlt, hne, Ne.symm hne,
          Function.update] at * <;>
        omega
      · rcases Nat.lt_or_gt_of_ne hne with hlt | hlt <;>
        simp [GhostPc.holds, GhostPc.in_probe, GhostPc.holds_first, GhostPc.holds_second,
          GhostThread.first, GhostThread.second, hlt, Nat.lt_asymm hlt, hne, Ne.symm hne,
          Function.update] at * <;>
        omega
      · simpa only [GhostData] using hd
  | pick =>
    simp only [GhostData] at hd
    simp only [GhostThread.step, hd.1, hconn, Option.some.injEq, Prod.mk.injEq] at hstep
    obtain ⟨rfl, rfl⟩ := hstep
    refine ⟨rfl, ?_, ?_, ?_, ghost_frame_of_eq rfl rfl⟩
    · rcases Nat.lt_or_gt_of_ne hne with hlt | hlt <;>
        simp [GhostPc.holds, GhostPc.in_probe, GhostPc.holds_first, GhostPc.holds_second,
          GhostThread.first, GhostThread.second, hlt, Nat.lt_asymm hlt, hne, Ne.symm hne,
          Function.update] at * <;>
        omega
    · rcases Nat.lt_or_gt_of_ne hne with hlt | hlt <;>
        simp [GhostPc.holds, GhostPc.in_probe, GhostPc.holds_first, GhostPc.holds_second,
          GhostThread.first, GhostThread.second, hlt, Nat.lt_asymm hlt, hne, Ne.symm hne,
          Function.update] at * <;>
        omega
    · simp only [GhostData]
      exact ⟨hd, trivial, trivial⟩
  | wait_first =>
    simp only [GhostData] at hd
    obtain ⟨hin, rfl, rfl⟩ := hd
    simp only [GhostThread.step, Option.map_eq_some', Prod.mk.injEq] at hstep
    obtain ⟨s1, hw, rfl, rfl⟩ := hstep
    obtain ⟨hs, hr, hh, hg, hsem⟩ := shared_wait_eq_some hw
    refine ⟨rfl, ?_, ?_, ?_, ghost_frame_of_eq hr hh⟩
    · rw [hsem]
      rcases Nat.lt_or_gt_of_ne hne with hlt | hlt <;>
        simp [GhostPc.holds, GhostPc.in_probe, GhostPc.holds_first, GhostPc.holds_second,
          GhostThread.first, GhostThread.second, hlt, Nat.lt_asymm hlt, hne, Ne.symm hne,
          Function.update] at * <;>
        omega
    · rw [hsem]
      rcases Nat.lt_or_gt_of_ne hne with hlt | hlt <;>
        simp [GhostPc.holds, GhostPc.in_probe, GhostPc.holds_first, GhostPc.holds_second,
          GhostThread.first, GhostThread.second, hlt, Nat.lt_asymm hlt, hne, Ne.symm hne,
          Function.update] at * <;>
        omega
    · simp only [GhostData]
      exact ⟨ghost_in_congr hin hg hr, trivial, trivial⟩
  | wait_second =>
    simp only [GhostData] at hd
    obtain ⟨hin, rfl, rfl⟩ := hd
    simp only [GhostThread.step, Option.map_eq_some', Prod.mk.injEq] at hstep
    obtain ⟨s1, hw, rfl, rfl⟩ := hstep
    obtain ⟨hs, hr, hh, hg, hsem⟩ := shared_wait_eq_some hw
    refine ⟨rfl, ?_, ?_, ?_, ghost_frame_of_eq hr hh⟩
    · rw [hsem]
      rcases Nat.lt_or_gt_of_ne hne with hlt | hlt <;>
        simp [GhostPc.holds, GhostPc.in_probe, GhostPc.holds_first, GhostPc.holds_second,
          GhostThread.first, GhostThread.second, hlt, Nat.lt_asymm hlt, hne, Ne.symm hne,
          Function.update] at * <;>
        omega
    · rw [hsem]
      rcases Nat.lt_or_gt_of_ne hne with hlt | hlt <;>
        simp [GhostPc.holds, GhostPc.in_probe, GhostPc.holds_first, GhostPc.holds_second,
          GhostThread.first, GhostThread.second, hlt, Nat.lt_asymm hlt, hne, Ne.symm hne,
          Function.update] at * <;>
        omega
    · simp only [GhostData]
      exact ⟨ghost_in_congr hin hg hr, trivial, trivial⟩
  | clear_from =>
    simp only [GhostData] at hd
    obtain ⟨hin, rfl, rfl⟩ := hd
    simp only [GhostThread.step, Option.some.injEq, Prod.mk.injEq] at hstep
    obtain ⟨rfl, rfl⟩ := hstep
    refine ⟨rfl, ?_, ?_, ?_, ?_⟩
    · rcases Nat.lt_or_gt_of_ne hne with hlt | hlt <;>
        simp [GhostPc.holds, GhostPc.in_probe, GhostPc.holds_first, GhostPc.holds_second,
          GhostThread.first, GhostThread.second, hlt, Nat.lt_asymm hlt, hne, Ne.symm hne,
          Function.update] at * <;>
        omega
    · rcases Nat.lt_or_gt_of_ne hne with hlt | hlt <;>
        simp [GhostPc.holds, GhostPc.in_probe, GhostPc.holds_first, GhostPc.holds_second,
          GhostThread.first, GhostThread.second, hlt, Nat.lt_asymm hlt, hne, Ne.symm hne,
          Function.update] at * <;>
        omega
    · simp only [GhostData, setRoom_rooms, setRoom_ghost, Function.update_same,
        Function.update_noteq (Ne.symm hne)]
      exact ⟨hin.1, trivial, hin.2.2, trivial, trivial⟩
    · refine ⟨rfl, fun r => ?_⟩
      by_cases hr : r = frm
      · subst hr; simp
      · simp [Function.update_noteq hr]
  | set_current =>
    simp only [GhostData] at hd
    obtain ⟨hc, h1, h2, rfl, rfl⟩ := hd
    simp only [GhostThread.step, Option.some.injEq, Prod.mk.injEq] at hstep
    obtain ⟨rfl, rfl⟩ := hstep
    refine ⟨rfl, ?_, ?_, ?_, ghost_frame_of_eq rfl rfl⟩
    · rcases Nat.lt_or_gt_of_ne hne with hlt | hlt <;>
        simp [GhostPc.holds, GhostPc.in_probe, GhostPc.holds_first, GhostPc.holds_second,
          GhostThread.first, GhostThread.second, hlt, Nat.lt_asymm hlt, hne, Ne.symm hne,
          Function.update] at * <;>
        omega
    · rcases Nat.lt_or_gt_of_ne hne with hlt | hlt <;>
        simp [GhostPc.holds, GhostPc.in_probe, GhostPc.holds_first, GhostPc.holds_second,
          GhostThread.first, GhostThread.second, hlt, Nat.lt_asymm hlt, hne, Ne.symm hne,
          Function.update] at * <;>
        omega
    · simp only [GhostData]
      exact ⟨trivial, h1, h2, trivial, trivial⟩
  | set_target =>
    simp only [GhostData] at hd
    obtain ⟨hc, h1, h2, rfl, rfl⟩ := hd
    simp only [GhostThread.step, Option.some.injEq, Prod.mk.injEq] at hstep
    obtain ⟨rfl, rfl⟩ := hstep
    refine ⟨rfl, ?_, ?_, ?_, ?_⟩
    · rcases Nat.lt_or_gt_of_ne hne with hlt | hlt <;>
        simp [GhostPc.holds, GhostPc.in_probe, GhostPc.holds_first, GhostPc.holds_second,
          GhostThread.first, GhostThread.second, hlt, Nat.lt_asymm hlt, hne, Ne.symm hne,
          Function.update] at * <;>
        omega
    · rcases Nat.lt_or_gt_of_ne hne with hlt | hlt <;>
        simp [GhostPc.holds, GhostPc.in_probe, GhostPc.holds_first, GhostPc.holds_second,
          GhostThread.first, GhostThread.second, hlt, Nat.lt_asymm hlt, hne, Ne.symm hne,
          Function.update] at * <;>
        omega
    · simp only [GhostData, ghost_in, setRoom_rooms, setRoom_ghost, Function.update_same,
        Function.update_noteq hne]
      exact ⟨⟨hc, trivial, h1⟩, trivial, trivial⟩
    · refine ⟨rfl, fun r => ?_⟩
      by_cases hr : r = tgt
      · subst hr; simp
      · simp [Function.update_noteq hr]
  | post_second =>
    simp only [GhostData] at hd
    obtain ⟨hin, rfl, rfl⟩ := hd
    simp only [GhostThread.step, Option.some.injEq, Prod.mk.injEq] at hstep
    obtain ⟨rfl, rfl⟩ := hstep
    refine ⟨rfl, ?_, ?_, ?_, ghost_frame_of_eq rfl rfl⟩
    · simp only [Shared.post_sem]
      rcases Nat.lt_or_gt_of_ne hne with hlt | hlt <;>
        simp [GhostPc.holds, GhostPc.in_probe, GhostPc.holds_first, GhostPc.holds_second,
          GhostThread.first, GhostThread.second, hlt, Nat.lt_asymm hlt, hne, Ne.symm hne,
          Function.update] at * <;>
        omega
    · simp only [Shared.post_sem]
      rcases Nat.lt_or_gt_of_ne hne with hlt | hlt <;>
        simp [GhostPc.holds, GhostPc.in_probe, GhostPc.holds_first, GhostPc.holds_second,
          GhostThread.first, GhostThread.second, hlt, Nat.lt_asymm hlt, hne, Ne.symm hne,
          Function.update] at * <;>
        omega
    · simp only [GhostData]
      exact ⟨ghost_in_congr hin rfl rfl, trivial, trivial⟩
  | post_first =>
    simp only [GhostData] at hd
    obtain ⟨hin, rfl, rfl⟩ := hd
    simp only [GhostThread.step, Option.some.injEq, Prod.mk.injEq] at hstep
    obtain ⟨rfl, rfl⟩ := hstep
    refine ⟨rfl, ?_, ?_, ?_, ghost_frame_of_eq rfl rfl⟩
    · simp only [Shared.post_sem]
      rcases Nat.lt_or_gt_of_ne hne with hlt | hlt <;>
        simp [GhostPc.holds, GhostPc.in_probe, GhostPc.holds_first, GhostPc.holds_second,
          GhostThread.first, GhostThread.second, hlt, Nat.lt_asymm hlt, hne, Ne.symm hne,
          Function.update] at * <;>
        omega
    · simp only [Shared.post_sem]
      rcases Nat.lt_or_gt_of_ne hne with hlt | hlt <;>
        simp [GhostPc.holds, GhostPc.in_probe, GhostPc.holds_first, GhostPc.holds_second,
          GhostThread.first, GhostThread.second, hlt, Nat.lt_asymm hlt, hne, Ne.symm hne,
          Function.update] at * <;>
        omega
    · simp only [GhostData]
      exact Or.inr (ghost_in_congr hin rfl rfl)
  | done => simp [GhostThread.step] at hstep

/-- The data of the hunter survive a step of `ghost_move`. -/
theorem move_data_of_ghost_frame {w v : House} {h : HunterPtr} {src dst : RoomPtr} {pc : MovePc}
    (hd : MoveData w h src dst pc) (hf : GhostFrame w v) : MoveData v h src dst pc := by
  obtain ⟨hh, hr⟩ := hf
  refine move_data_congr _ hd (by rw [hh]) ?_ ?_ (fun _ => (hr dst).2.1)
  · simp only [Room.listed, Room.occupants, (hr src).1, (hr src).2.1]
  · simp only [Room.listed, Room.occupants, (hr dst).1, (hr dst).2.1]

theorem rooms_ok_of_ghost_frame {w v : House} {a b : RoomPtr} (h : RoomsOk w a b)
    (hf : GhostFrame w v) : RoomsOk v a b := by
  obtain ⟨-, hr⟩ := hf
  unfold RoomsOk at *
  rw [(hr a).1, (hr a).2.1, (hr b).1, (hr b).2.1]
  exact h

/-- The data of the ghost survive a step of `hunter_move`. -/
theorem ghost_data_of_move_frame {w v : House} {h : HunterPtr} {src dst : RoomPtr}
    {g : GhostThread} {xs xd : Nat} (hd : GhostData w src dst g)
    (hf : MoveFrame w v h xs xd) : GhostData v src dst g := by
  obtain ⟨hg, -, hr, -, -⟩ := hf
  obtain ⟨rnd, frm, tgt, pc⟩ := g
  cases pc <;>
    simp only [GhostData, ghost_in, hg, (hr src).1, (hr dst).1] at hd ⊢ <;> exact hd

theorem haunt_inv_step {a b : RoomPtr} {h : HunterPtr} {rnd : Nat} {c c' : Conc}
    {pick_left : Bool} (hab : a ≠ b) (hinv : HauntInv a b h rnd c)
    (hstep : c.step pick_left = some c') : HauntInv a b h rnd c' := by
  obtain ⟨t, g, hl, hr, e1, e2, e3, e4, hsa, hsb, hok, hd1, hd2, hconn⟩ := hinv
  cases pick_left with
  | true =>
    simp only [Conc.step, if_true, hl, Actor.step, Option.map_map, Option.map_eq_some',
      Function.comp] at hstep
    obtain ⟨⟨s', t'⟩, hs, rfl⟩ := hstep
    subst e1
    obtain ⟨g1, g2, g3, g4, g5, g6, g7, g8⟩ :=
      move_step_inv hab e2 e3 hsa hsb hok hd1 hs
    refine ⟨t', g, rfl, hr, g1, g2, g3, e4, g4, g5, g6, g7, ghost_data_of_move_frame hd2 g8, ?_⟩
    simp only
    rw [(g8.2.2.1 b).2.1]
    exact hconn
  | false =>
    simp only [Conc.step, Bool.false_eq_true, if_false, hr, Actor.step, Option.map_map,
      Option.map_eq_some', Function.comp] at hstep
    obtain ⟨⟨s', g'⟩, hs, rfl⟩ := hstep
    subst e4
    obtain ⟨g1, g2, g3, g4, g5⟩ :=
      ghost_step_inv (Ne.symm hab) (by omega : c.shared.sem b + g.pc.holds b a b +
        t.pc.holds a b b = 1) (by omega : c.shared.sem a + g.pc.holds b a a +
        t.pc.holds a b a = 1) hd2 hconn hs
    refine ⟨t, g', hl, rfl, e1, e2, e3, g1, by simp only; omega, by simp only; omega,
      rooms_ok_of_ghost_frame hok g5, move_data_of_ghost_frame hd1 g5, g4, ?_⟩
    simp only
    rw [(g5.2 b).2.2.1]
    exact hconn

theorem haunt_inv_run {a b : RoomPtr} {h : HunterPtr} {rnd : Nat} (hab : a ≠ b)
    (sched : List Bool) {c c' : Conc} (hinv : HauntInv a b h rnd c)
    (hrun : c.run sched = some c') : HauntInv a b h rnd c' := by
  induction sched generalizing c with
  | nil =>
    simp only [Conc.run, Option.some.injEq] at hrun
    subst hrun; exact hinv
  | cons x rest ih =>
    simp only [Conc.run, Option.bind_eq_some] at hrun
    obtain ⟨c1, h1', h2'⟩ := hrun
    exact ih (haunt_inv_step hab hinv h1') h2'

/-- A thread of `ghost_move` can step unless it waits for a semaphore at 0 or
has returned. -/
theorem ghost_thread_step_isSome (s : Shared) (t : GhostThread) :
    (t.step s).isSome = (match t.pc with
      | .has_hunters_wait => decide (s.sem s.house.ghost.current_room ≠ 0)
      | .wait_first => decide (s.sem t.first ≠ 0)
      | .wait_second => decide (s.sem t.second ≠ 0)
      | .done => false
      | _ => true) := by
  obtain ⟨rnd, frm, tgt, pc⟩ := t
  cases pc <;> simp [GhostThread.step, shared_wait_isSome]
  · split <;> rfl
  · split <;> rfl

theorem conc_step_right_ghost_isSome (c : Conc) (t : GhostThread) (h : c.right = .ghost t) :
    (c.step false).isSome = (t.step c.shared).isSome := by
  simp [Conc.step, h, Actor.step]

/-- No deadlock for a hunter and the ghost: while one of them has not returned,
one of them can step. -/
theorem haunt_inv_progress {a b : RoomPtr} {h : HunterPtr} {rnd : Nat} {c : Conc}
    (hab : a ≠ b) (hinv : HauntInv a b h rnd c) (hfin : c.finished = false) :
    (c.step true).isSome = true ∨ (c.step false).isSome = true := by
  obtain ⟨t, g, hl, hr, e1, e2, e3, e4, hsa, hsb, -, -, hd, -⟩ := hinv
  rw [conc_step_left_isSome c t hl, conc_step_right_ghost_isSome c g hr,
    move_thread_step_isSome, ghost_thread_step_isSome]
  simp only [Conc.finished, hl, hr, Actor.finished] at hfin
  obtain ⟨k1, g1, f1, pc1⟩ := t
  obtain ⟨rnd2, f2, g2, pc2⟩ := g
  simp only at e1 e2 e3 e4 hsa hsb hfin hd ⊢
  subst e2
  rcases Nat.lt_or_gt_of_ne hab with hlt | hlt
  all_goals
    have hlt' := Nat.lt_asymm hlt
    cases pc1 <;> cases pc2 <;>
      simp only [MovePc.holds, MovePc.holds_first, MovePc.holds_second, MoveThread.first,
        MoveThread.second, GhostPc.holds, GhostPc.in_probe, GhostPc.holds_first,
        GhostPc.holds_second, GhostThread.first, GhostThread.second, GhostData, ghost_in,
        hlt, hlt', hab, Ne.symm hab, if_true, if_false, ne_eq,
        not_true_eq_false, not_false_eq_true, false_implies, true_implies, reduceCtorEq,
        decide_eq_true_eq, Bool.false_eq_true, or_false, false_or, or_true, true_or,
        Bool.and_self, Bool.and_true, Bool.and_false, Bool.true_and, Bool.false_and,
        decide_False, decide_True]
        at e3 hsa hsb hfin hd ⊢ <;>
      (try subst e3) <;>
      (try (obtain ⟨⟨hd1, hd2, hd3⟩, rfl, rfl⟩ := hd)) <;>
      (try (obtain ⟨hd1, hd2, hd3⟩ := hd)) <;>
      (try simp only [hd1]) <;>
      (try simp only [hlt, hlt', if_true, if_false]) <;>
      omega

theorem move_thread_step_fuel {s s' : Shared} {t t' : MoveThread}
    (h : t.step s = some (s', t')) : t'.pc.fuel < t.pc.fuel := by
  obtain ⟨k, tgt, frm, pc⟩ := t
  cases pc <;> simp only [MoveThread.step, Option.map_eq_some', Option.some.injEq,
    Prod.mk.injEq, reduceCtorEq] at h
  case check =>
    split at h <;> simp only [Option.some.injEq, Prod.mk.injEq] at h <;>
      obtain ⟨-, rfl⟩ := h <;> simp [MovePc.fuel, GhostPc.fuel]
  all_goals first
    | (obtain ⟨-, rfl⟩ := h; simp [MovePc.fuel, GhostPc.fuel])
    | (obtain ⟨_, -, -, rfl⟩ := h; simp [MovePc.fuel, GhostPc.fuel])

theorem ghost_thread_step_fuel {s s' : Shared} {t t' : GhostThread}
    (h : t.step s = some (s', t')) : t'.pc.fuel < t.pc.fuel := by
  obtain ⟨rnd, frm, tgt, pc⟩ := t
  cases pc <;> simp only [GhostThread.step, Option.map_eq_some', Option.some.injEq,
    Prod.mk.injEq, reduceCtorEq] at h
  case check_connections =>
    split at h <;> simp only [Option.some.injEq, Prod.mk.injEq] at h <;>
      obtain ⟨-, rfl⟩ := h <;> simp [MovePc.fuel, GhostPc.fuel]
  case pick =>
    split at h <;> simp only [Option.some.injEq, Prod.mk.injEq] at h <;>
      obtain ⟨-, rfl⟩ := h <;> simp [MovePc.fuel, GhostPc.fuel]
  case has_hunters_post r =>
    obtain ⟨-, rfl⟩ := h
    cases r <;> simp [MovePc.fuel, GhostPc.fuel]
  all_goals first
    | (obtain ⟨-, rfl⟩ := h; simp [MovePc.fuel, GhostPc.fuel])
    | (obtain ⟨_, -, -, rfl⟩ := h; simp [MovePc.fuel, GhostPc.fuel])

theorem actor_step_fuel {s s' : Shared} {x x' : Actor}
    (h : x.step s = some (s', x')) : x'.fuel < x.fuel := by
  cases x with
  | hunter t =>
    simp only [Actor.step, Option.map_eq_some', Prod.mk.injEq] at h
    obtain ⟨⟨s1, t1⟩, hs, -, rfl⟩ := h
    exact move_thread_step_fuel hs
  | ghost t =>
    simp only [Actor.step, Option.map_eq_some', Prod.mk.injEq] at h
    obtain ⟨⟨s1, t1⟩, hs, -, rfl⟩ := h
    exact ghost_thread_step_fuel hs

theorem conc_step_fuel {c c' : Conc} {b : Bool} (h : c.step b = some c') :
    c'.fuel < c.fuel := by
  cases b with
  | true =>
    simp only [Conc.step, if_true, Option.map_eq_some'] at h
    obtain ⟨⟨s1, x1⟩, hs, rfl⟩ := h
    have := actor_step_fuel hs
    simp only [Conc.fuel]; omega
  | false =>
    simp only [Conc.step, Bool.false_eq_true, if_false, Option.map_eq_some'] at h
    obtain ⟨⟨s1, x1⟩, hs, rfl⟩ := h
    have := actor_step_fuel hs
    simp only [Conc.fuel]; omega

/-- Every interleaving is finite: its length plus the fuel left is at most the
fuel at the start. -/
theorem conc_run_fuel (sched : List Bool) {c c' : Conc} (h : c.run sched = some c') :
    sched.length + c'.fuel ≤ c.fuel := by
  induction sched generalizing c with
  | nil =>
    simp only [Conc.run, Option.some.injEq] at h
    subst h; simp
  | cons x rest ih =>
    simp only [Conc.run, Option.bind_eq_some] at h
    obtain ⟨c1, h1, h2⟩ := h
    have := conc_step_fuel h1
    have := ih h2
    simp only [List.length_cons]; omega

theorem duel_inv_init {s : Shared} {h1 h2 : HunterPtr} {a b : RoomPtr}
    (hsa : s.sem a = 1) (hsb : s.sem b = 1) (hok : RoomsOk s.house a b)
    (hin1 : hunter_in s.house h1 a b) (hin2 : hunter_in s.house h2 b a) :
    DuelInv a b h1 h2 (two_hunters s h1 h2 a b) :=
  ⟨_, _, rfl, rfl, rfl, rfl, fun h => absurd rfl h, rfl, rfl, fun h => absurd rfl h,
    by simp [two_hunters, MovePc.holds, MovePc.holds_first, MovePc.holds_second, hsa],
    by simp [two_hunters, MovePc.holds, MovePc.holds_first, MovePc.holds_second, hsb],
    hok, hin1, hin2⟩

theorem haunt_inv_init {s : Shared} {h : HunterPtr} {a b : RoomPtr} {rnd : Nat}
    (hsa : s.sem a = 1) (hsb : s.sem b = 1) (hok : RoomsOk s.house a b)
    (hin1 : hunter_in s.house h a b) (hin2 : ghost_in s.house b a)
    (hconn : (s.house.rooms b).connections.getD rnd none = some a) :
    HauntInv a b h rnd (hunter_and_ghost s h b rnd) :=
  ⟨_, _, rfl, rfl, rfl, rfl, fun h => absurd rfl h, rfl,
    by simp [hunter_and_ghost, MovePc.holds, MovePc.holds_first, MovePc.holds_second,
      GhostPc.holds, GhostPc.in_probe, GhostPc.holds_first, GhostPc.holds_second, hsa],
    by simp [hunter_and_ghost, MovePc.holds, MovePc.holds_first, MovePc.holds_second,
      GhostPc.holds, GhostPc.in_probe, GhostPc.holds_first, GhostPc.holds_second, hsb],
    hok, hin1, hin2, hconn⟩

/-- At the end the hunter is in exactly one room, according to the value returned. -/
theorem move_data_final {w : House} {h : HunterPtr} {src dst : RoomPtr} {t : MoveThread}
    (hd : MoveData w h src dst t.pc) (hfin : (Actor.hunter t).finished = true) :
    ∃ r, (Actor.hunter t).result = some r ∧
      (r = true → hunter_in w h dst src) ∧ (r = false → hunter_in w h src dst) := by
  obtain ⟨k, tgt, frm, pc⟩ := t
  cases pc <;> simp only [Actor.finished, Bool.false_eq_true] at hfin
  rename_i r
  refine ⟨r, rfl, ?_, ?_⟩
  · rintro rfl
    simp only [MoveData] at hd
    exact ⟨hd.1, hd.2.2, hd.2.1⟩
  · rintro rfl
    simpa only [MoveData] using hd

/-- Run alone with the two semaphores free, the statements of a thread of
`hunter_move` compute what the function `hunter_move` computes: the same house
(lock events included) and the same result. -/
theorem hunter_move_thread_alone (s : Shared) (hunter : HunterPtr) (target_room frm : RoomPtr)
    (hne : (s.house.hunters hunter).current_room ≠ target_room)
    (h1 : s.sem (s.house.hunters hunter).current_room ≠ 0) (h2 : s.sem target_room ≠ 0) :
    ((MoveThread.run_alone 9 s
        { hunter := hunter, target_room := target_room, from_room := frm, pc := .start }).1.house
      = (hunter_move s.house hunter target_room).2) ∧
    ((MoveThread.run_alone 9 s
        { hunter := hunter, target_room := target_room, from_room := frm, pc := .start }).2.pc
      = .done (hunter_move s.house hunter target_room).1) := by
  rcases Nat.lt_or_gt_of_ne hne with hlt | hlt
  · have hlt' := Nat.lt_asymm hlt
    by_cases hfull : MAX_ROOM_OCCUPANCY ≤ (s.house.rooms target_room).hunter_count <;>
      simp [MoveThread.run_alone, MoveThread.step, MoveThread.first, MoveThread.second,
        Shared.wait, Shared.post, hunter_move, hlt, hlt', h1, h2, hne, Ne.symm hne,
        Function.update_noteq, hfull]
  · have hlt' := Nat.lt_asymm hlt
    by_cases hfull : MAX_ROOM_OCCUPANCY ≤ (s.house.rooms target_room).hunter_count <;>
      simp [MoveThread.run_alone, MoveThread.step, MoveThread.first, MoveThread.second,
        Shared.wait, Shared.post, hunter_move, hlt, hlt', h1, h2, hne, Ne.symm hne,
        Function.update_noteq, hfull]

/-- Run alone with the semaphores free, the statements of a thread of
`ghost_move` compute what the function `ghost_move` computes. -/
theorem ghost_move_thread_alone (s : Shared) (rnd : Nat) (frm tgt : RoomPtr)
    (h1 : s.sem s.house.ghost.current_room ≠ 0)
    (h2 : ∀ target_room,
      (s.house.rooms s.house.ghost.current_room).connections.getD rnd none = some target_room →
      target_room ≠ s.house.ghost.current_room ∧ s.sem target_room ≠ 0) :
    ((GhostThread.run_alone 12 s
        { rnd := rnd, from_room := frm, target_room := tgt, pc := .has_hunters_wait }).1.house
      = ghost_move s.house rnd) ∧
    ((GhostThread.run_alone 12 s
        { rnd := rnd, from_room := frm, target_room := tgt, pc := .has_hunters_wait }).2.pc
      = .done) := by
  by_cases hh : (s.house.rooms s.house.ghost.current_room).hunter_count = 0
  · by_cases hc : (s.house.rooms s.house.ghost.current_room).connection_count = 0
    · simp [GhostThread.run_alone, GhostThread.step, Shared.wait, Shared.post, ghost_move,
        room_has_hunters, sem_wait, sem_post, h1, hh, hc]
    · cases ht : (s.house.rooms s.house.ghost.current_room).connections.getD rnd none with
      | none =>
        rw [List.getD_eq_getElem?_getD] at ht
        simp [GhostThread.run_alone, GhostThread.step, Shared.wait, Shared.post, ghost_move,
          room_has_hunters, sem_wait, sem_post, h1, hh, hc, ht]
      | some target_room =>
        obtain ⟨hne, hs⟩ := h2 target_room ht
        rw [List.getD_eq_getElem?_getD] at ht
        rcases Nat.lt_or_gt_of_ne hne with hlt | hlt
        · have hlt' := Nat.lt_asymm hlt
          simp [GhostThread.run_alone, GhostThread.step, GhostThread.first, GhostThread.second,
            Shared.wait, Shared.post, ghost_move, room_has_hunters, sem_wait, sem_post,
            House.setRoom, h1, hh, hc, ht, hne, Ne.symm hne, hlt, hlt', hs,
            Function.update]
        · have hlt' := Nat.lt_asymm hlt
          simp [GhostThread.run_alone, GhostThread.step, GhostThread.first, GhostThread.second,
            Shared.wait, Shared.post, ghost_move, room_has_hunters, sem_wait, sem_post,
            House.setRoom, h1, hh, hc, ht, hne, Ne.symm hne, hlt, hlt', hs,
            Function.update]
  · have hpos : 0 < (s.house.rooms s.house.ghost.current_room).hunter_count := by omega
    simp [GhostThread.run_alone, GhostThread.step, Shared.wait, Shared.post, ghost_move,
      room_has_hunters, sem_wait, sem_post, h1, hh, hpos]

theorem duel_run_isSome :
    ((two_hunters duel_start 0 1 1 2).run duel_schedule).isSome = true := by decide

theorem haunt_run_isSome :
    ((hunter_and_ghost haunt_start 0 2 0).run haunt_schedule).isSome = true := by decide

theorem erase_eq_filter_of_count_le_one (a : Option HunterPtr) (l : List (Option HunterPtr))
    (h : l.count a ≤ 1) : l.erase a = l.filter (fun x => decide (x ≠ a)) := by
  induction l with
  | nil => rfl
  | cons x xs ih =>
    by_cases hx : x = a
    · subst hx
      have hc : xs.count x = 0 := by
        rw [List.count_cons_self] at h; omega
      have hn : x ∉ xs := List.count_eq_zero.mp hc
      rw [List.erase_cons_head, List.filter_cons_of_neg (by simp)]
      symm
      apply List.filter_eq_self.mpr
      intro y hy
      simp only [ne_eq, decide_not, Bool.not_eq_true', decide_eq_false_iff_not]
      intro e; exact hn (e ▸ hy)
    · have hc : xs.count a ≤ 1 := by
        rw [List.count_cons_of_ne (Ne.symm hx)] at h; exact h
      rw [List.erase_cons_tail (by simpa using hx), List.filter_cons_of_pos (by simpa using hx),
        ih hc]

theorem occupants_length (room : Room) (hc : room.hunter_count ≤ room.hunters.length) :
    room.occupants.length = room.hunter_count := by
  simp [Room.occupants, List.length_take, Nat.min_eq_left hc]

/-- Removing a hunter that is among the occupants lowers the count by one. -/
theorem room_remove_hunter_count (room : Room) (hunter : HunterPtr)
    (hc : room.hunter_count ≤ room.hunters.length) (hin : some hunter ∈ room.occupants) :
    (room_remove_hunter room hunter).hunter_count + 1 = room.hunter_count := by
  have h1 := room_remove_hunter_occupants room hunter hc
  have h2 := room_remove_hunter_count_le room hunter
  have h3 := (room_remove_hunter_frame room hunter).1
  have h4 : (room_remove_hunter room hunter).occupants.length =
      (room_remove_hunter room hunter).hunter_count :=
    occupants_length _ (by omega)
  rw [h1, List.length_erase_of_mem hin, occupants_length room hc] at h4
  have h5 : 0 < room.occupants.length := List.length_pos_of_mem hin
  rw [occupants_length room hc] at h5
  omega

/-- The house after a move into a different room that has a free slot. -/
theorem hunter_move_of_room (w : House) (hunter : HunterPtr) (target_room : RoomPtr)
    (hroom : (w.rooms target_room).hunter_count < MAX_ROOM_OCCUPANCY)
    (hne : target_room ≠ (w.hunters hunter).current_room) :
    (hunter_move w hunter target_room).1 = true ∧
    (hunter_move w hunter target_room).2.rooms (w.hunters hunter).current_room =
      room_remove_hunter (w.rooms (w.hunters hunter).current_room) hunter ∧
    (hunter_move w hunter target_room).2.rooms target_room =
      (room_add_hunter (w.rooms target_room) hunter).2 ∧
    (∀ p, p ≠ (w.hunters hunter).current_room → p ≠ target_room →
      (hunter_move w hunter target_room).2.rooms p = w.rooms p) ∧
    (hunter_move w hunter target_room).2.hunters hunter =
      { w.hunters hunter with current_room := target_room } ∧
    (∀ x, x ≠ hunter → (hunter_move w hunter target_room).2.hunters x = w.hunters x) := by
  have hn : ¬ (w.rooms target_room).hunter_count ≥ MAX_ROOM_OCCUPANCY := by omega
  simp only [hunter_move, sem_wait_rooms, sem_wait_hunters, hn, if_false, sem_post_rooms,
    sem_post_hunters, setRoom_rooms, setHunter_rooms, setRoom_hunters, setHunter_hunters]
  refine ⟨trivial, ?_, ?_, ?_, ?_, ?_⟩
  · simp [Function.update, Ne.symm hne]
  · simp [Function.update, hne]
  · intro p h1 h2; simp [Function.update, h1, h2]
  · simp [Function.update]
  · intro x hx; simp [Function.update, hx]

theorem roomstack_push_all_head (stack : RoomStack) (rooms : List RoomPtr) :
    (roomstack_push_all stack rooms).head = rooms.reverse.map some ++ stack.head := by
  induction rooms generalizing stack with
  | nil => rfl
  | cons r rs ih =>
    show (roomstack_push_all (roomstack_push stack (some r) true) rs).head = _
    rw [ih]
    simp [roomstack_push]

theorem roomstack_pop_n_map (l : List RoomPtr) (t : List (Option RoomPtr)) :
    roomstack_pop_n l.length { head := l.map some ++ t } =
      (l.map (fun r => (false, some r)), { head := t }) := by
  induction l with
  | nil => rfl
  | cons r rs ih =>
    simp only [List.length_cons, roomstack_pop_n, List.map_cons, List.cons_append,
      roomstack_pop, roomstack_is_empty, List.isEmpty_cons, ih]

theorem hunter_move_status (w : House) (hunter : HunterPtr) (t : RoomPtr) (x : HunterPtr) :
    ((hunter_move w hunter t).2.hunters x).status = (w.hunters x).status := by
  simp only [hunter_move]
  by_cases hx : x = hunter
  · subst hx; split_ifs <;> simp [Hunter.status, Function.update]
  · split_ifs <;> simp [Hunter.status, Function.update, hx]

theorem hunter_gather_evidence_status (w : House) (hunter : HunterPtr) (rnd : Nat)
    (x : HunterPtr) :
    ((hunter_gather_evidence w hunter rnd).hunters x).status = (w.hunters x).status := by
  simp only [hunter_gather_evidence]
  by_cases hx : x = hunter
  · subst hx; split_ifs <;> simp [Hunter.status, Function.update]
  · split_ifs <;> simp [Hunter.status, Function.update, hx]

theorem hunter_choose_move_attempt_status (w : House) (hunter : HunterPtr) (o t : RoomPtr)
    (b : Bool) (x : HunterPtr) :
    ((hunter_choose_move_attempt w hunter o t b).hunters x).status = (w.hunters x).status := by
  simp only [hunter_choose_move_attempt]
  have hm := hunter_move_status w hunter t x
  by_cases hx : x = hunter
  · subst hx
    split_ifs
    · simpa [Hunter.status, Function.update] using hm
    · exact hm
  · split_ifs
    · simpa [Hunter.status, Function.update, hx] using hm
    · exact hm

theorem hunter_choose_move_status (w : House) (hunter : HunterPtr) (rnd : Nat) (b : Bool)
    (x : HunterPtr) :
    ((hunter_choose_move w hunter rnd b).hunters x).status = (w.hunters x).status := by
  simp only [hunter_choose_move]
  have e : ∀ p : RoomStack,
      ((w.setHunter hunter { w.hunters hunter with path := p }).hunters x).status =
        (w.hunters x).status := by
    intro p
    by_cases hx : x = hunter
    · subst hx; simp [Hunter.status, Function.update]
    · simp [Hunter.status, Function.update, hx]
  split_ifs
  · split
    · exact e _
    · rw [hunter_choose_move_attempt_status]; exact e _
  · rfl
  · split
    · rfl
    · exact hunter_choose_move_attempt_status _ _ _ _ _ _

theorem hunter_update_stats_hunter (w : House) (hunter : HunterPtr)
    (hg : (w.rooms (w.hunters hunter).current_room).ghost = false) :
    (hunter_update_stats w hunter).hunters hunter =
      { w.hunters hunter with boredom := (w.hunters hunter).boredom + 1 } := by
  simp [hunter_update_stats, hg, Function.update]

theorem hunter_update_stats_current_room (w : House) (hunter : HunterPtr) :
    ((hunter_update_stats w hunter).hunters hunter).current_room =
      (w.hunters hunter).current_room := by
  simp only [hunter_update_stats]
  split_ifs <;> simp [Function.update]

theorem hunter_check_van_status (w : House) (hunter : HunterPtr) (rnd : Nat)
    (hv : van_check_solves w hunter = false) :
    ((hunter_check_van w hunter rnd).hunters hunter).status = (w.hunters hunter).status := by
  simp only [hunter_check_van]
  by_cases hex : (w.rooms (w.hunters hunter).current_room).is_exit = true
  · have hv2 : (evidence_has_three_unique w.caseFile.collected &&
        evidence_is_valid_ghost w.caseFile.collected) = false := by
      simpa [van_check_solves, hex] using hv
    simp only [hex, Bool.not_true, Bool.false_eq_true, if_false]
    split_ifs <;> simp_all [Hunter.status, Function.update]
  · simp [hex]

theorem hunter_check_exit_conditions_status (w : House) (hunter : HunterPtr) :
    ((hunter_check_exit_conditions w hunter).hunters hunter).status =
      if (w.hunters hunter).boredom > ENTITY_BOREDOM_MAX then
        ((w.hunters hunter).fear, (w.hunters hunter).boredom, true, LogReason.LR_BORED)
      else if (w.hunters hunter).fear > HUNTER_FEAR_MAX then
        ((w.hunters hunter).fear, (w.hunters hunter).boredom, true, LogReason.LR_AFRAID)
      else (w.hunters hunter).status := by
  simp only [hunter_check_exit_conditions]
  split_ifs <;> simp [Hunter.status, Function.update]

theorem hunter_thread_body_status (w : House) (hunter : HunterPtr) (r1 r2 r3 : Nat) (b : Bool)
    (hg : (w.rooms (w.hunters hunter).current_room).ghost = false)
    (hv : van_check_solves w hunter = false)
    (hf : (w.hunters hunter).fear ≤ HUNTER_FEAR_MAX)
    (hs : (w.hunters hunter).should_exit = false) :
    ((hunter_thread_body w hunter r1 r2 r3 b).hunters hunter).status =
      if (w.hunters hunter).boredom + 1 > ENTITY_BOREDOM_MAX then
        ((w.hunters hunter).fear, (w.hunters hunter).boredom + 1, true, LogReason.LR_BORED)
      else
        ((w.hunters hunter).fear, (w.hunters hunter).boredom + 1, false,
          (w.hunters hunter).exit_reason) := by
  have h1 := hunter_update_stats_hunter w hunter hg
  have hv1 : van_check_solves (hunter_update_stats w hunter) hunter = false := by
    rw [← hv]
    simp only [van_check_solves, hunter_update_stats_rooms, hunter_update_stats_caseFile,
      hunter_update_stats_current_room]
  have h2 := hunter_check_van_status _ hunter r1 hv1
  rw [h1] at h2
  have h2s : ((hunter_check_van (hunter_update_stats w hunter) hunter r1).hunters
      hunter).should_exit = false := by
    have := congrArg (fun s => s.2.2.1) h2
    simpa [Hunter.status, hs] using this
  have h3 := hunter_check_exit_conditions_status
    (hunter_check_van (hunter_update_stats w hunter) hunter r1) hunter
  have h2f : ((hunter_check_van (hunter_update_stats w hunter) hunter r1).hunters
      hunter).fear = (w.hunters hunter).fear := by
    have := congrArg (fun s => s.1) h2
    simpa [Hunter.status] using this
  have h2b : ((hunter_check_van (hunter_update_stats w hunter) hunter r1).hunters
      hunter).boredom = (w.hunters hunter).boredom + 1 := by
    have := congrArg (fun s => s.2.1) h2
    simpa [Hunter.status] using this
  have h2r : ((hunter_check_van (hunter_update_stats w hunter) hunter r1).hunters
      hunter).exit_reason = (w.hunters hunter).exit_reason := by
    have := congrArg (fun s => s.2.2.2) h2
    simpa [Hunter.status] using this
  have hnf : ¬ (w.hunters hunter).fear > HUNTER_FEAR_MAX := by omega
  rw [h2f, h2b, if_neg hnf] at h3
  simp only [hunter_thread_body, h2s, Bool.not_false, if_true]
  by_cases hb : (w.hunters hunter).boredom + 1 > ENTITY_BOREDOM_MAX
  · rw [if_pos hb] at h3 ⊢
    have h3s : ((hunter_check_exit_conditions
        (hunter_check_van (hunter_update_stats w hunter) hunter r1) hunter).hunters
        hunter).should_exit = true := by
      have := congrArg (fun s => s.2.2.1) h3
      simpa [Hunter.status] using this
    simp only [h3s, Bool.not_true, Bool.false_eq_true, if_false]
    exact h3
  · rw [if_neg hb] at h3 ⊢
    have h3s : ((hunter_check_exit_conditions
        (hunter_check_van (hunter_update_stats w hunter) hunter r1) hunter).hunters
        hunter).should_exit = false := by
      have := congrArg (fun s => s.2.2.1) h3
      simpa [Hunter.status, h2s] using this
    simp only [h3s, Bool.not_false, if_true]
    rw [hunter_choose_move_status, hunter_gather_evidence_status, h3]
    simp [Hunter.status, h2f, h2b, h2s, h2r]

theorem hunter_thread_iterations_succ (hunter : HunterPtr) (draws : Nat → HunterDraws)
    (others : Nat → List Op) (n : Nat) (w : House) :
    hunter_thread_iterations hunter draws others (n + 1) w =
      if ((hunter_iteration_start hunter draws others n w).hunters hunter).should_exit then
        hunter_iteration_start hunter draws others n w
      else hunter_thread_body (hunter_iteration_start hunter draws others n w) hunter
        (draws n).rnd_van (draws n).rnd_gather (draws n).rnd_move (draws n).alloc_ok := rfl

/-- While no ghost shows up and the van check does not solve the case, the
boredom of a hunter counts the iterations of its loop. -/
theorem hunter_iterations_status (w : House) (hunter : HunterPtr) (draws : Nat → HunterDraws)
    (others : Nat → List Op)
    (hb : (w.hunters hunter).boredom = 0)
    (hf : (w.hunters hunter).fear ≤ HUNTER_FEAR_MAX)
    (hs : (w.hunters hunter).should_exit = false)
    (n : Nat)
    (hq : ∀ i, i < n →
      (hunter_iteration_start hunter draws others i w).hunters hunter =
        (hunter_thread_iterations hunter draws others i w).hunters hunter ∧
      ((hunter_iteration_start hunter draws others i w).rooms
        ((hunter_iteration_start hunter draws others i w).hunters hunter).current_room).ghost =
        false ∧
      van_check_solves (hunter_iteration_start hunter draws others i w) hunter = false)
    (i : Nat) (hi : i ≤ n) (hi2 : i ≤ ENTITY_BOREDOM_MAX) :
    ((hunter_thread_iterations hunter draws others i w).hunters hunter).status =
      ((w.hunters hunter).fear, i, false, (w.hunters hunter).exit_reason) := by
  induction i with
  | zero => simp [hunter_thread_iterations, Hunter.status, hb, hs]
  | succ i ih =>
    have ih := ih (by omega) (by omega)
    obtain ⟨ha, hg, hv⟩ := hq i (by omega)
    have hst : ((hunter_iteration_start hunter draws others i w).hunters hunter).status =
        ((w.hunters hunter).fear, i, false, (w.hunters hunter).exit_reason) := by
      rw [ha]; exact ih
    have e1 : ((hunter_iteration_start hunter draws others i w).hunters hunter).fear =
        (w.hunters hunter).fear := congrArg (fun s => s.1) hst
    have e2 : ((hunter_iteration_start hunter draws others i w).hunters hunter).boredom = i :=
      congrArg (fun s => s.2.1) hst
    have e3 : ((hunter_iteration_start hunter draws others i w).hunters hunter).should_exit =
        false := congrArg (fun s => s.2.2.1) hst
    have e4 : ((hunter_iteration_start hunter draws others i w).hunters hunter).exit_reason =
        (w.hunters hunter).exit_reason := congrArg (fun s => s.2.2.2) hst
    rw [hunter_thread_iterations_succ, e3]
    simp only [Bool.false_eq_true, if_false]
    rw [hunter_thread_body_status _ hunter _ _ _ _ hg hv (by rw [e1]; exact hf) e3, e1, e2, e4]
    have : ¬ i + 1 > ENTITY_BOREDOM_MAX := by omega
    rw [if_neg this]

theorem should_exit_of_status {a b : Hunter} (h : a.status = b.status) :
    a.should_exit = b.should_exit :=
  congrArg (fun s => s.2.2.1) h

theorem hunter_update_stats_should_exit (w : House) (hunter x : HunterPtr) :
    ((hunter_update_stats w hunter).hunters x).should_exit = (w.hunters x).should_exit := by
  simp only [hunter_update_stats]
  by_cases hx : x = hunter
  · subst hx; split_ifs <;> simp [Function.update]
  · split_ifs <;> simp [Function.update, hx]

theorem hunter_check_van_should_exit (w : House) (hunter : HunterPtr) (rnd : Nat)
    (x : HunterPtr) (h : (w.hunters x).should_exit = true) :
    ((hunter_check_van w hunter rnd).hunters x).should_exit = true := by
  simp only [hunter_check_van]
  by_cases hx : x = hunter
  · subst hx; split_ifs <;> simp [Function.update, h]
  · split_ifs <;> simp [Function.update, hx, h]

theorem hunter_check_exit_conditions_should_exit (w : House) (hunter x : HunterPtr)
    (h : (w.hunters x).should_exit = true) :
    ((hunter_check_exit_conditions w hunter).hunters x).should_exit = true := by
  simp only [hunter_check_exit_conditions]
  by_cases hx : x = hunter
  · subst hx; split_ifs <;> simp [Function.update, h]
  · split_ifs <;> simp [Function.update, hx, h]

theorem hunter_thread_body_should_exit (w : House) (hunter : HunterPtr) (r1 r2 r3 : Nat)
    (b : Bool) (x : HunterPtr) (h : (w.hunters x).should_exit = true) :
    ((hunter_thread_body w hunter r1 r2 r3 b).hunters x).should_exit = true := by
  have h1 : ((hunter_update_stats w hunter).hunters x).should_exit = true := by
    rw [hunter_update_stats_should_exit]; exact h
  have h2 := hunter_check_van_should_exit _ hunter r1 x h1
  have h3 := hunter_check_exit_conditions_should_exit _ hunter x h2
  simp only [hunter_thread_body]
  split_ifs
  all_goals first
    | exact h3
    | exact h2
    | (rw [should_exit_of_status (hunter_choose_move_status _ _ _ _ _),
        should_exit_of_status (hunter_gather_evidence_status _ _ _ _)]
       exact h3)

theorem hunter_op_should_exit (w : House) (hunter : HunterPtr) (op : HunterOp) (x : HunterPtr)
    (h : (w.hunters x).should_exit = true) :
    ((op.run w hunter).hunters x).should_exit = true := by
  cases op with
  | move t => exact (should_exit_of_status (hunter_move_status w hunter t x)).trans h
  | update_stats => exact (hunter_update_stats_should_exit w hunter x).trans h
  | check_van rnd => exact hunter_check_van_should_exit w hunter rnd x h
  | check_exit_conditions => exact hunter_check_exit_conditions_should_exit w hunter x h
  | gather_evidence rnd =>
    exact (should_exit_of_status (hunter_gather_evidence_status w hunter rnd x)).trans h
  | choose_move rnd b =>
    exact (should_exit_of_status (hunter_choose_move_status w hunter rnd b x)).trans h
  | thread_body r1 r2 r3 b => exact hunter_thread_body_should_exit w hunter r1 r2 r3 b x h

theorem ghost_update_stats_has_exited (w : House) :
    (ghost_update_stats w).ghost.has_exited = w.ghost.has_exited := by
  simp only [ghost_update_stats]
  split_ifs <;> simp

theorem ghost_check_exit_has_exited (w : House) (h : w.ghost.has_exited = true) :
    (ghost_check_exit w).2.ghost.has_exited = true := by
  simp only [ghost_check_exit]
  split_ifs <;> simp [h]

theorem ghost_leave_evidence_ghost (w : House) (rnd : Nat) :
    (ghost_leave_evidence w rnd).ghost = w.ghost := by
  simp only [ghost_leave_evidence]
  split_ifs
  · split <;> simp
  · rfl

theorem ghost_move_ghost (w : House) (rnd : Nat) :
    (ghost_move w rnd).ghost.id = w.ghost.id ∧
    (ghost_move w rnd).ghost.type = w.ghost.type ∧
    (ghost_move w rnd).ghost.boredom = w.ghost.boredom ∧
    (ghost_move w rnd).ghost.has_exited = w.ghost.has_exited := by
  simp only [ghost_move]
  split_ifs
  · simp
  · simp
  · split <;> simp

theorem ghost_take_action_ghost (w : House) (action rnd : Nat) :
    (ghost_take_action w action rnd).ghost.boredom = w.ghost.boredom ∧
    (ghost_take_action w action rnd).ghost.has_exited = w.ghost.has_exited := by
  simp only [ghost_take_action]
  split_ifs
  · exact ⟨rfl, rfl⟩
  · rw [ghost_leave_evidence_ghost]; exact ⟨rfl, rfl⟩
  · exact ⟨(ghost_move_ghost w rnd).2.2.1, (ghost_move_ghost w rnd).2.2.2⟩

theorem ghost_thread_body_has_exited (w : House) (action rnd : Nat)
    (h : w.ghost.has_exited = true) :
    (ghost_thread_body w action rnd).ghost.has_exited = true := by
  have h1 : (ghost_update_stats w).ghost.has_exited = true := by
    rw [ghost_update_stats_has_exited]; exact h
  have h2 := ghost_check_exit_has_exited _ h1
  simp only [ghost_thread_body]
  split_ifs
  · rw [(ghost_take_action_ghost _ _ _).2]; exact h2
  · exact h2

theorem ghost_op_has_exited (w : House) (op : GhostOp) (h : w.ghost.has_exited = true) :
    (op.run w).ghost.has_exited = true := by
  cases op with
  | update_stats => exact (ghost_update_stats_has_exited w).trans h
  | check_exit => exact ghost_check_exit_has_exited w h
  | leave_evidence rnd =>
    exact (congrArg Ghost.has_exited (ghost_leave_evidence_ghost w rnd)).trans h
  | move rnd => exact (ghost_move_ghost w rnd).2.2.2.trans h
  | take_action a rnd => exact (ghost_take_action_ghost w a rnd).2.trans h
  | thread_body a rnd => exact ghost_thread_body_has_exited w a rnd h


theorem set_ghost_frame (f : RoomPtr → Room) (a : RoomPtr) (b : Bool) (p : RoomPtr) :
    ((Function.update f a { f a with ghost := b }) p).hunters = (f p).hunters ∧
    ((Function.update f a { f a with ghost := b }) p).hunter_count = (f p).hunter_count ∧
    ((Function.update f a { f a with ghost := b }) p).evidence = (f p).evidence := by
  by_cases h : p = a
  · subst h; simp
  · simp [Function.update, h]

/-- The house after a move of the ghost out of a room without hunters, along the
connection drawn. -/
theorem ghost_move_of_target (w : House) (rnd : Nat) (t : RoomPtr)
    (h0 : (w.rooms w.ghost.current_room).hunter_count = 0)
    (hc : (w.rooms w.ghost.current_room).connection_count ≠ 0)
    (ht : (w.rooms w.ghost.current_room).connections.get? rnd = some (some t)) :
    (ghost_move w rnd).ghost = { w.ghost with current_room := t } ∧
    (ghost_move w rnd).rooms =
      Function.update
        (Function.update w.rooms w.ghost.current_room
          { w.rooms w.ghost.current_room with ghost := false })
        t { (Function.update w.rooms w.ghost.current_room
          { w.rooms w.ghost.current_room with ghost := false }) t with ghost := true } := by
  have hh : ¬ (w.rooms w.ghost.current_room).hunter_count > 0 := by omega
  have hg : (w.rooms w.ghost.current_room).connections.getD rnd none = some t := by
    rw [List.getD_eq_getElem?_getD, ← List.get?_eq_getElem?, ht]; rfl
  simp only [ghost_move, room_has_hunters_result, room_has_hunters_rooms,
    room_has_hunters_ghost, hh, hc, hg, decide_False, Bool.false_eq_true, if_false,
    sem_post_rooms, sem_post_ghost, setRoom_rooms, setRoom_ghost, sem_wait_rooms,
    sem_wait_ghost]
  exact ⟨trivial, trivial⟩

theorem ghost_thread_iterations_succ (draws : Nat → Nat × Nat) (others : Nat → List Op)
    (n : Nat) (w : House) :
    ghost_thread_iterations draws others (n + 1) w =
      if (ghost_iteration_start draws others n w).ghost.has_exited then
        ghost_iteration_start draws others n w
      else ghost_thread_body (ghost_iteration_start draws others n w) (draws n).1 (draws n).2 :=
  rfl

theorem ghost_evidence_candidates_length (type : GhostType) :
    (ghost_evidence_candidates type).length = 3 := by
  cases type <;> rfl

theorem ghost_evidence_candidates_mem (type : GhostType) (e : EvidenceType) :
    e ∈ ghost_evidence_candidates type ↔ evidence_has type.val e = true := by
  cases type <;> cases e <;> decide

theorem evidence_set_of_lt (m : EvidenceByte) (t : EvidenceType) (h : m < 256) :
    evidence_set m t = m ||| t.val := by
  unfold evidence_set
  apply Nat.mod_eq_of_lt
  have h1 : t.val < 2 ^ 8 := by cases t <;> decide
  exact Nat.or_lt_two_pow (by simpa using h) h1

theorem ghost_update_stats_ghost (w : House) :
    (ghost_update_stats w).ghost =
      { w.ghost with
        boredom := if (w.rooms w.ghost.current_room).hunter_count > 0 then 0
                   else w.ghost.boredom + 1 } := by
  simp only [ghost_update_stats, room_has_hunters_result, room_has_hunters_ghost]
  split_ifs <;> simp_all

theorem count_foldl_eq_filter (l : List Nat) (p : Nat → Bool) (a : Nat) :
    l.foldl (fun count i => if p i then count + 1 else count) a = a + (l.filter p).length := by
  induction l generalizing a with
  | nil => simp
  | cons x xs ih =>
    rw [List.foldl_cons, ih]
    cases hp : p x <;> simp [hp, List.filter_cons]; omega

theorem evidence_count_bits_eq_filter (m : EvidenceByte) :
    evidence_count_bits m = ((List.range 8).filter (fun i => m.testBit i)).length := by
  unfold evidence_count_bits
  have key : (fun (count i : Nat) => if (m &&& (1 <<< i)) != 0 then count + 1 else count)
      = (fun (count i : Nat) => if m.testBit i then count + 1 else count) := by
    funext count i
    rw [Nat.one_shiftLeft, and_two_pow_ne_zero]
  rw [key, count_foldl_eq_filter]
  simp

/-- The count written out bit by bit. -/
theorem evidence_count_bits_eq_sum (m : EvidenceByte) :
    evidence_count_bits m =
      (m.testBit 0).toNat + (m.testBit 1).toNat + (m.testBit 2).toNat + (m.testBit 3).toNat +
      (m.testBit 4).toNat + (m.testBit 5).toNat + (m.testBit 6).toNat + (m.testBit 7).toNat := by
  rw [evidence_count_bits_eq_filter]
  simp only [show List.range 8 = [0, 1, 2, 3, 4, 5, 6, 7] from rfl, List.filter_cons,
    List.filter_nil]
  cases m.testBit 0 <;> cases m.testBit 1 <;> cases m.testBit 2 <;> cases m.testBit 3 <;>
    cases m.testBit 4 <;> cases m.testBit 5 <;> cases m.testBit 6 <;> cases m.testBit 7 <;> rfl

theorem evidence_count_bits_kinds (m : EvidenceByte) (h : m < 128) :
    evidence_count_bits m = (all_evidence_types.filter (fun t => evidence_has m t)).length := by
  have h7 : m.testBit 7 = false := by
    apply Nat.testBit_eq_false_of_lt
    exact lt_of_lt_of_le h (by norm_num)
  rw [evidence_count_bits_eq_sum, h7]
  simp only [all_evidence_types, List.filter_cons, List.filter_nil, evidence_has_eq_testBit,
    EvidenceType.index]
  cases m.testBit 0 <;> cases m.testBit 1 <;> cases m.testBit 2 <;> cases m.testBit 3 <;>
    cases m.testBit 4 <;> cases m.testBit 5 <;> cases m.testBit 6 <;> rfl

theorem count_sum_set (b0 b1 b2 b3 b4 b5 b6 b7 : Bool) (k : Nat) (hk : k < 7) :
    ((b0 || decide (k = 0)).toNat + (b1 || decide (k = 1)).toNat + (b2 || decide (k = 2)).toNat +
      (b3 || decide (k = 3)).toNat + (b4 || decide (k = 4)).toNat + (b5 || decide (k = 5)).toNat +
      (b6 || decide (k = 6)).toNat + (b7 || decide (k = 7)).toNat) +
      ([b0, b1, b2, b3, b4, b5, b6, b7].getD k false).toNat =
    b0.toNat + b1.toNat + b2.toNat + b3.toNat + b4.toNat + b5.toNat + b6.toNat + b7.toNat + 1 := by
  interval_cases k <;> revert b0 b1 b2 b3 b4 b5 b6 b7 <;> decide

theorem evidence_count_bits_set_add (m : EvidenceByte) (t : EvidenceType) :
    evidence_count_bits (evidence_set m t) + (evidence_has m t).toNat =
      evidence_count_bits m + 1 := by
  rw [evidence_count_bits_eq_sum, evidence_count_bits_eq_sum, evidence_has_eq_testBit]
  simp only [evidence_set_testBit]
  have h := count_sum_set (m.testBit 0) (m.testBit 1) (m.testBit 2) (m.testBit 3) (m.testBit 4)
    (m.testBit 5) (m.testBit 6) (m.testBit 7) t.index t.index_lt
  have e : ([m.testBit 0, m.testBit 1, m.testBit 2, m.testBit 3, m.testBit 4, m.testBit 5,
      m.testBit 6, m.testBit 7].getD t.index false) = m.testBit t.index := by
    cases t <;> rfl
  rw [e] at h
  simpa using h

theorem evidence_count_bits_set_new (m : EvidenceByte) (t : EvidenceType)
    (h : evidence_has m t = false) :
    evidence_count_bits (evidence_set m t) = evidence_count_bits m + 1 := by
  have := evidence_count_bits_set_add m t
  rw [h] at this
  simpa using this

theorem evidence_count_bits_set_old (m : EvidenceByte) (t : EvidenceType)
    (h : evidence_has m t = true) :
    evidence_count_bits (evidence_set m t) = evidence_count_bits m := by
  have := evidence_count_bits_set_add m t
  rw [h] at this
  simpa using this

theorem evidence_set_lt_128 (m : EvidenceByte) (t : EvidenceType) (h : m < 128) :
    evidence_set m t < 128 := by
  unfold evidence_set
  have h1 : t.val < 2 ^ 7 := by cases t <;> decide
  have h2 : m ||| t.val < 2 ^ 7 := Nat.or_lt_two_pow (by simpa using h) h1
  have h2 : m ||| t.val < 128 := by simpa using h2
  have h3 : (m ||| t.val) % 256 = m ||| t.val :=
    Nat.mod_eq_of_lt (lt_trans h2 (by norm_num))
  rw [h3]; exact h2

theorem evidence_clear_lt_128 (m : EvidenceByte) (t : EvidenceType) (h : m < 128) :
    evidence_clear m t < 128 := by
  unfold evidence_clear
  have h1 : m &&& (2 ^ 32 - 1 - t.val) ≤ m := Nat.and_le_left
  exact lt_of_le_of_lt (Nat.mod_le _ _) (lt_of_le_of_lt h1 h)

theorem RoomStep.evidence_lt {r s : Room} (h : RoomStep r s) (hr : r.evidence < 128) :
    s.evidence < 128 := by
  induction h with
  | refl r => exact hr
  | trans _ _ ih1 ih2 => exact ih2 (ih1 hr)
  | remove r h => rw [(room_remove_hunter_frame r h).2.2.2.2.2]; exact hr
  | add r h => rw [(room_add_hunter_frame r h).2.2.2.2.2]; exact hr
  | set_evidence r t => exact evidence_set_lt_128 _ _ hr
  | clear_evidence r t => exact evidence_clear_lt_128 _ _ hr
  | set_ghost r b => exact hr
  | connect r q _ => exact hr
  | init r e => simp [room_init]

theorem hunter_thread_body_collected_lt (w : House) (hunter : HunterPtr) (r1 r2 r3 : Nat)
    (b : Bool) (h : w.caseFile.collected < 128) :
    (hunter_thread_body w hunter r1 r2 r3 b).caseFile.collected < 128 := by
  have van : ∀ v : House, v.caseFile.collected < 128 →
      (hunter_check_van v hunter r1).caseFile.collected < 128 := by
    intro v hv
    rcases hunter_check_van_caseFile v hunter r1 with e | e <;> rw [e] <;> exact hv
  have gat : ∀ v : House, v.caseFile.collected < 128 →
      (hunter_gather_evidence v hunter r2).caseFile.collected < 128 := by
    intro v hv
    rcases hunter_gather_evidence_caseFile v hunter r2 with e | e <;> rw [e]
    · exact hv
    · exact evidence_set_lt_128 _ _ hv
  have h2 := van (hunter_update_stats w hunter) (by rw [hunter_update_stats_caseFile]; exact h)
  simp only [hunter_thread_body]
  split_ifs
  all_goals try rw [hunter_choose_move_caseFile]
  all_goals try apply gat
  all_goals try rw [hunter_check_exit_conditions_caseFile]
  all_goals exact h2

theorem hunter_op_collected_lt (w : House) (hunter : HunterPtr) (op : HunterOp)
    (h : w.caseFile.collected < 128) : (op.run w hunter).caseFile.collected < 128 := by
  cases op with
  | move t => show (hunter_move w hunter t).2.caseFile.collected < 128
              rw [hunter_move_caseFile]; exact h
  | update_stats => show (hunter_update_stats w hunter).caseFile.collected < 128
                    rw [hunter_update_stats_caseFile]; exact h
  | check_van rnd =>
    show (hunter_check_van w hunter rnd).caseFile.collected < 128
    rcases hunter_check_van_caseFile w hunter rnd with e | e <;> rw [e] <;> exact h
  | check_exit_conditions =>
    show (hunter_check_exit_conditions w hunter).caseFile.collected < 128
    rw [hunter_check_exit_conditions_caseFile]; exact h
  | gather_evidence rnd =>
    show (hunter_gather_evidence w hunter rnd).caseFile.collected < 128
    rcases hunter_gather_evidence_caseFile w hunter rnd with e | e <;> rw [e]
    · exact h
    · exact evidence_set_lt_128 _ _ h
  | choose_move rnd b =>
    show (hunter_choose_move w hunter rnd b).caseFile.collected < 128
    rw [hunter_choose_move_caseFile]; exact h
  | thread_body r1 r2 r3 b => exact hunter_thread_body_collected_lt w hunter r1 r2 r3 b h

theorem op_collected_lt (w : House) (op : Op) (h : w.caseFile.collected < 128) :
    (op.run w).caseFile.collected < 128 := by
  cases op with
  | room_init r e => exact h
  | room_connect a b => show (room_connect w a b).caseFile.collected < 128
                        rw [room_connect_caseFile]; exact h
  | room_add_evidence r e => exact h
  | room_add_hunter r x => exact h
  | room_remove_hunter r x => exact h
  | house_init b => show (0 : Nat) < 128
                    decide
  | house_add_hunter id rnd b =>
    show (house_add_hunter w id rnd b).caseFile.collected < 128
    rw [house_add_hunter_caseFile]; exact h
  | ghost_init rt rr => exact h
  | hunter x op => exact hunter_op_collected_lt w x op h
  | ghost op => show (op.run w).caseFile.collected < 128
                rw [ghost_op_caseFile]; exact h

theorem run_ops_collected_lt (w : House) (ops : List Op) (h : w.caseFile.collected < 128) :
    (run_ops w ops).caseFile.collected < 128 := by
  induction ops generalizing w with
  | nil => exact h
  | cons op ops ih => exact ih (op.run w) (op_collected_lt w op h)

theorem ghost_val_injective (g h : GhostType) (e : g.val = h.val) : g = h := by
  cases g <;> cases h <;> first | rfl | exact absurd e (by decide)

theorem evidence_set_idem (m : EvidenceByte) (t : EvidenceType) :
    evidence_set (evidence_set m t) t = evidence_set m t := by
  apply Nat.eq_of_testBit_eq
  intro i
  simp only [evidence_set_testBit]
  cases decide (i < 8) <;> cases m.testBit i <;> cases decide (t.index = i) <;> rfl

theorem evidence_clear_idem (m : EvidenceByte) (t : EvidenceType) :
    evidence_clear (evidence_clear m t) t = evidence_clear m t := by
  apply Nat.eq_of_testBit_eq
  intro i
  simp only [evidence_clear_testBit]
  cases decide (i < 8) <;> cases m.testBit i <;> cases decide (t.index = i) <;> rfl

theorem testBit_lt_of_lt_256 (m i : Nat) (hm : m < 256) (h : m.testBit i = true) : i < 8 := by
  by_contra hge
  have h8 : 8 ≤ i := by omega
  have : m < 2 ^ i := lt_of_lt_of_le hm (by
    calc 256 = 2 ^ 8 := by norm_num
      _ ≤ 2 ^ i := Nat.pow_le_pow_right (by norm_num) h8)
  rw [Nat.testBit_eq_false_of_lt this] at h
  exact Bool.false_ne_true h

theorem evidence_clear_set (m : EvidenceByte) (t : EvidenceType) (hm : m < 256)
    (h : evidence_has m t = false) : evidence_clear (evidence_set m t) t = m := by
  rw [evidence_has_eq_testBit] at h
  apply Nat.eq_of_testBit_eq
  intro i
  simp only [evidence_clear_testBit, evidence_set_testBit]
  by_cases hi : t.index = i
  · subst hi; simp [h]
  · cases hb : m.testBit i
    · simp
    · have := testBit_lt_of_lt_256 m i hm hb
      simp [hi, this]

theorem room_remove_hunter_loop_cases (room : Room) (hunter : HunterPtr) (n i : Nat)
    (hn : i + n = room.hunter_count) (hc : room.hunter_count ≤ room.hunters.length) :
    room_remove_hunter_loop room hunter n i = room ∨
    (room_remove_hunter_loop room hunter n i).hunters.get? (room.hunter_count - 1) =
      some none := by
  induction n generalizing i with
  | zero => left; rfl
  | succ n ih =>
    simp only [room_remove_hunter_loop]
    split
    · right
      have hlen : room.hunter_count - 1 < (room_shift_down room.hunters
          (room.hunter_count - 1 - i) i).length := by
        rw [room_shift_down_length]; omega
      simp only [List.get?_eq_getElem?]
      rw [List.getElem?_set_self hlen]
    · exact ih (i + 1) (by omega)

theorem room_remove_hunter_loop_absent (room : Room) (hunter : HunterPtr) (n i : Nat)
    (h : ∀ j, i ≤ j → j < i + n → room.hunters.getD j none ≠ some hunter) :
    room_remove_hunter_loop room hunter n i = room := by
  induction n generalizing i with
  | zero => rfl
  | succ n ih =>
    simp only [room_remove_hunter_loop]
    rw [if_neg (h i (le_refl _) (by omega))]
    exact ih (i + 1) (fun j h1 h2 => h j (by omega) (by omega))

theorem room_remove_hunter_absent (room : Room) (hunter : HunterPtr)
    (h : some hunter ∉ room.occupants) : room_remove_hunter room hunter = room := by
  apply room_remove_hunter_loop_absent
  intro j _ hj e
  apply h
  simp only [Nat.zero_add] at hj
  rw [List.getD_eq_getElem?_getD] at e
  have hj2 : j < room.hunters.length := by
    by_contra hge
    rw [List.getElem?_eq_none (by omega)] at e
    simp at e
  rw [List.getElem?_eq_getElem hj2] at e
  simp only [Option.getD_some] at e
  unfold Room.occupants
  rw [List.mem_take_iff_getElem]
  exact ⟨j, by simp [hj, hj2], e⟩

theorem room_remove_hunter_vacated (room : Room) (hunter : HunterPtr)
    (hc : room.hunter_count ≤ room.hunters.length) (hin : some hunter ∈ room.occupants) :
    (room_remove_hunter room hunter).hunters.get? (room.hunter_count - 1) = some none := by
  rcases room_remove_hunter_loop_cases room hunter room.hunter_count 0 (by simp) hc with h | h
  · have := room_remove_hunter_count room hunter hc hin
    unfold room_remove_hunter at this
    rw [h] at this
    omega
  · exact h

theorem hunter_step_frame {r s : Room} (h : HunterStep r s) :
    s.ghost = r.ghost ∧ s.connections = r.connections ∧
    s.connection_count = r.connection_count ∧ s.is_exit = r.is_exit ∧
    evidence_within s.evidence r.evidence := by
  induction h with
  | refl r => exact ⟨rfl, rfl, rfl, rfl, fun _ h => h⟩
  | trans _ _ ih1 ih2 =>
    exact ⟨ih2.1.trans ih1.1, ih2.2.1.trans ih1.2.1, ih2.2.2.1.trans ih1.2.2.1,
      ih2.2.2.2.1.trans ih1.2.2.2.1, fun t h => ih1.2.2.2.2 t (ih2.2.2.2.2 t h)⟩
  | remove r x =>
    obtain ⟨-, a2, a3, a4, a5, a6⟩ := room_remove_hunter_frame r x
    exact ⟨a2, a3, a4, a5, fun t h => by rw [a6] at h; exact h⟩
  | add r x =>
    obtain ⟨-, a2, a3, a4, a5, a6⟩ := room_add_hunter_frame r x
    exact ⟨a2, a3, a4, a5, fun t h => by rw [a6] at h; exact h⟩
  | clear_evidence r t =>
    refine ⟨rfl, rfl, rfl, rfl, fun u h => ?_⟩
    by_cases hu : u = t
    · subst hu
      rw [show ({ r with evidence := evidence_clear r.evidence u } : Room).evidence =
        evidence_clear r.evidence u from rfl, evidence_has_clear_self] at h
      exact absurd h (by simp)
    · rw [← evidence_has_clear_other r.evidence hu]; exact h

theorem hunter_step_update_self (f : RoomPtr → Room) (a p : RoomPtr) (r : Room)
    (h : HunterStep (f a) r) : HunterStep (f p) (Function.update f a r p) := by
  by_cases hp : p = a
  · subst hp; simpa using h
  · rw [Function.update_noteq hp]; exact HunterStep.refl _

theorem hunter_step_of_rooms_eq {f g : RoomPtr → Room} (h : g = f) (p : RoomPtr) :
    HunterStep (f p) (g p) := by
  subst h; exact HunterStep.refl _

theorem hunter_move_hunter_step (w : House) (hunter : HunterPtr) (t p : RoomPtr) :
    HunterStep (w.rooms p) ((hunter_move w hunter t).2.rooms p) := by
  simp only [hunter_move]
  split_ifs
  all_goals try simp only [sem_wait_rooms, sem_post_rooms, setRoom_rooms, setHunter_rooms]
  all_goals first
    | exact HunterStep.refl _
    | exact HunterStep.trans (hunter_step_update_self _ _ _ _ (HunterStep.remove _ _))
        (hunter_step_update_self _ _ _ _ (HunterStep.add _ _))

theorem hunter_check_van_hunter_step (w : House) (hunter : HunterPtr) (rnd : Nat) (p : RoomPtr) :
    HunterStep (w.rooms p) ((hunter_check_van w hunter rnd).rooms p) := by
  simp only [hunter_check_van]
  split_ifs
  all_goals try simp only [sem_wait_rooms, sem_post_rooms, setRoom_rooms, setHunter_rooms]
  all_goals first
    | exact HunterStep.refl _
    | exact hunter_step_update_self _ _ _ _ (HunterStep.remove _ _)

theorem hunter_check_exit_conditions_hunter_step (w : House) (hunter : HunterPtr) (p : RoomPtr) :
    HunterStep (w.rooms p) ((hunter_check_exit_conditions w hunter).rooms p) := by
  simp only [hunter_check_exit_conditions]
  split_ifs
  all_goals try simp only [sem_wait_rooms, sem_post_rooms, setRoom_rooms, setHunter_rooms]
  all_goals first
    | exact HunterStep.refl _
    | exact hunter_step_update_self _ _ _ _ (HunterStep.remove _ _)

theorem hunter_gather_evidence_hunter_step (w : House) (hunter : HunterPtr) (rnd : Nat)
    (p : RoomPtr) : HunterStep (w.rooms p) ((hunter_gather_evidence w hunter rnd).rooms p) := by
  simp only [hunter_gather_evidence]
  split_ifs
  all_goals try simp only [sem_wait_rooms, sem_post_rooms, setRoom_rooms, setHunter_rooms]
  all_goals first
    | exact HunterStep.refl _
    | exact hunter_step_update_self _ _ _ _ (HunterStep.clear_evidence _ _)

theorem hunter_choose_move_attempt_hunter_step (w : House) (hunter : HunterPtr) (o t : RoomPtr)
    (b : Bool) (p : RoomPtr) :
    HunterStep (w.rooms p) ((hunter_choose_move_attempt w hunter o t b).rooms p) := by
  simp only [hunter_choose_move_attempt]
  split_ifs
  all_goals try simp only [setHunter_rooms]
  all_goals exact hunter_move_hunter_step _ _ _ _

theorem hunter_choose_move_hunter_step (w : House) (hunter : HunterPtr) (rnd : Nat) (b : Bool)
    (p : RoomPtr) : HunterStep (w.rooms p) ((hunter_choose_move w hunter rnd b).rooms p) := by
  simp only [hunter_choose_move]
  split_ifs
  · split
    · exact HunterStep.refl _
    · exact hunter_choose_move_attempt_hunter_step (w.setHunter hunter _) _ _ _ _ _
  · exact HunterStep.refl _
  · split
    · exact HunterStep.refl _
    · exact hunter_choose_move_attempt_hunter_step _ _ _ _ _ _

theorem hunter_thread_body_hunter_step (w : House) (hunter : HunterPtr) (r1 r2 r3 : Nat) (b : Bool)
    (p : RoomPtr) :
    HunterStep (w.rooms p) ((hunter_thread_body w hunter r1 r2 r3 b).rooms p) := by
  have h1 : HunterStep (w.rooms p) ((hunter_update_stats w hunter).rooms p) :=
    hunter_step_of_rooms_eq (hunter_update_stats_rooms w hunter) p
  have h2 := hunter_check_van_hunter_step (hunter_update_stats w hunter) hunter r1 p
  simp only [hunter_thread_body]
  split_ifs
  all_goals first
    | exact h1.trans h2
    | exact (h1.trans h2).trans (hunter_check_exit_conditions_hunter_step _ _ _)
    | exact (h1.trans h2).trans
        ((hunter_gather_evidence_hunter_step _ _ _ _).trans
          (hunter_choose_move_hunter_step _ _ _ _ _))
    | exact (h1.trans h2).trans ((hunter_check_exit_conditions_hunter_step _ _ _).trans
        ((hunter_gather_evidence_hunter_step _ _ _ _).trans
          (hunter_choose_move_hunter_step _ _ _ _ _)))

theorem hunter_op_hunter_step (w : House) (hunter : HunterPtr) (op : HunterOp) (p : RoomPtr) :
    HunterStep (w.rooms p) ((op.run w hunter).rooms p) := by
  cases op with
  | move t => exact hunter_move_hunter_step _ _ _ _
  | update_stats => exact hunter_step_of_rooms_eq (hunter_update_stats_rooms w hunter) p
  | check_van rnd => exact hunter_check_van_hunter_step _ _ _ _
  | check_exit_conditions => exact hunter_check_exit_conditions_hunter_step _ _ _
  | gather_evidence rnd => exact hunter_gather_evidence_hunter_step _ _ _ _
  | choose_move rnd b => exact hunter_choose_move_hunter_step _ _ _ _ _
  | thread_body r1 r2 r3 b => exact hunter_thread_body_hunter_step _ _ _ _ _ _ _

theorem hunter_move_keeps_ghost (w : House) (hunter : HunterPtr) (t : RoomPtr) :
    (hunter_move w hunter t).2.ghost = w.ghost := by
  simp only [hunter_move]
  split_ifs <;> simp

theorem hunter_update_stats_keeps_ghost (w : House) (hunter : HunterPtr) :
    (hunter_update_stats w hunter).ghost = w.ghost := by
  simp only [hunter_update_stats]
  split_ifs <;> simp

theorem hunter_check_van_keeps_ghost (w : House) (hunter : HunterPtr) (rnd : Nat) :
    (hunter_check_van w hunter rnd).ghost = w.ghost := by
  simp only [hunter_check_van]
  split_ifs <;> simp

theorem hunter_check_exit_conditions_keeps_ghost (w : House) (hunter : HunterPtr) :
    (hunter_check_exit_conditions w hunter).ghost = w.ghost := by
  simp only [hunter_check_exit_conditions]
  split_ifs <;> simp

theorem hunter_gather_evidence_keeps_ghost (w : House) (hunter : HunterPtr) (rnd : Nat) :
    (hunter_gather_evidence w hunter rnd).ghost = w.ghost := by
  simp only [hunter_gather_evidence]
  split_ifs <;> simp

theorem hunter_choose_move_attempt_keeps_ghost (w : House) (hunter : HunterPtr)
    (o t : RoomPtr) (b : Bool) : (hunter_choose_move_attempt w hunter o t b).ghost = w.ghost := by
  simp only [hunter_choose_move_attempt]
  split_ifs <;> simp [hunter_move_keeps_ghost]

theorem hunter_choose_move_keeps_ghost (w : House) (hunter : HunterPtr) (rnd : Nat)
    (b : Bool) : (hunter_choose_move w hunter rnd b).ghost = w.ghost := by
  simp only [hunter_choose_move]
  split_ifs
  · split <;> simp [hunter_choose_move_attempt_keeps_ghost]
  · rfl
  · split <;> simp [hunter_choose_move_attempt_keeps_ghost]

theorem hunter_thread_body_keeps_ghost (w : House) (hunter : HunterPtr) (r1 r2 r3 : Nat)
    (b : Bool) : (hunter_thread_body w hunter r1 r2 r3 b).ghost = w.ghost := by
  simp only [hunter_thread_body]
  split_ifs <;>
    simp [hunter_choose_move_keeps_ghost, hunter_gather_evidence_keeps_ghost,
      hunter_check_exit_conditions_keeps_ghost, hunter_check_van_keeps_ghost,
      hunter_update_stats_keeps_ghost]

theorem hunter_op_keeps_ghost (w : House) (hunter : HunterPtr) (op : HunterOp) :
    (op.run w hunter).ghost = w.ghost := by
  cases op with
  | move t => exact hunter_move_keeps_ghost _ _ _
  | update_stats => exact hunter_update_stats_keeps_ghost _ _
  | check_van rnd => exact hunter_check_van_keeps_ghost _ _ _
  | check_exit_conditions => exact hunter_check_exit_conditions_keeps_ghost _ _
  | gather_evidence rnd => exact hunter_gather_evidence_keeps_ghost _ _ _
  | choose_move rnd b => exact hunter_choose_move_keeps_ghost _ _ _ _
  | thread_body r1 r2 r3 b => exact hunter_thread_body_keeps_ghost _ _ _ _ _ _

theorem hunter_check_van_ledger (w : House) (hunter : HunterPtr) (rnd : Nat) :
    (hunter_check_van w hunter rnd).caseFile = w.caseFile ∨
    ((hunter_check_van w hunter rnd).caseFile = { w.caseFile with solved := true } ∧
      evidence_is_valid_ghost w.caseFile.collected = true) := by
  simp only [hunter_check_van]
  split_ifs <;> simp_all

theorem hunter_gather_evidence_ledger (w : House) (hunter : HunterPtr) (rnd : Nat) :
    (hunter_gather_evidence w hunter rnd).caseFile = w.caseFile ∨
    ((hunter_gather_evidence w hunter rnd).caseFile =
      { w.caseFile with
        collected := evidence_set w.caseFile.collected (w.hunters hunter).device } ∧
      evidence_has (w.rooms (w.hunters hunter).current_room).evidence
        (w.hunters hunter).device = true) := by
  simp only [hunter_gather_evidence]
  split_ifs <;> simp_all

theorem evidence_set_of_has (m : EvidenceByte) (t : EvidenceType) (hm : m < 256)
    (h : evidence_has m t = true) : evidence_set m t = m := by
  rw [evidence_has_eq_testBit] at h
  apply Nat.eq_of_testBit_eq
  intro i
  rw [evidence_set_testBit]
  by_cases hi : t.index = i
  · subst hi; simp [h, t.index_lt.trans (by norm_num : 7 < 8)]
  · cases hb : m.testBit i
    · simp [hi]
    · simp [testBit_lt_of_lt_256 m i hm hb]

theorem evidence_within_iff (m n : EvidenceByte) :
    evidence_within m n ↔
      all_evidence_types.all (fun t => !evidence_has m t || evidence_has n t) = true := by
  constructor
  · intro h
    rw [List.all_eq_true]
    intro t _
    cases hm : evidence_has m t
    · rfl
    · simp [h t hm]
  · intro h t ht
    rw [List.all_eq_true] at h
    have := h t (by cases t <;> decide)
    simpa [ht] using this

theorem ghost_val_within_eq (g ty : GhostType) (h : evidence_within g.val ty.val) : g = ty := by
  rw [evidence_within_iff] at h
  cases g <;> cases ty <;> first | rfl | exact absurd h (by decide)

theorem evidence_within_set {m n : EvidenceByte} {t : EvidenceType}
    (hm : evidence_within m n) (ht : evidence_has n t = true) :
    evidence_within (evidence_set m t) n := by
  intro u hu
  by_cases hut : u = t
  · subst hut; exact ht
  · rw [evidence_has_set_other m hut] at hu
    exact hm u hu

/-- An operation that changes rooms as a hunter does and leaves the ghost and the
case file alone keeps the evidence on the profile. -/
theorem on_profile_hunter_frame {w v : House}
    (hr : ∀ p, HunterStep (w.rooms p) (v.rooms p)) (hg : v.ghost = w.ghost)
    (hc : v.caseFile = w.caseFile) (h : OnProfile w) : OnProfile v := by
  obtain ⟨h1, h2, h3⟩ := h
  refine ⟨fun p t ht => ?_, ?_, ?_⟩
  · rw [hg]; exact h1 p t ((hunter_step_frame (hr p)).2.2.2.2 t ht)
  · rw [hg, hc]; exact h2
  · rw [hg, hc]; exact h3

theorem on_profile_check_van (w : House) (hunter : HunterPtr) (rnd : Nat) (h : OnProfile w) :
    OnProfile (hunter_check_van w hunter rnd) := by
  have hr := fun p => hunter_check_van_hunter_step w hunter rnd p
  have hg := hunter_check_van_keeps_ghost w hunter rnd
  rcases hunter_check_van_ledger w hunter rnd with hc | ⟨hc, hv⟩
  · exact on_profile_hunter_frame hr hg hc h
  · obtain ⟨h1, h2, -⟩ := h
    refine ⟨fun p t ht => ?_, ?_, ?_⟩
    · rw [hg]; exact h1 p t ((hunter_step_frame (hr p)).2.2.2.2 t ht)
    · rw [hg, hc]; exact h2
    · intro _
      rw [hg, hc]
      obtain ⟨g, hgv⟩ := (evidence_is_valid_ghost_iff _).mp hv
      have : g = w.ghost.type := ghost_val_within_eq g _ (by rw [hgv]; exact h2)
      rw [← this]; exact hgv.symm

theorem on_profile_gather (w : House) (hunter : HunterPtr) (rnd : Nat) (h : OnProfile w) :
    OnProfile (hunter_gather_evidence w hunter rnd) := by
  have hr := fun p => hunter_gather_evidence_hunter_step w hunter rnd p
  have hg := hunter_gather_evidence_keeps_ghost w hunter rnd
  rcases hunter_gather_evidence_ledger w hunter rnd with hc | ⟨hc, hv⟩
  · exact on_profile_hunter_frame hr hg hc h
  · obtain ⟨h1, h2, h3⟩ := h
    have hdev := h1 _ _ hv
    refine ⟨fun p t ht => ?_, ?_, ?_⟩
    · rw [hg]; exact h1 p t ((hunter_step_frame (hr p)).2.2.2.2 t ht)
    · rw [hg, hc]; exact evidence_within_set h2 hdev
    · intro hs
      rw [hg, hc]
      rw [hc] at hs
      have e := h3 hs
      show evidence_set w.caseFile.collected (w.hunters hunter).device = w.ghost.type.val
      rw [e]
      have hlt : w.ghost.type.val < 128 := by cases w.ghost.type <;> decide
      exact evidence_set_of_has _ _ (lt_trans hlt (by norm_num)) hdev

theorem on_profile_thread_body (w : House) (hunter : HunterPtr) (r1 r2 r3 : Nat) (b : Bool)
    (h : OnProfile w) : OnProfile (hunter_thread_body w hunter r1 r2 r3 b) := by
  have s1 : OnProfile (hunter_update_stats w hunter) :=
    on_profile_hunter_frame
      (fun p => hunter_step_of_rooms_eq (hunter_update_stats_rooms w hunter) p)
      (hunter_update_stats_keeps_ghost w hunter) (hunter_update_stats_caseFile w hunter) h
  have s2 := on_profile_check_van _ hunter r1 s1
  have s3 : ∀ v : House, OnProfile v → OnProfile (hunter_check_exit_conditions v hunter) :=
    fun v hv => on_profile_hunter_frame (hunter_check_exit_conditions_hunter_step v hunter)
      (hunter_check_exit_conditions_keeps_ghost v hunter)
      (hunter_check_exit_conditions_caseFile v hunter) hv
  have s4 : ∀ v : House, OnProfile v →
      OnProfile (hunter_choose_move (hunter_gather_evidence v hunter r2) hunter r3 b) :=
    fun v hv => on_profile_hunter_frame (hunter_choose_move_hunter_step _ hunter r3 b)
      (hunter_choose_move_keeps_ghost _ hunter r3 b) (hunter_choose_move_caseFile _ hunter r3 b)
      (on_profile_gather v hunter r2 hv)
  simp only [hunter_thread_body]
  split_ifs
  all_goals first
    | exact s2
    | exact s3 _ s2
    | exact s4 _ s2
    | exact s4 _ (s3 _ s2)

theorem on_profile_hunter_op (w : House) (hunter : HunterPtr) (op : HunterOp)
    (h : OnProfile w) : OnProfile (op.run w hunter) := by
  cases op with
  | move t =>
    exact on_profile_hunter_frame (hunter_move_hunter_step w hunter t)
      (hunter_move_keeps_ghost w hunter t) (hunter_move_caseFile w hunter t) h
  | update_stats =>
    exact on_profile_hunter_frame
      (fun p => hunter_step_of_rooms_eq (hunter_update_stats_rooms w hunter) p)
      (hunter_update_stats_keeps_ghost w hunter) (hunter_update_stats_caseFile w hunter) h
  | check_van rnd => exact on_profile_check_van w hunter rnd h
  | check_exit_conditions =>
    exact on_profile_hunter_frame (hunter_check_exit_conditions_hunter_step w hunter)
      (hunter_check_exit_conditions_keeps_ghost w hunter)
      (hunter_check_exit_conditions_caseFile w hunter) h
  | gather_evidence rnd => exact on_profile_gather w hunter rnd h
  | choose_move rnd b =>
    exact on_profile_hunter_frame (hunter_choose_move_hunter_step w hunter rnd b)
      (hunter_choose_move_keeps_ghost w hunter rnd b) (hunter_choose_move_caseFile w hunter rnd b)
      h
  | thread_body r1 r2 r3 b => exact on_profile_thread_body w hunter r1 r2 r3 b h

theorem ghost_check_exit_rooms (w : House) :
    ((ghost_check_exit w).2.rooms = w.rooms ∧ (ghost_check_exit w).2.ghost = w.ghost ∧
      (ghost_check_exit w).1 = false) ∨
    ((ghost_check_exit w).2.rooms =
      Function.update w.rooms w.ghost.current_room
        { w.rooms w.ghost.current_room with ghost := false } ∧
      (ghost_check_exit w).2.ghost = { w.ghost with has_exited := true } ∧
      (ghost_check_exit w).1 = true) := by
  simp only [ghost_check_exit]
  split_ifs
  · right; exact ⟨rfl, rfl, rfl⟩
  · left; exact ⟨rfl, rfl, rfl⟩

theorem ghost_leave_evidence_rooms (w : House) (rnd : Nat) :
    (ghost_leave_evidence w rnd).rooms = w.rooms ∨
    ∃ e : EvidenceType, evidence_has w.ghost.type.val e = true ∧
      (ghost_leave_evidence w rnd).rooms =
        Function.update w.rooms w.ghost.current_room
          { w.rooms w.ghost.current_room with
            evidence := evidence_set (w.rooms w.ghost.current_room).evidence e } := by
  simp only [ghost_leave_evidence]
  split_ifs
  · cases he : (ghost_evidence_candidates w.ghost.type).get? rnd with
    | none => left; rfl
    | some e =>
      right
      exact ⟨e, (ghost_evidence_candidates_mem _ _).mp (List.get?_mem he), rfl⟩
  · left; rfl

theorem ghost_move_stays (w : House) (rnd : Nat)
    (h : (w.rooms w.ghost.current_room).hunter_count > 0 ∨
      (w.rooms w.ghost.current_room).connection_count = 0 ∨
      (w.rooms w.ghost.current_room).connections.getD rnd none = none) :
    (ghost_move w rnd).rooms = w.rooms ∧ (ghost_move w rnd).ghost = w.ghost := by
  simp only [ghost_move, room_has_hunters_result, room_has_hunters_rooms,
    room_has_hunters_ghost]
  by_cases h0 : (w.rooms w.ghost.current_room).hunter_count > 0
  · simp [h0]
  · by_cases hc : (w.rooms w.ghost.current_room).connection_count = 0
    · simp [h0, hc]
    · rcases h with h | h | h
      · exact absurd h h0
      · exact absurd h hc
      · simp only [h0, hc, h, decide_False, Bool.false_eq_true, if_false]
        exact ⟨rfl, rfl⟩

theorem ghost_move_cases (w : House) (rnd : Nat) :
    ((ghost_move w rnd).rooms = w.rooms ∧ (ghost_move w rnd).ghost = w.ghost) ∨
    ∃ t : RoomPtr,
      (ghost_move w rnd).ghost = { w.ghost with current_room := t } ∧
      (ghost_move w rnd).rooms =
        Function.update
          (Function.update w.rooms w.ghost.current_room
            { w.rooms w.ghost.current_room with ghost := false })
          t { (Function.update w.rooms w.ghost.current_room
            { w.rooms w.ghost.current_room with ghost := false }) t with ghost := true } := by
  by_cases h0 : (w.rooms w.ghost.current_room).hunter_count = 0
  · by_cases hc : (w.rooms w.ghost.current_room).connection_count = 0
    · left; exact ghost_move_stays w rnd (Or.inr (Or.inl hc))
    · cases ht : (w.rooms w.ghost.current_room).connections.get? rnd with
      | none =>
        left
        apply ghost_move_stays w rnd (Or.inr (Or.inr _))
        rw [List.getD_eq_getElem?_getD, ← List.get?_eq_getElem?, ht]; rfl
      | some x =>
        cases x with
        | none =>
          left
          apply ghost_move_stays w rnd (Or.inr (Or.inr _))
          rw [List.getD_eq_getElem?_getD, ← List.get?_eq_getElem?, ht]; rfl
        | some t => right; exact ⟨t, ghost_move_of_target w rnd t h0 hc ht⟩
  · left
    exact ghost_move_stays w rnd (Or.inl (by omega))

/-- An operation that leaves the evidence masks, the ghost type and the case file
alone keeps the evidence on the profile. -/
theorem on_profile_of_evidence_eq {w v : House}
    (hr : ∀ p, (v.rooms p).evidence = (w.rooms p).evidence)
    (ht : v.ghost.type = w.ghost.type) (hc : v.caseFile = w.caseFile) (h : OnProfile w) :
    OnProfile v := by
  obtain ⟨h1, h2, h3⟩ := h
  refine ⟨fun p => ?_, ?_, ?_⟩
  · rw [hr, ht]; exact h1 p
  · rw [ht, hc]; exact h2
  · rw [ht, hc]; exact h3

theorem on_profile_ghost_update_stats (w : House) (h : OnProfile w) :
    OnProfile (ghost_update_stats w) :=
  on_profile_of_evidence_eq (fun p => by rw [ghost_update_stats_rooms])
    (by rw [ghost_update_stats_ghost]) (ghost_update_stats_caseFile w) h

theorem on_profile_ghost_check_exit (w : House) (h : OnProfile w) :
    OnProfile (ghost_check_exit w).2 := by
  rcases ghost_check_exit_rooms w with ⟨e1, e2, -⟩ | ⟨e1, e2, -⟩
  · exact on_profile_of_evidence_eq (fun p => by rw [e1]) (by rw [e2])
      (ghost_check_exit_caseFile w) h
  · refine on_profile_of_evidence_eq (fun p => ?_) (by rw [e2]) (ghost_check_exit_caseFile w) h
    rw [e1]
    exact (set_ghost_frame w.rooms w.ghost.current_room false p).2.2

theorem on_profile_ghost_leave_evidence (w : House) (rnd : Nat) (h : OnProfile w) :
    OnProfile (ghost_leave_evidence w rnd) := by
  rcases ghost_leave_evidence_rooms w rnd with e1 | ⟨e, he, e1⟩
  · exact on_profile_of_evidence_eq (fun p => by rw [e1])
      (by rw [ghost_leave_evidence_ghost]) (ghost_leave_evidence_caseFile w rnd) h
  · obtain ⟨h1, h2, h3⟩ := h
    refine ⟨fun p => ?_, ?_, ?_⟩
    · rw [e1, ghost_leave_evidence_ghost]
      by_cases hp : p = w.ghost.current_room
      · subst hp
        simp only [Function.update_same]
        exact evidence_within_set (h1 _) he
      · rw [Function.update_noteq hp]; exact h1 p
    · rw [ghost_leave_evidence_ghost, ghost_leave_evidence_caseFile]; exact h2
    · rw [ghost_leave_evidence_ghost, ghost_leave_evidence_caseFile]; exact h3

theorem on_profile_ghost_move (w : House) (rnd : Nat) (h : OnProfile w) :
    OnProfile (ghost_move w rnd) := by
  rcases ghost_move_cases w rnd with ⟨e1, e2⟩ | ⟨t, e2, e1⟩
  · exact on_profile_of_evidence_eq (fun p => by rw [e1]) (by rw [e2])
      (ghost_move_caseFile w rnd) h
  · refine on_profile_of_evidence_eq (fun p => ?_) (by rw [e2]) (ghost_move_caseFile w rnd) h
    rw [e1]
    exact (set_ghost_frame _ t true p).2.2.trans
      (set_ghost_frame w.rooms w.ghost.current_room false p).2.2

theorem on_profile_ghost_take_action (w : House) (action rnd : Nat) (h : OnProfile w) :
    OnProfile (ghost_take_action w action rnd) := by
  simp only [ghost_take_action]
  split_ifs
  · exact h
  · exact on_profile_ghost_leave_evidence w rnd h
  · exact on_profile_ghost_move w rnd h

theorem on_profile_ghost_thread_body (w : House) (action rnd : Nat) (h : OnProfile w) :
    OnProfile (ghost_thread_body w action rnd) := by
  have s2 := on_profile_ghost_check_exit _ (on_profile_ghost_update_stats w h)
  simp only [ghost_thread_body]
  split_ifs
  · exact on_profile_ghost_take_action _ action rnd s2
  · exact s2

theorem on_profile_ghost_op (w : House) (op : GhostOp) (h : OnProfile w) :
    OnProfile (op.run w) := by
  cases op with
  | update_stats => exact on_profile_ghost_update_stats w h
  | check_exit => exact on_profile_ghost_check_exit w h
  | leave_evidence rnd => exact on_profile_ghost_leave_evidence w rnd h
  | move rnd => exact on_profile_ghost_move w rnd h
  | take_action action rnd => exact on_profile_ghost_take_action w action rnd h
  | thread_body action rnd => exact on_profile_ghost_thread_body w action rnd h

/-- The operations of the hunter threads and of the ghost thread. -/
theorem on_profile_run_ops (w : House) (ops : List Op)
    (hops : ∀ op ∈ ops, op.by_actor = true)
    (h : OnProfile w) : OnProfile (run_ops w ops) := by
  induction ops generalizing w with
  | nil => exact h
  | cons op ops ih =>
    apply ih (op.run w) (fun o ho => hops o (List.mem_cons_of_mem _ ho))
    have hop := hops op (List.mem_cons_self _ _)
    cases op with
    | hunter x o => exact on_profile_hunter_op w x o h
    | ghost o => exact on_profile_ghost_op w o h
    | _ => exact absurd hop (by simp [Op.by_actor])

theorem ghost_op_keeps_type (w : House) (op : GhostOp) :
    (op.run w).ghost.type = w.ghost.type := by
  have hce : ∀ v : House, (ghost_check_exit v).2.ghost.type = v.ghost.type := by
    intro v
    rcases ghost_check_exit_rooms v with ⟨-, e, -⟩ | ⟨-, e, -⟩ <;> rw [e]
  have hta : ∀ (v : House) (a r : Nat), (ghost_take_action v a r).ghost.type = v.ghost.type := by
    intro v a r
    simp only [ghost_take_action]
    split_ifs
    · rfl
    · rw [ghost_leave_evidence_ghost]
    · exact (ghost_move_ghost v r).2.1
  have hus : ∀ v : House, (ghost_update_stats v).ghost.type = v.ghost.type := by
    intro v; rw [ghost_update_stats_ghost]
  cases op with
  | update_stats => exact hus w
  | check_exit => exact hce w
  | leave_evidence rnd => exact congrArg Ghost.type (ghost_leave_evidence_ghost w rnd)
  | move rnd => exact (ghost_move_ghost w rnd).2.1
  | take_action a r => exact hta w a r
  | thread_body a r =>
    show (ghost_thread_body w a r).ghost.type = w.ghost.type
    simp only [ghost_thread_body]
    split_ifs
    · rw [hta, hce, hus]
    · rw [hce, hus]

theorem run_ops_keeps_type (w : House) (ops : List Op)
    (hops : ∀ op ∈ ops, op.by_actor = true) :
    (run_ops w ops).ghost.type = w.ghost.type := by
  induction ops generalizing w with
  | nil => rfl
  | cons op ops ih =>
    have e := ih (op.run w) (fun o ho => hops o (List.mem_cons_of_mem _ ho))
    have hop := hops op (List.mem_cons_self _ _)
    have e2 : (op.run w).ghost.type = w.ghost.type := by
      cases op with
      | hunter x o => exact congrArg Ghost.type (hunter_op_keeps_ghost w x o)
      | ghost o => exact ghost_op_keeps_type w o
      | _ => exact absurd hop (by simp [Op.by_actor])
    exact e.trans e2

theorem valid_ghost_three_unique (m : EvidenceByte) (h : evidence_is_valid_ghost m = true) :
    evidence_has_three_unique m = true := by
  obtain ⟨g, hg⟩ := (evidence_is_valid_ghost_iff m).mp h
  rw [evidence_has_three_unique_iff, ← hg]
  have : evidence_count_bits g.val = 3 := by cases g <;> rfl
  omega

theorem ghost_ref_of_eq {w v : House} (hr : ∀ p, (v.rooms p).ghost = (w.rooms p).ghost)
    (h1 : v.ghost.has_exited = w.ghost.has_exited)
    (h2 : v.ghost.current_room = w.ghost.current_room) (h : GhostRef w) : GhostRef v := by
  intro p
  rw [hr, h1, h2]; exact h p

theorem ghost_ref_hunter_op (w : House) (hunter : HunterPtr) (op : HunterOp) (h : GhostRef w) :
    GhostRef (op.run w hunter) :=
  ghost_ref_of_eq (fun p => (hunter_step_frame (hunter_op_hunter_step w hunter op p)).1)
    (by rw [hunter_op_keeps_ghost]) (by rw [hunter_op_keeps_ghost]) h

theorem ghost_ref_init (w : House) (rnd_type rnd_room : Nat)
    (h : ∀ p, (w.rooms p).ghost = false) :
    GhostRef (ghost_init w rnd_type rnd_room) ∧
    (ghost_init w rnd_type rnd_room).ghost.has_exited = false := by
  refine ⟨fun p => ?_, rfl⟩
  simp only [ghost_init, setRoom_rooms]
  by_cases hp : p = rnd_room
  · subst hp; simp
  · simp [Function.update, hp, h p]

theorem ghost_ref_update_stats (w : House) (h : GhostRef w) : GhostRef (ghost_update_stats w) :=
  ghost_ref_of_eq (fun p => by rw [ghost_update_stats_rooms]) (by rw [ghost_update_stats_ghost])
    (by rw [ghost_update_stats_ghost]) h

theorem ghost_ref_check_exit (w : House) (h : GhostRef w) (hx : w.ghost.has_exited = false) :
    GhostRef (ghost_check_exit w).2 := by
  rcases ghost_check_exit_rooms w with ⟨e1, e2, -⟩ | ⟨e1, e2, -⟩
  · exact ghost_ref_of_eq (fun p => by rw [e1]) (by rw [e2]) (by rw [e2]) h
  · intro p
    rw [e1, e2]
    by_cases hp : p = w.ghost.current_room
    · subst hp; simp
    · have := h p
      rw [hx] at this
      simp [Function.update, hp, this]

theorem ghost_ref_leave_evidence (w : House) (rnd : Nat) (h : GhostRef w) :
    GhostRef (ghost_leave_evidence w rnd) := by
  rcases ghost_leave_evidence_rooms w rnd with e1 | ⟨e, -, e1⟩
  · exact ghost_ref_of_eq (fun p => by rw [e1]) (by rw [ghost_leave_evidence_ghost])
      (by rw [ghost_leave_evidence_ghost]) h
  · refine ghost_ref_of_eq (fun p => ?_) (by rw [ghost_leave_evidence_ghost])
      (by rw [ghost_leave_evidence_ghost]) h
    rw [e1]
    by_cases hp : p = w.ghost.current_room
    · subst hp; simp
    · simp [Function.update, hp]

theorem ghost_ref_move (w : House) (rnd : Nat) (h : GhostRef w)
    (hx : w.ghost.has_exited = false) : GhostRef (ghost_move w rnd) := by
  rcases ghost_move_cases w rnd with ⟨e1, e2⟩ | ⟨t, e2, e1⟩
  · exact ghost_ref_of_eq (fun p => by rw [e1]) (by rw [e2]) (by rw [e2]) h
  · intro p
    rw [e1, e2]
    have hp := h p
    rw [hx] at hp
    by_cases h1 : p = t
    · subst h1; simp [hx]
    · by_cases h2 : p = w.ghost.current_room
      · subst h2; simp [Function.update, h1, hx]
      · simp [Function.update, h1, h2, hx] at hp ⊢
        exact hp

theorem ghost_ref_take_action (w : House) (action rnd : Nat) (h : GhostRef w)
    (hx : w.ghost.has_exited = false) : GhostRef (ghost_take_action w action rnd) := by
  simp only [ghost_take_action]
  split_ifs
  · exact h
  · exact ghost_ref_leave_evidence w rnd h
  · exact ghost_ref_move w rnd h hx

theorem ghost_ref_thread_body (w : House) (action rnd : Nat) (h : GhostRef w)
    (hx : w.ghost.has_exited = false) : GhostRef (ghost_thread_body w action rnd) := by
  have h1 := ghost_ref_update_stats w h
  have hx1 : (ghost_update_stats w).ghost.has_exited = false := by
    rw [ghost_update_stats_has_exited]; exact hx
  have h2 := ghost_ref_check_exit _ h1 hx1
  simp only [ghost_thread_body]
  split_ifs with hr
  · apply ghost_ref_take_action _ _ _ h2
    rcases ghost_check_exit_rooms (ghost_update_stats w) with ⟨-, e, -⟩ | ⟨-, -, e⟩
    · rw [e]; exact hx1
    · rw [e] at hr; simp at hr
  · exact h2

theorem ghost_ref_ghost_op (w : House) (op : GhostOp) (h : GhostRef w)
    (hx : w.ghost.has_exited = false) : GhostRef (op.run w) := by
  cases op with
  | update_stats => exact ghost_ref_update_stats w h
  | check_exit => exact ghost_ref_check_exit w h hx
  | leave_evidence rnd => exact ghost_ref_leave_evidence w rnd h
  | move rnd => exact ghost_ref_move w rnd h hx
  | take_action action rnd => exact ghost_ref_take_action w action rnd h hx
  | thread_body action rnd => exact ghost_ref_thread_body w action rnd h hx

theorem ghost_ref_hunter_ops (w : House) (ops : List Op)
    (hops : ∀ op ∈ ops, op.by_hunter = true) (h : GhostRef w) :
    GhostRef (run_ops w ops) ∧ (run_ops w ops).ghost = w.ghost := by
  induction ops generalizing w with
  | nil => exact ⟨h, rfl⟩
  | cons op ops ih =>
    have hop := hops op (List.mem_cons_self _ _)
    cases op with
    | hunter x o =>
      have := ih ((Op.hunter x o).run w) (fun o ho => hops o (List.mem_cons_of_mem _ ho))
        (ghost_ref_hunter_op w x o h)
      exact ⟨this.1, this.2.trans (hunter_op_keeps_ghost w x o)⟩
    | _ => exact absurd hop (by simp [Op.by_hunter])

theorem ghost_ref_iterations (w : House) (draws : Nat → Nat × Nat) (others : Nat → List Op)
    (hothers : ∀ i, ∀ op ∈ others i, op.by_hunter = true) (h : GhostRef w) (n : Nat) :
    GhostRef (ghost_thread_iterations draws others n w) := by
  induction n with
  | zero => exact h
  | succ n ih =>
    have hs := ghost_ref_hunter_ops _ (others n) (hothers n) ih
    rw [ghost_thread_iterations_succ]
    unfold ghost_iteration_start
    split_ifs with hx
    · exact hs.1
    · exact ghost_ref_thread_body _ _ _ hs.1 (by simpa using hx)

/-- A call of `hunter_move` with the hunter's own room as target does not
return.  Started with the semaphore of that room at 1, the statements of the
thread take the semaphore in the first `sem_wait` and stop at the second: after
two statements and after any number of further ones the thread stands at
`wait_second`, and the house has changed by the first lock event only. -/
theorem hunter_move_self_target_blocks (s : Shared) (hunter : HunterPtr)
    (target_room frm : RoomPtr) (n : Nat)
    (ht : (s.house.hunters hunter).current_room = target_room)
    (hs : s.sem target_room = 1) :
    MoveThread.run_alone (n + 2) s
      { hunter := hunter, target_room := target_room, from_room := frm, pc := .start } =
    ({ house := sem_wait s.house (.room target_room)
       sem := Function.update s.sem target_room 0 },
     { hunter := hunter, target_room := target_room, from_room := target_room,
       pc := .wait_second }) := by
  have e1 : MoveThread.step s
      { hunter := hunter, target_room := target_room, from_room := frm, pc := .start } =
      some (s, { hunter := hunter, target_room := target_room, from_room := target_room,
                 pc := .wait_first }) := by
    simp [MoveThread.step, ht]
  have e2 : MoveThread.step s
      { hunter := hunter, target_room := target_room, from_room := target_room,
        pc := .wait_first } =
      some ({ house := sem_wait s.house (.room target_room)
              sem := Function.update s.sem target_room 0 },
            { hunter := hunter, target_room := target_room, from_room := target_room,
              pc := .wait_second }) := by
    simp [MoveThread.step, MoveThread.first, Shared.wait, hs]
  have e3 : MoveThread.step
      { house := sem_wait s.house (.room target_room)
        sem := Function.update s.sem target_room 0 }
      { hunter := hunter, target_room := target_room, from_room := target_room,
        pc := .wait_second } = none := by
    simp [MoveThread.step, MoveThread.second, Shared.wait, Function.update]
  rw [MoveThread.run_alone, e1]
  simp only
  rw [MoveThread.run_alone, e2]
  cases n with
  | zero => rfl
  | succ k => simp only [MoveThread.run_alone, e3]

/-- A call of `ghost_move` that draws the ghost's own room as target does not
return.  The ghost's room has no hunter, has connections, and the slot drawn
holds the room itself; started with the semaphore of the room at 1, the thread
passes `room_has_hunters`, takes the semaphore in the first `sem_wait` and stops
at the second: after six statements and after any number of further ones it
stands at `wait_second`, before `from_room->ghost = NULL`, and no room and no
field of the ghost has changed. -/
theorem ghost_move_self_target_blocks (s : Shared) (rnd : Nat) (frm tgt : RoomPtr) (n : Nat)
    (hh : (s.house.rooms s.house.ghost.current_room).hunter_count = 0)
    (hc : (s.house.rooms s.house.ghost.current_room).connection_count ≠ 0)
    (ht : (s.house.rooms s.house.ghost.current_room).connections.getD rnd none =
      some s.house.ghost.current_room)
    (hs : s.sem s.house.ghost.current_room = 1) :
    (GhostThread.run_alone (n + 6) s
      { rnd := rnd, from_room := frm, target_room := tgt, pc := .has_hunters_wait }).2 =
      { rnd := rnd, from_room := s.house.ghost.current_room,
        target_room := s.house.ghost.current_room, pc := .wait_second } ∧
    (GhostThread.run_alone (n + 6) s
      { rnd := rnd, from_room := frm, target_room := tgt,
        pc := .has_hunters_wait }).1.house.rooms = s.house.rooms ∧
    (GhostThread.run_alone (n + 6) s
      { rnd := rnd, from_room := frm, target_room := tgt,
        pc := .has_hunters_wait }).1.house.ghost = s.house.ghost := by
  rw [List.getD_eq_getElem?_getD] at ht
  cases n <;>
    simp [GhostThread.run_alone, GhostThread.step, GhostThread.first, GhostThread.second,
      Shared.wait, Shared.post, sem_wait, sem_post, hh, hc, ht, hs, Function.update]

/-! ## The claims -/

/-- C1: room occupancy bound.  A room whose `hunter_count` is at most 8 still has
`hunter_count` at most 8 after `room_add_hunter` and after `room_remove_hunter`;
every room of the house (the source, the destination and all others) with
`hunter_count` at most 8 still has it after `hunter_move`, whether the move
succeeds or fails; hence, starting from a house whose rooms are all as
`room_init` leaves them, no sequence of operations of the program brings any
room above 8 occupants.  (The count is a natural number, so it is at least 0.) -/
theorem room_occupancy_bound :
    (∀ (room : Room) (hunter : HunterPtr), room.hunter_count ≤ MAX_ROOM_OCCUPANCY →
      0 ≤ (room_add_hunter room hunter).2.hunter_count ∧
      (room_add_hunter room hunter).2.hunter_count ≤ MAX_ROOM_OCCUPANCY ∧
      0 ≤ (room_remove_hunter room hunter).hunter_count ∧
      (room_remove_hunter room hunter).hunter_count ≤ MAX_ROOM_OCCUPANCY) ∧
    (∀ (w : House) (hunter : HunterPtr) (target_room p : RoomPtr),
      (w.rooms p).hunter_count ≤ MAX_ROOM_OCCUPANCY →
      0 ≤ ((hunter_move w hunter target_room).2.rooms p).hunter_count ∧
      ((hunter_move w hunter target_room).2.rooms p).hunter_count ≤ MAX_ROOM_OCCUPANCY) ∧
    (∀ (w : House) (exits : RoomPtr → Bool) (ops : List Op),
      (∀ p, w.rooms p = room_init (exits p)) →
      ∀ p, ((run_ops w ops).rooms p).hunter_count ≤ MAX_ROOM_OCCUPANCY) := by
  refine ⟨?_, ?_, ?_⟩
  · intro room hunter h
    exact ⟨Nat.zero_le _, room_add_hunter_count_le room hunter h, Nat.zero_le _,
      le_trans (room_remove_hunter_count_le room hunter) h⟩
  · intro w hunter target_room p h
    exact ⟨Nat.zero_le _, (hunter_move_room_step w hunter target_room p).hunter_count_le h⟩
  · intro w exits ops hinit p
    apply (run_ops_room_step w ops p).hunter_count_le
    rw [hinit p]
    exact Nat.zero_le _

/-- Instance of C1: the full room stays at 8 under add and remove, a move of
hunter 0 of the sample house into room 2 keeps room 2 within the bound, and the
bound holds after a run of operations on the sample house. -/
theorem room_occupancy_bound_witness :
    (room_add_hunter full_room 3).2.hunter_count ≤ MAX_ROOM_OCCUPANCY ∧
    ((hunter_move sample_house 0 2).2.rooms 2).hunter_count ≤ MAX_ROOM_OCCUPANCY ∧
    ((run_ops sample_house
      [Op.room_connect 0 1, Op.hunter 0 (HunterOp.move 0), Op.room_add_hunter 1 5,
       Op.hunter 5 (HunterOp.thread_body 0 0 0 true)]).rooms 1).hunter_count
        ≤ MAX_ROOM_OCCUPANCY :=
  ⟨(room_occupancy_bound.1 full_room 3 (by decide)).2.1,
   (room_occupancy_bound.2.1 sample_house 0 2 2 (by decide)).2,
   room_occupancy_bound.2.2 sample_house (fun p => p == 0) _ (fun _ => rfl) 1⟩

/-- C2: `hunter_check_van` and the solved flag.  Let the condition be: the
hunter's current room is the exit room, `collected` has at least 3 bits set and
`collected` equals the value of one of the GhostType profiles.  If the condition
holds, then after `hunter_check_van` the solved flag is true, the exit room is the
old exit room with the hunter removed by `room_remove_hunter` (its occupant list
is the old one with the first occurrence of the hunter erased), `should_exit` is
true, `exit_reason` is `LR_EVIDENCE` and `collected` is unchanged.  If the
condition fails, the solved flag, `collected`, all rooms, `should_exit` and
`exit_reason` keep their previous values. -/
theorem hunter_check_van_solves (w : House) (hunter : HunterPtr) (rnd : Nat) :
    (((w.rooms (w.hunters hunter).current_room).is_exit = true ∧
        3 ≤ evidence_count_bits w.caseFile.collected ∧
        (∃ g : GhostType, g.val = w.caseFile.collected)) →
      (hunter_check_van w hunter rnd).caseFile.solved = true ∧
      (hunter_check_van w hunter rnd).rooms (w.hunters hunter).current_room =
        room_remove_hunter (w.rooms (w.hunters hunter).current_room) hunter ∧
      ((w.rooms (w.hunters hunter).current_room).hunter_count ≤
          (w.rooms (w.hunters hunter).current_room).hunters.length →
        ((hunter_check_van w hunter rnd).rooms (w.hunters hunter).current_room).occupants =
          (w.rooms (w.hunters hunter).current_room).occupants.erase (some hunter)) ∧
      (∀ p : RoomPtr, p ≠ (w.hunters hunter).current_room →
        (hunter_check_van w hunter rnd).rooms p = w.rooms p) ∧
      ((hunter_check_van w hunter rnd).hunters hunter).should_exit = true ∧
      ((hunter_check_van w hunter rnd).hunters hunter).exit_reason = LogReason.LR_EVIDENCE ∧
      (hunter_check_van w hunter rnd).caseFile.collected = w.caseFile.collected) ∧
    (¬ ((w.rooms (w.hunters hunter).current_room).is_exit = true ∧
        3 ≤ evidence_count_bits w.caseFile.collected ∧
        (∃ g : GhostType, g.val = w.caseFile.collected)) →
      (hunter_check_van w hunter rnd).caseFile.solved = w.caseFile.solved ∧
      (hunter_check_van w hunter rnd).caseFile.collected = w.caseFile.collected ∧
      (hunter_check_van w hunter rnd).rooms = w.rooms ∧
      ((hunter_check_van w hunter rnd).hunters hunter).should_exit =
        (w.hunters hunter).should_exit ∧
      ((hunter_check_van w hunter rnd).hunters hunter).exit_reason =
        (w.hunters hunter).exit_reason) := by
  constructor
  · rintro ⟨hexit, h3, hg⟩
    have h3u := (evidence_has_three_unique_iff _).mpr h3
    have hv := (evidence_is_valid_ghost_iff _).mpr hg
    have hrm : ((hunter_check_van w hunter rnd).rooms (w.hunters hunter).current_room) =
        room_remove_hunter (w.rooms (w.hunters hunter).current_room) hunter := by
      simp only [hunter_check_van]
      split_ifs <;> simp_all
    refine ⟨?_, hrm, ?_, ?_, ?_, ?_, ?_⟩
    · simp only [hunter_check_van]
      split_ifs <;> simp_all
    · intro hc
      rw [hrm]
      exact room_remove_hunter_occupants _ _ hc
    · intro p hp
      simp only [hunter_check_van]
      split_ifs <;> simp_all [Function.update_noteq]
    · simp only [hunter_check_van]
      split_ifs <;> simp_all
    · simp only [hunter_check_van]
      split_ifs <;> simp_all
    · simp only [hunter_check_van]
      split_ifs <;> simp_all
  · intro hcond
    have hc : ¬ ((w.rooms (w.hunters hunter).current_room).is_exit = true ∧
        evidence_has_three_unique w.caseFile.collected = true ∧
        evidence_is_valid_ghost w.caseFile.collected = true) := by
      rw [evidence_has_three_unique_iff, evidence_is_valid_ghost_iff]; exact hcond
    refine ⟨?_, ?_, ?_, ?_, ?_⟩
    all_goals simp only [hunter_check_van]
    all_goals split_ifs <;> simp_all

/-- Instance of C2: in the van house the condition holds and the case is solved
with the hunter taken out of the van; in the sample house the hunter is not in
the exit room and nothing is solved. -/
theorem hunter_check_van_solves_witness :
    (hunter_check_van van_house 0 3).caseFile.solved = true ∧
    ((hunter_check_van van_house 0 3).rooms 0).occupants = [] ∧
    ((hunter_check_van van_house 0 3).hunters 0).exit_reason = LogReason.LR_EVIDENCE ∧
    (hunter_check_van sample_house 0 3).caseFile.solved = false :=
  ⟨((hunter_check_van_solves van_house 0 3).1
      ⟨by decide, by decide, GhostType.GH_POLTERGEIST, rfl⟩).1,
   ((hunter_check_van_solves van_house 0 3).1
      ⟨by decide, by decide, GhostType.GH_POLTERGEIST, rfl⟩).2.2.1 (by decide),
   ((hunter_check_van_solves van_house 0 3).1
      ⟨by decide, by decide, GhostType.GH_POLTERGEIST, rfl⟩).2.2.2.2.2.1,
   ((hunter_check_van_solves sample_house 0 3).2 (fun h => absurd h.1 (by decide))).1⟩

/-- C3: the solved flag is permanent.  If `caseFile.solved` is true it is still
true after any hunter operation (`hunter_move`, `hunter_update_stats`,
`hunter_check_van`, `hunter_check_exit_conditions`, `hunter_gather_evidence`,
`hunter_choose_move`, a whole iteration of the hunter loop), after any ghost
operation and after every other operation of the program except `house_init`,
which is the only one that writes `false`. -/
theorem solved_flag_permanent :
    (∀ (w : House) (hunter : HunterPtr) (op : HunterOp),
      w.caseFile.solved = true → (op.run w hunter).caseFile.solved = true) ∧
    (∀ (w : House) (op : GhostOp),
      w.caseFile.solved = true → (op.run w).caseFile.solved = true) ∧
    (∀ (w : House) (op : Op), (∀ b, op ≠ Op.house_init b) →
      w.caseFile.solved = true → (op.run w).caseFile.solved = true) ∧
    (∀ (w : House) (malloc_ok : Bool), (house_init w malloc_ok).caseFile.solved = false) :=
  ⟨fun w hunter op h => (hunter_op_grows w hunter op).1 h,
   fun w op h => by rw [ghost_op_caseFile]; exact h,
   fun w op hop h => (op_grows w op hop).1 h,
   fun _ _ => rfl⟩

/-- Instance of C3 on a solved house: a van check, a ghost iteration and a
hunter iteration leave the flag set. -/
theorem solved_flag_permanent_witness :
    ((HunterOp.check_van 3).run solved_house 0).caseFile.solved = true ∧
    ((GhostOp.thread_body 1 0).run solved_house).caseFile.solved = true ∧
    ((Op.hunter 0 (HunterOp.thread_body 0 0 0 true)).run solved_house).caseFile.solved = true :=
  ⟨solved_flag_permanent.1 solved_house 0 _ rfl,
   solved_flag_permanent.2.1 solved_house _ rfl,
   solved_flag_permanent.2.2.1 solved_house _ (fun _ h => by cases h) rfl⟩

/-- C4: the ledger never loses a bit.  For every hunter operation and every ghost
operation and every evidence kind, a kind contained in `caseFile.collected`
before the operation is contained in it afterwards, and the bit count of
`collected` (`evidence_count_bits`) does not decrease. -/
theorem ledger_never_loses_a_bit :
    (∀ (w : House) (hunter : HunterPtr) (op : HunterOp),
      (∀ t : EvidenceType, evidence_has w.caseFile.collected t = true →
        evidence_has (op.run w hunter).caseFile.collected t = true) ∧
      evidence_count_bits w.caseFile.collected ≤
        evidence_count_bits (op.run w hunter).caseFile.collected) ∧
    (∀ (w : House) (op : GhostOp),
      (∀ t : EvidenceType, evidence_has w.caseFile.collected t = true →
        evidence_has (op.run w).caseFile.collected t = true) ∧
      evidence_count_bits w.caseFile.collected ≤
        evidence_count_bits (op.run w).caseFile.collected) :=
  ⟨fun w hunter op => (hunter_op_grows w hunter op).2,
   fun w op => by rw [ghost_op_caseFile]; exact ⟨fun _ h => h, le_refl _⟩⟩

/-- Instance of C4: gathering EMF in the evidence house whose ledger already
holds ORBS keeps ORBS in the ledger. -/
theorem ledger_never_loses_a_bit_witness :
    evidence_has ((HunterOp.gather_evidence 50).run
      { evidence_house with caseFile := { collected := EvidenceType.EV_ORBS.val, solved := false } }
      0).caseFile.collected .EV_ORBS = true :=
  (ledger_never_loses_a_bit.1
    { evidence_house with caseFile := { collected := EvidenceType.EV_ORBS.val, solved := false } }
    0 (HunterOp.gather_evidence 50)).1 .EV_ORBS (by decide)

/-- C5: gathering moves the bit from the room to the ledger.  For a hunter
standing in a non-exit room whose evidence mask contains the kind `d` of the
hunter's device, after `hunter_gather_evidence` the room's mask does not contain
`d` and contains every other kind exactly when it did before (bit 7, which is no
kind, is unchanged too), `caseFile.collected` contains `d` and contains every
other kind exactly when it did before, and `return_to_van` is true; the other
rooms and the solved flag are unchanged. -/
theorem gather_moves_bit_to_ledger (w : House) (hunter : HunterPtr) (rnd : Nat)
    (d : EvidenceType)
    (hroom : (w.rooms (w.hunters hunter).current_room).is_exit = false)
    (hdev : (w.hunters hunter).device = d)
    (hev : evidence_has (w.rooms (w.hunters hunter).current_room).evidence d = true) :
    evidence_has ((hunter_gather_evidence w hunter rnd).rooms
      (w.hunters hunter).current_room).evidence d = false ∧
    (∀ u : EvidenceType, u ≠ d →
      evidence_has ((hunter_gather_evidence w hunter rnd).rooms
        (w.hunters hunter).current_room).evidence u =
      evidence_has (w.rooms (w.hunters hunter).current_room).evidence u) ∧
    ((hunter_gather_evidence w hunter rnd).rooms
      (w.hunters hunter).current_room).evidence.testBit 7 =
      (w.rooms (w.hunters hunter).current_room).evidence.testBit 7 ∧
    evidence_has (hunter_gather_evidence w hunter rnd).caseFile.collected d = true ∧
    (∀ u : EvidenceType, u ≠ d →
      evidence_has (hunter_gather_evidence w hunter rnd).caseFile.collected u =
      evidence_has w.caseFile.collected u) ∧
    (hunter_gather_evidence w hunter rnd).caseFile.collected.testBit 7 =
      w.caseFile.collected.testBit 7 ∧
    ((hunter_gather_evidence w hunter rnd).hunters hunter).return_to_van = true ∧
    (∀ p : RoomPtr, p ≠ (w.hunters hunter).current_room →
      (hunter_gather_evidence w hunter rnd).rooms p = w.rooms p) ∧
    (hunter_gather_evidence w hunter rnd).caseFile.solved = w.caseFile.solved := by
  subst hdev
  have e : hunter_gather_evidence w hunter rnd =
      (sem_post (sem_wait (sem_post ((sem_wait w (.room (w.hunters hunter).current_room)).setRoom
        (w.hunters hunter).current_room
        { w.rooms (w.hunters hunter).current_room with
          evidence := evidence_clear (w.rooms (w.hunters hunter).current_room).evidence
            (w.hunters hunter).device })
        (.room (w.hunters hunter).current_room)) .casefile
        |> fun v => { v with caseFile := { v.caseFile with
            collected := evidence_set v.caseFile.collected (w.hunters hunter).device } })
        .casefile).setHunter hunter { w.hunters hunter with return_to_van := true } := by
    simp [hunter_gather_evidence, hroom, hev]
  rw [e]
  simp only [setHunter_rooms, sem_post_rooms, sem_wait_rooms, setRoom_rooms, Function.update_same,
    setHunter_caseFile, sem_post_caseFile, sem_wait_caseFile, setRoom_caseFile,
    setHunter_hunters]
  refine ⟨evidence_has_clear_self _ _, fun u hu => evidence_has_clear_other _ hu,
    evidence_clear_testBit_seven _ _, evidence_has_set_self _ _,
    fun u hu => evidence_has_set_other _ hu, evidence_set_testBit_seven _ _, trivial,
    fun p hp => Function.update_noteq hp _ _, trivial⟩

/-- Instance of C5: room mask with `EV_EMF`, device `EV_EMF`. -/
theorem gather_moves_bit_to_ledger_witness :
    evidence_has ((hunter_gather_evidence evidence_house 0 50).rooms 1).evidence .EV_EMF = false ∧
    evidence_has (hunter_gather_evidence evidence_house 0 50).caseFile.collected .EV_EMF = true ∧
    ((hunter_gather_evidence evidence_house 0 50).hunters 0).return_to_van = true :=
  ⟨(gather_moves_bit_to_ledger evidence_house 0 50 .EV_EMF (by decide) (by decide) (by decide)).1,
   (gather_moves_bit_to_ledger evidence_house 0 50 .EV_EMF (by decide) (by decide)
     (by decide)).2.2.2.1,
   (gather_moves_bit_to_ledger evidence_house 0 50 .EV_EMF (by decide) (by decide)
     (by decide)).2.2.2.2.2.2.1⟩

/-- C6: two actors moving in opposite directions between two distinct rooms
never deadlock and each ends up in exactly one room.  The two calls are run
statement by statement under every scheduler (`Conc.run`), with `sem_wait`
blocking on a semaphore at 0; both room semaphores start at 1, both rooms have 8
slots and at most 8 occupants, and each actor starts in its source room (a
hunter listed once there and not in the other room).  First part: hunter `h1`
in room `a` calls `hunter_move` towards `b` while hunter `h2` in room `b` calls
it towards `a`.  Second part: hunter `h` in room `a` calls `hunter_move` towards
`b` while the ghost in room `b` calls `ghost_move` and draws `a`.  In both, for
every interleaving: it has at most 18 (resp. 21) steps; in every state reached
in which an actor has not returned some actor can take a step (no deadlock); and
once both have returned, each hunter is in exactly one room (listed once there,
not listed in the other, `current_room` pointing to it): the target when its
call returned true, the source when it returned false; and the ghost is in
exactly one of the two rooms. -/
theorem opposite_moves_never_deadlock :
    (∀ (s : Shared) (h1 h2 : HunterPtr) (a b : RoomPtr) (sched : List Bool) (c : Conc),
      a ≠ b → h1 ≠ h2 → s.sem a = 1 → s.sem b = 1 → RoomsOk s.house a b →
      hunter_in s.house h1 a b → hunter_in s.house h2 b a →
      (two_hunters s h1 h2 a b).run sched = some c →
        sched.length ≤ 18 ∧
        (c.finished = false → (c.step true).isSome = true ∨ (c.step false).isSome = true) ∧
        (c.finished = true →
          (∃ r, c.left.result = some r ∧
            (r = true → hunter_in c.shared.house h1 b a) ∧
            (r = false → hunter_in c.shared.house h1 a b)) ∧
          (∃ r, c.right.result = some r ∧
            (r = true → hunter_in c.shared.house h2 a b) ∧
            (r = false → hunter_in c.shared.house h2 b a)))) ∧
    (∀ (s : Shared) (h : HunterPtr) (a b : RoomPtr) (rnd : Nat) (sched : List Bool) (c : Conc),
      a ≠ b → s.sem a = 1 → s.sem b = 1 → RoomsOk s.house a b →
      hunter_in s.house h a b → ghost_in s.house b a →
      (s.house.rooms b).connections.getD rnd none = some a →
      (hunter_and_ghost s h b rnd).run sched = some c →
        sched.length ≤ 21 ∧
        (c.finished = false → (c.step true).isSome = true ∨ (c.step false).isSome = true) ∧
        (c.finished = true →
          (∃ r, c.left.result = some r ∧
            (r = true → hunter_in c.shared.house h b a) ∧
            (r = false → hunter_in c.shared.house h a b)) ∧
          (ghost_in c.shared.house a b ∨ ghost_in c.shared.house b a))) := by
  constructor
  · intro s h1 h2 a b sched c hab hh hsa hsb hok hin1 hin2 hrun
    have hinv := duel_inv_run hab hh sched (duel_inv_init hsa hsb hok hin1 hin2) hrun
    refine ⟨?_, fun hfin => duel_inv_progress hab hinv hfin, fun hfin => ?_⟩
    · have := conc_run_fuel sched hrun
      simp only [Conc.fuel, two_hunters, Actor.fuel, MovePc.fuel] at this
      omega
    · obtain ⟨t1, t2, hl, hr, -, -, -, -, -, -, -, -, -, hd1, hd2⟩ := hinv
      simp only [Conc.finished, Bool.and_eq_true, hl, hr] at hfin
      rw [hl, hr]
      exact ⟨move_data_final hd1 hfin.1, move_data_final hd2 hfin.2⟩
  · intro s h a b rnd sched c hab hsa hsb hok hin1 hin2 hconn hrun
    have hinv := haunt_inv_run hab sched (haunt_inv_init hsa hsb hok hin1 hin2 hconn) hrun
    refine ⟨?_, fun hfin => haunt_inv_progress hab hinv hfin, fun hfin => ?_⟩
    · have := conc_run_fuel sched hrun
      simp only [Conc.fuel, hunter_and_ghost, Actor.fuel, MovePc.fuel, GhostPc.fuel] at this
      omega
    · obtain ⟨t, g, hl, hr, -, -, -, -, -, -, -, hd1, hd2, -⟩ := hinv
      simp only [Conc.finished, Bool.and_eq_true, hl, hr] at hfin
      rw [hl]
      refine ⟨move_data_final hd1 hfin.1, ?_⟩
      obtain ⟨rnd2, frm, tgt, pc⟩ := g
      have hpc : pc = GhostPc.done := by simpa [Actor.finished] using hfin.2
      subst hpc
      simp only [GhostData] at hd2
      exact hd2.symm

/-- Instance of C6: on the duel house the interleaving `duel_schedule` runs to
the end and both hunters have changed rooms; on the haunted house the
interleaving `haunt_schedule` runs to the end, the hunter has moved to room 2
and the ghost is in exactly one of the rooms 1 and 2. -/
theorem opposite_moves_never_deadlock_witness :
    (∃ c, (two_hunters duel_start 0 1 1 2).run duel_schedule = some c ∧ c.finished = true ∧
      hunter_in c.shared.house 0 2 1 ∧ hunter_in c.shared.house 1 1 2) ∧
    (∃ c, (hunter_and_ghost haunt_start 0 2 0).run haunt_schedule = some c ∧
      c.finished = true ∧ hunter_in c.shared.house 0 2 1 ∧
      (ghost_in c.shared.house 1 2 ∨ ghost_in c.shared.house 2 1)) := by
  constructor
  · have hfin : (((two_hunters duel_start 0 1 1 2).run duel_schedule).get
        duel_run_isSome).finished = true := by decide
    have key := (opposite_moves_never_deadlock.1 duel_start 0 1 1 2 duel_schedule _
      (by decide) (by decide) rfl rfl (by unfold RoomsOk; decide) (by unfold hunter_in; decide)
      (by unfold hunter_in; decide) (Option.some_get duel_run_isSome).symm).2.2 hfin
    obtain ⟨⟨r1, e1, t1, -⟩, ⟨r2, e2, t2, -⟩⟩ := key
    have x1 : r1 = true := Option.some.inj (e1.symm.trans (by decide))
    have x2 : r2 = true := Option.some.inj (e2.symm.trans (by decide))
    exact ⟨_, (Option.some_get duel_run_isSome).symm, hfin, t1 x1, t2 x2⟩
  · have hfin : (((hunter_and_ghost haunt_start 0 2 0).run haunt_schedule).get
        haunt_run_isSome).finished = true := by decide
    have key := (opposite_moves_never_deadlock.2 haunt_start 0 1 2 0 haunt_schedule _
      (by decide) rfl rfl (by unfold RoomsOk; decide) (by unfold hunter_in; decide)
      (by unfold ghost_in; decide) (by decide) (Option.some_get haunt_run_isSome).symm).2.2 hfin
    obtain ⟨⟨r1, e1, t1, -⟩, hg⟩ := key
    have x1 : r1 = true := Option.some.inj (e1.symm.trans (by decide))
    exact ⟨_, (Option.some_get haunt_run_isSome).symm, hfin, t1 x1, hg⟩

/-- C7: fixed lock order independent of role.  For distinct rooms `a` and `b`,
`hunter_move` from `a` to `b` and `hunter_move` from `b` to `a` emit the same
four lock events, whatever the count of the target room, so on the success path
and on the capacity-failure path alike: acquire the room with the lower
address, acquire the other, release the other, release the first.  The
two-room section of `ghost_move` between them, in either direction, emits the
same four events: they are the events of the call after its `room_has_hunters`
test, which on its own acquires and releases the ghost's room once.  The two
semaphores of the section are different ones, so each is acquired once and
released once, in reverse order. -/
theorem lock_order_fixed (w : House) (hunter : HunterPtr) (a b : RoomPtr) (rnd : Nat)
    (hab : a ≠ b) :
    ((w.hunters hunter).current_room = a →
      lock_events w (hunter_move w hunter b).2 = two_room_lock_events a b) ∧
    ((w.hunters hunter).current_room = b →
      lock_events w (hunter_move w hunter a).2 = two_room_lock_events a b) ∧
    (w.ghost.current_room = a → (w.rooms a).hunter_count = 0 →
      (w.rooms a).connection_count ≠ 0 → (w.rooms a).connections.getD rnd none = some b →
      lock_events (room_has_hunters w a).2 (ghost_move w rnd) = two_room_lock_events a b ∧
      lock_events w (room_has_hunters w a).2 = [.wait (.room a), .post (.room a)]) ∧
    (w.ghost.current_room = b → (w.rooms b).hunter_count = 0 →
      (w.rooms b).connection_count ≠ 0 → (w.rooms b).connections.getD rnd none = some a →
      lock_events (room_has_hunters w b).2 (ghost_move w rnd) = two_room_lock_events a b ∧
      lock_events w (room_has_hunters w b).2 = [.wait (.room b), .post (.room b)]) ∧
    two_room_lock_events a b =
      [.wait (.room (min a b)), .wait (.room (max a b)),
       .post (.room (max a b)), .post (.room (min a b))] ∧
    min a b ≠ max a b := by
  have probe : ∀ r : RoomPtr, (room_has_hunters w r).2.lock_trace =
      w.lock_trace ++ [.wait (.room r), .post (.room r)] := by
    intro r; simp [room_has_hunters, sem_wait, sem_post]
  refine ⟨?_, ?_, ?_, ?_, rfl, ?_⟩
  · intro h
    rw [lock_events, hunter_move_lock_trace, List.drop_left, h]
  · intro h
    rw [lock_events, hunter_move_lock_trace, List.drop_left, h, two_room_lock_events_comm]
  · intro h h0 hc ht
    subst h
    refine ⟨?_, ?_⟩
    · rw [lock_events, ghost_move_lock_trace w rnd b h0 hc ht, probe, ← List.append_assoc,
        List.drop_left]
    · rw [lock_events, probe, List.drop_left]
  · intro h h0 hc ht
    subst h
    refine ⟨?_, ?_⟩
    · rw [lock_events, ghost_move_lock_trace w rnd a h0 hc ht, probe, ← List.append_assoc,
        List.drop_left, two_room_lock_events_comm]
    · rw [lock_events, probe, List.drop_left]
  · intro h
    rcases Nat.lt_or_gt_of_ne hab with hlt | hlt
    · rw [Nat.min_eq_left (Nat.le_of_lt hlt), Nat.max_eq_right (Nat.le_of_lt hlt)] at h
      exact hab h
    · rw [Nat.min_eq_right (Nat.le_of_lt hlt), Nat.max_eq_left (Nat.le_of_lt hlt)] at h
      exact hab h.symm

/-- Instance of C7 on the connected house: hunter 0 moves from room 1 to the
van, hunter 0 of the crowded house fails to enter the full room 2, and the ghost
moves from room 1 to the van. -/
theorem lock_order_fixed_witness :
    lock_events connected_house (hunter_move connected_house 0 0).2 =
      two_room_lock_events 1 0 ∧
    lock_events crowded_house
      (hunter_move crowded_house 0 2).2 = two_room_lock_events 2 1 ∧
    lock_events (room_has_hunters connected_house 1).2 (ghost_move connected_house 0) =
      two_room_lock_events 1 0 ∧
    two_room_lock_events 1 0 =
      [.wait (.room 0), .wait (.room 1), .post (.room 1), .post (.room 0)] :=
  ⟨(lock_order_fixed connected_house 0 1 0 0 (by decide)).1 (by decide),
   (lock_order_fixed crowded_house 0 2 1 0 (by decide)).2.1 (by decide),
   ((lock_order_fixed connected_house 0 1 0 0 (by decide)).2.2.1 (by decide) (by decide)
     (by decide) (by decide)).1,
   (lock_order_fixed connected_house 0 1 0 0 (by decide)).2.2.2.2.1⟩

/-- C8: the case-file lock and a room lock are never held together.  Replaying
the lock events of any hunter operation (each single function, on every branch,
and a whole iteration of the hunter loop) from no lock held, no room lock is
acquired while the case-file lock is held, the case-file lock is never acquired
while a room lock is held, and no lock is left held at the end; in particular
`hunter_check_van` emits nothing, or the case-file section alone, or the
case-file section followed by the room section, and `hunter_gather_evidence`
emits nothing, or the room section alone, or the room section followed by the
case-file section. -/
theorem casefile_and_room_locks_apart (w : House) (hunter : HunterPtr) :
    (∀ op : HunterOp, locks_apart [] (lock_events w (op.run w hunter)) = some []) ∧
    (∀ rnd : Nat,
      lock_events w (hunter_check_van w hunter rnd) = [] ∨
      lock_events w (hunter_check_van w hunter rnd) = [.wait .casefile, .post .casefile] ∨
      lock_events w (hunter_check_van w hunter rnd) =
        [.wait .casefile, .post .casefile, .wait (.room (w.hunters hunter).current_room),
         .post (.room (w.hunters hunter).current_room)]) ∧
    (∀ rnd : Nat,
      lock_events w (hunter_gather_evidence w hunter rnd) = [] ∨
      lock_events w (hunter_gather_evidence w hunter rnd) =
        [.wait (.room (w.hunters hunter).current_room),
         .post (.room (w.hunters hunter).current_room)] ∨
      lock_events w (hunter_gather_evidence w hunter rnd) =
        [.wait (.room (w.hunters hunter).current_room),
         .post (.room (w.hunters hunter).current_room), .wait .casefile, .post .casefile]) := by
  refine ⟨fun op => (hunter_op_locks_apart w hunter op).events, fun rnd => ?_, fun rnd => ?_⟩
  · rcases hunter_check_van_lock_trace w hunter rnd with h | h | h <;>
      simp [lock_events, h]
  · rcases hunter_gather_evidence_lock_trace w hunter rnd with h | h | h <;>
      simp [lock_events, h]

/-- C9: `room_add_hunter` on a room whose `hunter_count` is 8 returns false and
returns the room unchanged; on a room with `hunter_count` n below 8 (and the
8-slot array `hunters`) it returns true, slot n holds the hunter, `hunter_count`
is n + 1, every other slot (in particular the first n) and every other field is
unchanged. -/
theorem room_add_hunter_capacity (room : Room) (hunter : HunterPtr) :
    (room.hunter_count = MAX_ROOM_OCCUPANCY → room_add_hunter room hunter = (false, room)) ∧
    (room.hunter_count < MAX_ROOM_OCCUPANCY → room.hunters.length = MAX_ROOM_OCCUPANCY →
      (room_add_hunter room hunter).1 = true ∧
      (room_add_hunter room hunter).2.hunters[room.hunter_count]? = some (some hunter) ∧
      (room_add_hunter room hunter).2.hunter_count = room.hunter_count + 1 ∧
      (∀ i, i ≠ room.hunter_count →
        (room_add_hunter room hunter).2.hunters[i]? = room.hunters[i]?) ∧
      (room_add_hunter room hunter).2.occupants = room.occupants ++ [some hunter] ∧
      (room_add_hunter room hunter).2.hunters.length = MAX_ROOM_OCCUPANCY ∧
      (room_add_hunter room hunter).2.connections = room.connections ∧
      (room_add_hunter room hunter).2.connection_count = room.connection_count ∧
      (room_add_hunter room hunter).2.ghost = room.ghost ∧
      (room_add_hunter room hunter).2.is_exit = room.is_exit ∧
      (room_add_hunter room hunter).2.evidence = room.evidence) := by
  constructor
  · intro h
    simp [room_add_hunter, h]
  · intro h hlen
    have hn : ¬ room.hunter_count ≥ MAX_ROOM_OCCUPANCY := by omega
    have hlt : room.hunter_count < room.hunters.length := by omega
    have e : room_add_hunter room hunter = (true, { room with
        hunters := room.hunters.set room.hunter_count (some hunter)
        hunter_count := room.hunter_count + 1 }) := by
      simp [room_add_hunter, hn]
    rw [e]
    refine ⟨rfl, ?_, rfl, ?_, ?_, ?_, rfl, rfl, rfl, rfl, rfl⟩
    · simp [List.getElem?_set, hlt]
    · intro i hi
      simp [List.getElem?_set, Ne.symm hi]
    · show List.take (room.hunter_count + 1) (room.hunters.set room.hunter_count (some hunter)) =
        List.take room.hunter_count room.hunters ++ [some hunter]
      rw [List.set_eq_take_append_cons_drop, if_pos hlt,
        show List.take room.hunter_count room.hunters ++
            some hunter :: List.drop (room.hunter_count + 1) room.hunters =
          (List.take room.hunter_count room.hunters ++ [some hunter]) ++
            List.drop (room.hunter_count + 1) room.hunters by simp]
      apply List.take_left'
      simp [List.length_take, Nat.min_eq_left (Nat.le_of_lt hlt)]
    · show (room.hunters.set room.hunter_count (some hunter)).length = MAX_ROOM_OCCUPANCY
      rw [List.length_set]; exact hlen

/-- Instance of C9 on the full room and on a freshly initialised room. -/
theorem room_add_hunter_capacity_witness :
    room_add_hunter full_room 3 = (false, full_room) ∧
    (room_add_hunter (room_init false) 3).1 = true ∧
    (room_add_hunter (room_init false) 3).2.hunters[0]? = some (some 3) ∧
    (room_add_hunter (room_init false) 3).2.hunter_count = 1 :=
  ⟨(room_add_hunter_capacity full_room 3).1 (by decide),
   ((room_add_hunter_capacity (room_init false) 3).2 (by decide) (by decide)).1,
   ((room_add_hunter_capacity (room_init false) 3).2 (by decide) (by decide)).2.1,
   ((room_add_hunter_capacity (room_init false) 3).2 (by decide) (by decide)).2.2.1⟩

/-- C10: a move into a full room changes nothing.  When the target is another
room than the hunter's current room and its `hunter_count` is 8 (or more),
`hunter_move` returns false and every hunter (so the hunter's `current_room`),
every room (so the occupant lists and counts of the source and of the target),
the case file and the ghost are as before the call; the call has acquired and
released the semaphores of the two rooms, which are different ones. -/
theorem hunter_move_full_room (w : House) (hunter : HunterPtr) (target_room : RoomPtr)
    (hne : target_room ≠ (w.hunters hunter).current_room)
    (hfull : MAX_ROOM_OCCUPANCY ≤ (w.rooms target_room).hunter_count) :
    (hunter_move w hunter target_room).1 = false ∧
    ((hunter_move w hunter target_room).2.hunters hunter).current_room =
      (w.hunters hunter).current_room ∧
    (hunter_move w hunter target_room).2.hunters = w.hunters ∧
    (hunter_move w hunter target_room).2.rooms = w.rooms ∧
    (hunter_move w hunter target_room).2.caseFile = w.caseFile ∧
    (hunter_move w hunter target_room).2.ghost = w.ghost ∧
    lock_events w (hunter_move w hunter target_room).2 =
      two_room_lock_events (w.hunters hunter).current_room target_room ∧
    min (w.hunters hunter).current_room target_room ≠
      max (w.hunters hunter).current_room target_room := by
  refine ⟨?_, ?_, ?_, ?_, ?_, ?_, ?_, ?_⟩
  · simp only [hunter_move]; split_ifs <;> simp_all
  · simp only [hunter_move]; split_ifs <;> simp_all
  · simp only [hunter_move]; split_ifs <;> simp_all
  · simp only [hunter_move]; split_ifs <;> simp_all
  · simp only [hunter_move]; split_ifs <;> simp_all
  · simp only [hunter_move]; split_ifs <;> simp_all
  · rw [lock_events, hunter_move_lock_trace, List.drop_left]
  · intro h
    rcases Nat.lt_or_gt_of_ne hne with hlt | hlt
    · rw [Nat.min_eq_right (Nat.le_of_lt hlt), Nat.max_eq_left (Nat.le_of_lt hlt)] at h
      exact hne h
    · rw [Nat.min_eq_left (Nat.le_of_lt hlt), Nat.max_eq_right (Nat.le_of_lt hlt)] at h
      exact hne h.symm

/-- Instance of C10: hunter 0 of the crowded house (standing in room 1) cannot
enter the full room 2. -/
theorem hunter_move_full_room_witness :
    (hunter_move crowded_house 0 2).1 = false ∧
    (hunter_move crowded_house 0 2).2.rooms = crowded_house.rooms ∧
    (hunter_move crowded_house 0 2).2.hunters = crowded_house.hunters :=
  ⟨(hunter_move_full_room crowded_house 0 2 (by decide) (by decide)).1,
   (hunter_move_full_room crowded_house 0 2 (by decide) (by decide)).2.2.2.1,
   (hunter_move_full_room crowded_house 0 2 (by decide) (by decide)).2.2.1⟩

/-- C11: a successful move transfers the hunter.  The rooms are well formed (the
array `hunters` has its 8 slots and the source count is at most 8).  For a hunter
listed exactly once among the occupants of its current room and a target room
other than the current room with `hunter_count < 8`, `hunter_move` returns true;
afterwards the hunter is not among the occupants of the source room, it is the
last occupant of the target room, `current_room` is the target, the source count
is one less and the target count one more than before, the occupants of the
source are the old ones without the hunter in their old order, and the occupants
of the target are the old ones in their old order followed by the hunter. -/
theorem hunter_move_transfers (w : House) (hunter : HunterPtr) (target_room : RoomPtr)
    (hsl : (w.rooms (w.hunters hunter).current_room).hunters.length = MAX_ROOM_OCCUPANCY)
    (hsc : (w.rooms (w.hunters hunter).current_room).hunter_count ≤ MAX_ROOM_OCCUPANCY)
    (htl : (w.rooms target_room).hunters.length = MAX_ROOM_OCCUPANCY)
    (hone : (w.rooms (w.hunters hunter).current_room).listed hunter = 1)
    (hne : target_room ≠ (w.hunters hunter).current_room)
    (hroom : (w.rooms target_room).hunter_count < MAX_ROOM_OCCUPANCY) :
    (hunter_move w hunter target_room).1 = true ∧
    some hunter ∉
      ((hunter_move w hunter target_room).2.rooms (w.hunters hunter).current_room).occupants ∧
    ((hunter_move w hunter target_room).2.rooms target_room).occupants.getLast? =
      some (some hunter) ∧
    ((hunter_move w hunter target_room).2.hunters hunter).current_room = target_room ∧
    ((hunter_move w hunter target_room).2.rooms (w.hunters hunter).current_room).hunter_count + 1 =
      (w.rooms (w.hunters hunter).current_room).hunter_count ∧
    ((hunter_move w hunter target_room).2.rooms target_room).hunter_count =
      (w.rooms target_room).hunter_count + 1 ∧
    ((hunter_move w hunter target_room).2.rooms (w.hunters hunter).current_room).occupants =
      (w.rooms (w.hunters hunter).current_room).occupants.filter
        (fun x => decide (x ≠ some hunter)) ∧
    ((hunter_move w hunter target_room).2.rooms target_room).occupants =
      (w.rooms target_room).occupants ++ [some hunter] := by
  obtain ⟨h1, h2, h3, -, h5, -⟩ := hunter_move_of_room w hunter target_room hroom hne
  have hc : (w.rooms (w.hunters hunter).current_room).hunter_count ≤
      (w.rooms (w.hunters hunter).current_room).hunters.length := by omega
  have hin : some hunter ∈ (w.rooms (w.hunters hunter).current_room).occupants := by
    apply List.count_pos_iff.mp
    have := hone
    unfold Room.listed at this
    omega
  have hocc := room_remove_hunter_occupants _ hunter hc
  have hadd := room_add_hunter_occupants _ hunter hroom htl
  have hfil := erase_eq_filter_of_count_le_one (some hunter)
    (w.rooms (w.hunters hunter).current_room).occupants (by
      have := hone
      unfold Room.listed at this
      omega)
  rw [h2, h3, h5, hocc, hadd.1, hadd.2]
  refine ⟨h1, ?_, by simp, rfl, room_remove_hunter_count _ hunter hc hin, rfl, hfil, rfl⟩
  rw [hfil]
  simp

/-- Instance of C11: hunter 0 of the queue house, listed between hunters 1 and 2
in room 1, moves to room 2 where hunter 3 is listed. -/
theorem hunter_move_transfers_witness :
    (hunter_move queue_house 0 2).1 = true ∧
    ((hunter_move queue_house 0 2).2.hunters 0).current_room = 2 ∧
    ((hunter_move queue_house 0 2).2.rooms 1).occupants = [some 1, some 2] ∧
    ((hunter_move queue_house 0 2).2.rooms 2).occupants = [some 3, some 0] :=
  have h := hunter_move_transfers queue_house 0 2 (by decide) (by decide) (by decide)
    (by decide) (by decide) (by decide)
  ⟨h.1, h.2.2.2.1, h.2.2.2.2.2.2.1, h.2.2.2.2.2.2.2⟩

/-- C12 (the code at the failing input): a failed return move loses the trail.
Hunter 0 of the returning house stands in room 1 with `return_to_van` set and
the van (room 0) on top of its trail; the van holds 8 hunters.
`hunter_choose_move` pops the van off the trail and the move it attempts fails;
the hunter stays in room 1 and no room changes, but the trail, which held the
van before the call, is empty after it.
A second call finds the trail empty and does nothing, although the hunter is not
in the exit room. -/
theorem choose_move_failed_return_drops_trail :
    (returning_house.hunters 0).return_to_van = true ∧
    (returning_house.hunters 0).path = { head := [some 0] } ∧
    (roomstack_pop (returning_house.hunters 0).path).1 = some 0 ∧
    (hunter_move
      (returning_house.setHunter 0
        { returning_house.hunters 0 with
          path := (roomstack_pop (returning_house.hunters 0).path).2 }) 0 0).1 = false ∧
    ((hunter_choose_move returning_house 0 0 true).hunters 0).current_room = 1 ∧
    (hunter_choose_move returning_house 0 0 true).rooms = returning_house.rooms ∧
    ((hunter_choose_move returning_house 0 0 true).hunters 0).path = { head := [] } ∧
    ((hunter_choose_move (hunter_choose_move returning_house 0 0 true) 0 0 true).hunters 0) =
      (hunter_choose_move returning_house 0 0 true).hunters 0 ∧
    ((hunter_choose_move returning_house 0 0 true).rooms 1).is_exit = false := by
  refine ⟨rfl, rfl, rfl, by decide, by decide, ?_, by decide, by decide, by decide⟩
  funext p
  by_cases h0 : p = 0
  · subst h0; decide
  · by_cases h1 : p = 1
    · subst h1; decide
    · simp [hunter_choose_move, hunter_choose_move_attempt, hunter_move, returning_house,
        roomstack_pop, h0, h1, Function.update, sample_hunter, MAX_ROOM_OCCUPANCY, full_room]

/-- C13: the trail stack is last in, first out.  After `roomstack_init` and a
successful `roomstack_push` of each of the rooms r1..rk, k rounds of
`roomstack_is_empty` and `roomstack_pop` return false and rk, ..., false and r1;
then `roomstack_is_empty` returns true, and one more `roomstack_pop` returns
`NULL` and leaves the stack as it is (empty). -/
theorem roomstack_lifo (rooms : List RoomPtr) :
    (roomstack_pop_n rooms.length (roomstack_push_all roomstack_init rooms)).1 =
      rooms.reverse.map (fun r => (false, some r)) ∧
    roomstack_is_empty
      (roomstack_pop_n rooms.length (roomstack_push_all roomstack_init rooms)).2 = true ∧
    roomstack_pop (roomstack_pop_n rooms.length (roomstack_push_all roomstack_init rooms)).2 =
      (none, (roomstack_pop_n rooms.length (roomstack_push_all roomstack_init rooms)).2) := by
  have h : roomstack_push_all roomstack_init rooms =
      { head := rooms.reverse.map some ++ [] } := by
    have := roomstack_push_all_head roomstack_init rooms
    cases hs : roomstack_push_all roomstack_init rooms with
    | mk hd => rw [hs] at this; simpa [roomstack_init] using this
  have h2 := roomstack_pop_n_map rooms.reverse []
  rw [List.length_reverse] at h2
  rw [h, h2]
  exact ⟨rfl, rfl, rfl⟩

-- The instances below evaluate sixteen iterations of a thread loop.
set_option maxRecDepth 16384

/-- C14 (the code at the failing input): an idle hunter that never leaves.  In
the idle house the ghost stays in room 3 and hunter 0 starts its loop in the van
with boredom 0, fear 0 and `should_exit` false.  At the start of each of its
first five iterations the room it stands in holds no ghost, the van check would
not solve the case, it has not exited and its boredom is the number of
iterations made.  In the fifth iteration it stands in room 1 with
`return_to_van` set and room 1 on top of its trail (its return move to the full
room 2 failed in the fourth), so the last statement of the iteration is the call
of `hunter_move` with its own room as target, made with boredom 5 and
`should_exit` false.  Run statement by statement with the room semaphores at 1,
that call stands at the second `sem_wait` after any number of statements: the
iteration never ends, there is no sixteenth iteration, and `should_exit` stays
false. -/
theorem idle_hunter_never_exits :
    (idle_house.hunters 0).boredom = 0 ∧
    (idle_house.hunters 0).fear ≤ HUNTER_FEAR_MAX ∧
    (idle_house.hunters 0).should_exit = false ∧
    (∀ i, i < 5 →
      (hunter_iteration_start 0 corridor_draws corridor_others i idle_house).ghost.current_room =
        3 ∧
      ((hunter_iteration_start 0 corridor_draws corridor_others i idle_house).rooms
        ((hunter_iteration_start 0 corridor_draws corridor_others i idle_house).hunters
          0).current_room).ghost = false ∧
      van_check_solves (hunter_iteration_start 0 corridor_draws corridor_others i idle_house) 0 =
        false ∧
      ((hunter_iteration_start 0 corridor_draws corridor_others i idle_house).hunters
        0).should_exit = false ∧
      ((hunter_iteration_start 0 corridor_draws corridor_others i idle_house).hunters
        0).boredom = i) ∧
    (idle_stalled_house.hunters 0).current_room = 1 ∧
    (idle_stalled_house.hunters 0).return_to_van = true ∧
    (idle_stalled_house.hunters 0).path.head = [some 1, some 0] ∧
    hunter_thread_body idle_stalled_house 0 0 50 0 true = (hunter_move idle_call_house 0 1).2 ∧
    (idle_call_house.hunters 0).current_room = 1 ∧
    (idle_call_house.hunters 0).boredom = 5 ∧
    (idle_call_house.hunters 0).should_exit = false ∧
    ∀ n : Nat,
      (MoveThread.run_alone (n + 2) { house := idle_call_house, sem := fun _ => 1 }
        { hunter := 0, target_room := 1, from_room := 0, pc := MovePc.start }).2.pc =
        MovePc.wait_second ∧
      ((MoveThread.run_alone (n + 2) { house := idle_call_house, sem := fun _ => 1 }
        { hunter := 0, target_room := 1, from_room := 0, pc := MovePc.start }).1.house.hunters
        0).should_exit = false := by
  refine ⟨by decide, by decide, by decide, by decide, by decide, by decide, by decide, rfl,
    by decide, by decide, by decide, fun n => ?_⟩
  rw [hunter_move_self_target_blocks { house := idle_call_house, sem := fun _ => 1 } 0 1 0 n
    (by decide) rfl]
  exact ⟨rfl, by decide⟩

/-- C15: `hunter_check_exit_conditions` checks boredom first and at most one exit
applies.  In a room whose count does not exceed its 8 slots: with boredom above
15 the first listing of the hunter is taken out of the occupants of its current
room and the hunter exits with `LR_BORED`, whatever its fear; with boredom at
most 15 and fear above 15 the same happens with `LR_AFRAID`; with boredom and
fear both at most 15 (15 included) the call changes nothing at all. -/
theorem hunter_check_exit_conditions_cases (w : House) (hunter : HunterPtr)
    (hc : (w.rooms (w.hunters hunter).current_room).hunter_count ≤
      (w.rooms (w.hunters hunter).current_room).hunters.length) :
    ((w.hunters hunter).boredom > ENTITY_BOREDOM_MAX →
      ((hunter_check_exit_conditions w hunter).rooms (w.hunters hunter).current_room).occupants =
        (w.rooms (w.hunters hunter).current_room).occupants.erase (some hunter) ∧
      ((hunter_check_exit_conditions w hunter).hunters hunter).should_exit = true ∧
      ((hunter_check_exit_conditions w hunter).hunters hunter).exit_reason = LogReason.LR_BORED) ∧
    ((w.hunters hunter).boredom ≤ ENTITY_BOREDOM_MAX →
      (w.hunters hunter).fear > HUNTER_FEAR_MAX →
      ((hunter_check_exit_conditions w hunter).rooms (w.hunters hunter).current_room).occupants =
        (w.rooms (w.hunters hunter).current_room).occupants.erase (some hunter) ∧
      ((hunter_check_exit_conditions w hunter).hunters hunter).should_exit = true ∧
      ((hunter_check_exit_conditions w hunter).hunters hunter).exit_reason =
        LogReason.LR_AFRAID) ∧
    ((w.hunters hunter).boredom ≤ ENTITY_BOREDOM_MAX →
      (w.hunters hunter).fear ≤ HUNTER_FEAR_MAX →
      hunter_check_exit_conditions w hunter = w) := by
  have hocc := room_remove_hunter_occupants (w.rooms (w.hunters hunter).current_room) hunter hc
  refine ⟨fun hb => ?_, fun hb hf => ?_, fun hb hf => ?_⟩
  · simp only [hunter_check_exit_conditions, hb, if_true]
    simp [Function.update, hocc]
  · have hb2 : ¬ (w.hunters hunter).boredom > ENTITY_BOREDOM_MAX := by omega
    simp only [hunter_check_exit_conditions, hb2, hf, if_true, if_false]
    simp [Function.update, hocc]
  · have hb2 : ¬ (w.hunters hunter).boredom > ENTITY_BOREDOM_MAX := by omega
    have hf2 : ¬ (w.hunters hunter).fear > HUNTER_FEAR_MAX := by omega
    simp only [hunter_check_exit_conditions, hb2, hf2, if_false]

/-- Instance of C15: hunter 0 of the weary house has boredom 16 and fear 16 and
leaves room 1 bored; hunter 0 of the queue house has boredom 0 and fear 0 and
nothing changes. -/
theorem hunter_check_exit_conditions_cases_witness :
    ((hunter_check_exit_conditions weary_house 0).rooms 1).occupants = [some 1, some 2] ∧
    ((hunter_check_exit_conditions weary_house 0).hunters 0).should_exit = true ∧
    ((hunter_check_exit_conditions weary_house 0).hunters 0).exit_reason = LogReason.LR_BORED ∧
    hunter_check_exit_conditions queue_house 0 = queue_house :=
  ⟨((hunter_check_exit_conditions_cases weary_house 0 (by decide)).1 (by decide)).1,
   ((hunter_check_exit_conditions_cases weary_house 0 (by decide)).1 (by decide)).2.1,
   ((hunter_check_exit_conditions_cases weary_house 0 (by decide)).1 (by decide)).2.2,
   (hunter_check_exit_conditions_cases queue_house 0 (by decide)).2.2 (by decide) (by decide)⟩

/-- C16: the van check.  The drawn index `rnd` lies in the table of the 7
evidence kinds.  When the hunter stands in the exit room, after
`hunter_check_van` its trail is empty and `return_to_van` is false, and when the
check does not solve the case (the ledger does not hold three kinds forming a
profile) the device is the kind at index `rnd` of the table, whatever it was
before, while fear, boredom, current room and `should_exit` are as before.  When
the hunter does not stand in the exit room the call changes nothing at all. -/
theorem hunter_check_van_cases (w : House) (hunter : HunterPtr) (rnd : Nat)
    (hr : rnd < all_evidence_types.length) :
    ((w.rooms (w.hunters hunter).current_room).is_exit = true →
      roomstack_is_empty ((hunter_check_van w hunter rnd).hunters hunter).path = true ∧
      ((hunter_check_van w hunter rnd).hunters hunter).return_to_van = false ∧
      (¬ (evidence_has_three_unique w.caseFile.collected = true ∧
          evidence_is_valid_ghost w.caseFile.collected = true) →
        all_evidence_types.get? rnd =
          some ((hunter_check_van w hunter rnd).hunters hunter).device ∧
        ((hunter_check_van w hunter rnd).hunters hunter).fear = (w.hunters hunter).fear ∧
        ((hunter_check_van w hunter rnd).hunters hunter).boredom = (w.hunters hunter).boredom ∧
        ((hunter_check_van w hunter rnd).hunters hunter).current_room =
          (w.hunters hunter).current_room ∧
        ((hunter_check_van w hunter rnd).hunters hunter).should_exit =
          (w.hunters hunter).should_exit)) ∧
    ((w.rooms (w.hunters hunter).current_room).is_exit = false →
      hunter_check_van w hunter rnd = w) := by
  have hget : all_evidence_types.getD rnd (w.hunters hunter).device ∈
      all_evidence_types.get? rnd := by
    rw [List.getD_eq_getElem?_getD, List.get?_eq_getElem?, List.getElem?_eq_getElem hr]
    simp
  refine ⟨fun hex => ?_, fun hex => ?_⟩
  · simp only [hunter_check_van, hex, Bool.not_true, Bool.false_eq_true, if_false]
    refine ⟨?_, ?_, ?_⟩
    · split_ifs <;> simp [Function.update, roomstack_clear_eq, roomstack_is_empty]
    · split_ifs <;> simp_all [Function.update]
    · intro hns
      have hc : (evidence_has_three_unique w.caseFile.collected &&
          evidence_is_valid_ghost w.caseFile.collected) = false := by
        cases h1 : evidence_has_three_unique w.caseFile.collected <;>
          cases h2 : evidence_is_valid_ghost w.caseFile.collected <;> simp_all
      split_ifs <;> simp_all [Function.update]
  · simp [hunter_check_van, hex]

/-- Instance of C16: hunter 0 of the parked house is in the van with an EMF device,
`return_to_van` set and room 1 on its trail; the draw 5 gives it the WRITING
device.  Hunter 0 of the queue house is in room 1 and nothing changes. -/
theorem hunter_check_van_cases_witness :
    roomstack_is_empty ((hunter_check_van parked_house 0 5).hunters 0).path = true ∧
    ((hunter_check_van parked_house 0 5).hunters 0).return_to_van = false ∧
    ((hunter_check_van parked_house 0 5).hunters 0).device = EvidenceType.EV_WRITING ∧
    hunter_check_van queue_house 0 5 = queue_house :=
  ⟨((hunter_check_van_cases parked_house 0 5 (by decide)).1 (by decide)).1,
   ((hunter_check_van_cases parked_house 0 5 (by decide)).1 (by decide)).2.1,
   (Option.some.inj (((hunter_check_van_cases parked_house 0 5 (by decide)).1
      (by decide)).2.2 (by decide)).1).symm,
   (hunter_check_van_cases queue_house 0 5 (by decide)).2 (by decide)⟩

/-- C17: terminal states are absorbing.  (1) No operation of a hunter thread
(`hunter_move`, `hunter_update_stats`, `hunter_check_van`,
`hunter_check_exit_conditions`, `hunter_gather_evidence`, `hunter_choose_move`,
one iteration of the loop), run by any hunter, changes `should_exit` of a hunter
from true to false.  (2) No operation of the ghost thread changes `has_exited`
from true to false.  (3) When `should_exit` is set after `hunter_check_van`, the
iteration ends in the house that call left: exit check, gather and move do not
run.  (4) When `hunter_check_exit_conditions` sets it, the iteration ends in the
house that call left: gather and move do not run.  (5) When the loop condition
finds `should_exit` set, the thread runs no further iteration, so it changes
nothing of what was recorded at the exit.  (6) When `ghost_check_exit` returns
true, the iteration of the ghost ends in the house that call left: no action is
taken. -/
theorem terminal_states_absorbing :
    (∀ (w : House) (hunter : HunterPtr) (op : HunterOp) (x : HunterPtr),
      (w.hunters x).should_exit = true → ((op.run w hunter).hunters x).should_exit = true) ∧
    (∀ (w : House) (op : GhostOp),
      w.ghost.has_exited = true → (op.run w).ghost.has_exited = true) ∧
    (∀ (w : House) (hunter : HunterPtr) (r1 r2 r3 : Nat) (b : Bool),
      ((hunter_check_van (hunter_update_stats w hunter) hunter r1).hunters hunter).should_exit =
        true →
      hunter_thread_body w hunter r1 r2 r3 b =
        hunter_check_van (hunter_update_stats w hunter) hunter r1) ∧
    (∀ (w : House) (hunter : HunterPtr) (r1 r2 r3 : Nat) (b : Bool),
      ((hunter_check_van (hunter_update_stats w hunter) hunter r1).hunters hunter).should_exit =
        false →
      ((hunter_check_exit_conditions (hunter_check_van (hunter_update_stats w hunter) hunter r1)
        hunter).hunters hunter).should_exit = true →
      hunter_thread_body w hunter r1 r2 r3 b =
        hunter_check_exit_conditions (hunter_check_van (hunter_update_stats w hunter) hunter r1)
          hunter) ∧
    (∀ (hunter : HunterPtr) (draws : Nat → HunterDraws) (others : Nat → List Op) (n : Nat)
      (w : House),
      ((hunter_iteration_start hunter draws others n w).hunters hunter).should_exit = true →
      hunter_thread_iterations hunter draws others (n + 1) w =
        hunter_iteration_start hunter draws others n w) ∧
    (∀ (w : House) (action rnd : Nat),
      (ghost_check_exit (ghost_update_stats w)).1 = true →
      ghost_thread_body w action rnd = (ghost_check_exit (ghost_update_stats w)).2) := by
  refine ⟨hunter_op_should_exit, ghost_op_has_exited, ?_, ?_, ?_, ?_⟩
  · intro w hunter r1 r2 r3 b h
    simp [hunter_thread_body, h]
  · intro w hunter r1 r2 r3 b h1 h2
    simp [hunter_thread_body, h1, h2]
  · intro hunter draws others n w h
    rw [hunter_thread_iterations_succ, if_pos h]
  · intro w action rnd h
    simp [ghost_thread_body, h]

/-- Instance of C17: hunter 0 of the weary house exits in the exit check and hunter
0 of the van house in the van check, each iteration ending there; a later
`hunter_choose_move` leaves `should_exit` set; the ghost of the fading house
exits without taking its action. -/
theorem terminal_states_absorbing_witness :
    hunter_thread_body weary_house 0 0 0 0 true =
      hunter_check_exit_conditions (hunter_check_van (hunter_update_stats weary_house 0) 0 0) 0 ∧
    hunter_thread_body van_house 0 0 0 0 true =
      hunter_check_van (hunter_update_stats van_house 0) 0 0 ∧
    ((HunterOp.run (hunter_thread_body weary_house 0 0 0 0 true) 0
      (HunterOp.choose_move 0 true)).hunters 0).should_exit = true ∧
    ghost_thread_body fading_house 2 0 = (ghost_check_exit (ghost_update_stats fading_house)).2 :=
  ⟨terminal_states_absorbing.2.2.2.1 weary_house 0 0 0 0 true (by decide) (by decide),
   terminal_states_absorbing.2.2.1 van_house 0 0 0 0 true (by decide),
   terminal_states_absorbing.1 (hunter_thread_body weary_house 0 0 0 0 true) 0
     (HunterOp.choose_move 0 true) 0 (by decide),
   terminal_states_absorbing.2.2.2.2.2 fading_house 2 0 (by decide)⟩

/-- C18: the move rule of the ghost.  `ghost_move` leaves the ghost and every
room unchanged when the ghost's current room has at least one hunter or has
`connection_count` 0.  Otherwise, with `t` the room in slot `rnd` of the
connections of the old room, a room other than the old room: afterwards
`ghost.current_room` is `t`, the ghost reference of the old room is `NULL`, the
ghost reference of `t` is the ghost, and in no room did the occupants, the
count or the evidence mask change. -/
theorem ghost_move_rule (w : House) (rnd : Nat) :
    ((w.rooms w.ghost.current_room).hunter_count > 0 ∨
      (w.rooms w.ghost.current_room).connection_count = 0 →
      (ghost_move w rnd).ghost = w.ghost ∧ (ghost_move w rnd).rooms = w.rooms) ∧
    (∀ t : RoomPtr, (w.rooms w.ghost.current_room).hunter_count = 0 →
      (w.rooms w.ghost.current_room).connection_count ≠ 0 →
      (w.rooms w.ghost.current_room).connections.get? rnd = some (some t) →
      t ≠ w.ghost.current_room →
      (ghost_move w rnd).ghost.current_room = t ∧
      ((ghost_move w rnd).rooms w.ghost.current_room).ghost = false ∧
      ((ghost_move w rnd).rooms t).ghost = true ∧
      ∀ p : RoomPtr, ((ghost_move w rnd).rooms p).occupants = (w.rooms p).occupants ∧
        ((ghost_move w rnd).rooms p).hunter_count = (w.rooms p).hunter_count ∧
        ((ghost_move w rnd).rooms p).evidence = (w.rooms p).evidence) := by
  refine ⟨fun h => ?_, fun t h0 hc ht hne => ?_⟩
  · simp only [ghost_move, room_has_hunters_result, room_has_hunters_rooms,
      room_has_hunters_ghost]
    rcases h with h | h
    · simp [h]
    · by_cases hh : (w.rooms w.ghost.current_room).hunter_count > 0
      · simp [hh]
      · simp [hh, h]
  · obtain ⟨e1, e2⟩ := ghost_move_of_target w rnd t h0 hc ht
    rw [e1, e2]
    refine ⟨rfl, ?_, by simp, fun p => ?_⟩
    · simp [Function.update, Ne.symm hne]
    · obtain ⟨a1, a2, a3⟩ := set_ghost_frame
        (Function.update w.rooms w.ghost.current_room
          { w.rooms w.ghost.current_room with ghost := false }) t true p
      obtain ⟨b1, b2, b3⟩ := set_ghost_frame w.rooms w.ghost.current_room false p
      refine ⟨?_, a2.trans b2, a3.trans b3⟩
      unfold Room.occupants
      rw [a1, a2, b1, b2]

/-- Instance of C18: the ghost of the cornered house shares room 1 with hunter 0
and the ghost of the quiet house has no connection, so neither moves; the ghost
of the haunted house moves from room 2 to room 1. -/
theorem ghost_move_rule_witness :
    (ghost_move cornered_house 0).ghost = cornered_house.ghost ∧
    (ghost_move cornered_house 0).rooms = cornered_house.rooms ∧
    (ghost_move quiet_house 0).ghost = quiet_house.ghost ∧
    (ghost_move haunted_house 0).ghost.current_room = 1 ∧
    ((ghost_move haunted_house 0).rooms 2).ghost = false ∧
    ((ghost_move haunted_house 0).rooms 1).ghost = true ∧
    ((ghost_move haunted_house 0).rooms 1).occupants = [some 0] :=
  ⟨((ghost_move_rule cornered_house 0).1 (by decide)).1,
   ((ghost_move_rule cornered_house 0).1 (by decide)).2,
   ((ghost_move_rule quiet_house 0).1 (by decide)).1,
   ((ghost_move_rule haunted_house 0).2 1 (by decide) (by decide) (by decide) (by decide)).1,
   ((ghost_move_rule haunted_house 0).2 1 (by decide) (by decide) (by decide)
     (by decide)).2.1,
   ((ghost_move_rule haunted_house 0).2 1 (by decide) (by decide) (by decide)
     (by decide)).2.2.1,
   (((ghost_move_rule haunted_house 0).2 1 (by decide) (by decide) (by decide)
     (by decide)).2.2.2 1).1⟩

/-- C19: the ghost leaves evidence of its own profile.  The draw `rnd` lies below
the number of candidates and the mask of the ghost's room is a byte.  Then the
loop of `ghost_leave_evidence` collects exactly 3 candidates (so it writes slots
0, 1 and 2 of the 3-element array), they are the kinds whose bit is set in the
ghost type, and afterwards the mask of the current room is the old mask with the
bit of the candidate at index `rnd` added; every other room, the case file and
the ghost are unchanged. -/
theorem ghost_leave_evidence_profile (w : House) (rnd : Nat)
    (hr : rnd < (ghost_evidence_candidates w.ghost.type).length)
    (hm : (w.rooms w.ghost.current_room).evidence < 256) :
    (ghost_evidence_candidates w.ghost.type).length = 3 ∧
    (∀ e : EvidenceType,
      e ∈ ghost_evidence_candidates w.ghost.type ↔ evidence_has w.ghost.type.val e = true) ∧
    (∃ e : EvidenceType, (ghost_evidence_candidates w.ghost.type).get? rnd = some e ∧
      evidence_has w.ghost.type.val e = true ∧
      ((ghost_leave_evidence w rnd).rooms w.ghost.current_room).evidence =
        (w.rooms w.ghost.current_room).evidence ||| e.val) ∧
    (∀ p : RoomPtr, p ≠ w.ghost.current_room →
      (ghost_leave_evidence w rnd).rooms p = w.rooms p) ∧
    (ghost_leave_evidence w rnd).caseFile = w.caseFile ∧
    (ghost_leave_evidence w rnd).ghost = w.ghost := by
  have hlen := ghost_evidence_candidates_length w.ghost.type
  refine ⟨hlen, ghost_evidence_candidates_mem w.ghost.type, ?_, ?_,
    ghost_leave_evidence_caseFile w rnd, ghost_leave_evidence_ghost w rnd⟩
  · obtain ⟨e, he⟩ : ∃ e, (ghost_evidence_candidates w.ghost.type).get? rnd = some e := by
      rw [List.get?_eq_getElem?, List.getElem?_eq_getElem hr]; exact ⟨_, rfl⟩
    refine ⟨e, he, ?_, ?_⟩
    · exact (ghost_evidence_candidates_mem _ _).mp (List.get?_mem he)
    · have hpos : (ghost_evidence_candidates w.ghost.type).length > 0 := by omega
      simp only [ghost_leave_evidence, hpos, if_true, he]
      simp [Function.update, evidence_set_of_lt _ _ hm]
  · intro p hp
    simp only [ghost_leave_evidence]
    split_ifs
    · split
      · rfl
      · simp [Function.update, hp]
    · rfl

/-- Instance of C19: the poltergeist of the haunted house, in the empty room 2,
leaves its third candidate, WRITING. -/
theorem ghost_leave_evidence_profile_witness :
    ((ghost_leave_evidence haunted_house 2).rooms 2).evidence = EvidenceType.EV_WRITING.val := by
  obtain ⟨e, he, -, h⟩ :=
    (ghost_leave_evidence_profile haunted_house 2 (by decide) (by decide)).2.2.1
  have : e = EvidenceType.EV_WRITING := (Option.some.inj he).symm
  subst this
  exact h

/-- C21: the profile table.  Each of the 24 values of `enum GhostType` has
`evidence_count_bits` exactly 3 and lies below 128, so it uses only the bits 0..6
of the 7 evidence kinds; different ghost types have different values, so a
collected mask equals the value of at most one ghost type. -/
theorem ghost_profile_table :
    all_ghost_types.length = 24 ∧
    (∀ g : GhostType, g ∈ all_ghost_types) ∧
    (∀ g : GhostType, evidence_count_bits g.val = 3) ∧
    (∀ g : GhostType, g.val < 128) ∧
    (∀ g h : GhostType, g ≠ h → g.val ≠ h.val) ∧
    (∀ (mask : EvidenceByte) (g h : GhostType), g.val = mask → h.val = mask → g = h) := by
  refine ⟨rfl, fun g => by cases g <;> decide, fun g => by cases g <;> rfl,
    fun g => by cases g <;> decide, fun g h hne e => hne (ghost_val_injective g h e),
    fun mask g h e1 e2 => ghost_val_injective g h (e1.trans e2.symm)⟩

/-- C22: only the 7 defined bits are ever set.  For a mask below 128 (bit 7 clear)
and every kind, `evidence_set` and `evidence_clear` give a mask below 128;
`room_init` starts the mask of a room at 0 and `house_init` the ledger at 0; and
when every room mask and the ledger are below 128, they are still below 128
after any sequence of operations of the program (all hunter and ghost
operations among them). -/
theorem evidence_masks_below_128 :
    (∀ (m : EvidenceByte) (t : EvidenceType), m < 128 →
      evidence_set m t < 128 ∧ evidence_clear m t < 128 ∧
      (evidence_set m t).testBit 7 = false ∧ (evidence_clear m t).testBit 7 = false) ∧
    (∀ is_exit : Bool, (room_init is_exit).evidence = 0) ∧
    (∀ (w : House) (malloc_ok : Bool), (house_init w malloc_ok).caseFile.collected = 0) ∧
    (∀ (w : House) (ops : List Op),
      (∀ p : RoomPtr, (w.rooms p).evidence < 128) → w.caseFile.collected < 128 →
      (∀ p : RoomPtr, ((run_ops w ops).rooms p).evidence < 128) ∧
      (run_ops w ops).caseFile.collected < 128) := by
  refine ⟨fun m t h => ⟨evidence_set_lt_128 m t h, evidence_clear_lt_128 m t h, ?_, ?_⟩,
    fun _ => rfl, fun _ _ => rfl,
    fun w ops hr hc => ⟨fun p => (run_ops_room_step w ops p).evidence_lt (hr p),
      run_ops_collected_lt w ops hc⟩⟩
  · exact Nat.testBit_eq_false_of_lt (lt_of_lt_of_le (evidence_set_lt_128 m t h) (by norm_num))
  · exact Nat.testBit_eq_false_of_lt (lt_of_lt_of_le (evidence_clear_lt_128 m t h) (by norm_num))

/-- C26: the laws of the evidence bits.  For every mask `m` and kinds `t` and `u`
with `u` different from `t`: after `evidence_set` of `t` the mask has `t`, after
`evidence_clear` of `t` it has not; both leave `evidence_has` of `u` as it was;
`evidence_set` and `evidence_clear` are idempotent; and for a byte `m` that does
not have `t`, `evidence_clear` after `evidence_set` gives `m` back. -/
theorem evidence_bit_laws (m : EvidenceByte) (t u : EvidenceType) (hne : u ≠ t) :
    evidence_has (evidence_set m t) t = true ∧
    evidence_has (evidence_clear m t) t = false ∧
    evidence_has (evidence_set m t) u = evidence_has m u ∧
    evidence_has (evidence_clear m t) u = evidence_has m u ∧
    evidence_set (evidence_set m t) t = evidence_set m t ∧
    evidence_clear (evidence_clear m t) t = evidence_clear m t ∧
    (m < 256 → evidence_has m t = false → evidence_clear (evidence_set m t) t = m) :=
  ⟨evidence_has_set_self m t, evidence_has_clear_self m t, evidence_has_set_other m hne,
   evidence_has_clear_other m hne, evidence_set_idem m t, evidence_clear_idem m t,
   evidence_clear_set m t⟩

/-- Instance of C26: the mask with ORBS and WRITING (34), the kind EMF and the
other kind ORBS. -/
theorem evidence_bit_laws_witness :
    evidence_has (evidence_set 34 EvidenceType.EV_EMF) EvidenceType.EV_EMF = true ∧
    evidence_has (evidence_set 34 EvidenceType.EV_EMF) EvidenceType.EV_ORBS =
      evidence_has 34 EvidenceType.EV_ORBS ∧
    evidence_clear (evidence_set 34 EvidenceType.EV_EMF) EvidenceType.EV_EMF = 34 :=
  ⟨(evidence_bit_laws 34 EvidenceType.EV_EMF EvidenceType.EV_ORBS (by decide)).1,
   (evidence_bit_laws 34 EvidenceType.EV_EMF EvidenceType.EV_ORBS (by decide)).2.2.1,
   (evidence_bit_laws 34 EvidenceType.EV_EMF EvidenceType.EV_ORBS (by decide)).2.2.2.2.2.2
     (by decide) (by decide)⟩

/-- C27: `evidence_count_bits` counts the bits.  For every mask `m` it is the
number of positions 0..7 whose bit is set in `m`; a byte (`m < 256`) has no bit
set at any other position, so this is the number of bits set in `m`; for
`m < 128` it is the number of evidence kinds `t` with `evidence_has m t`.
`evidence_has_three_unique` is true exactly when the count is at least 3.
`evidence_set` of a kind not in `m` raises the count by exactly 1 and
`evidence_set` of a kind already in `m` leaves it as it is. -/
theorem evidence_count_bits_counts (m : EvidenceByte) :
    evidence_count_bits m = ((List.range 8).filter (fun i => m.testBit i)).length ∧
    (m < 256 → ∀ i : Nat, m.testBit i = true → i ∈ List.range 8) ∧
    (m < 128 →
      evidence_count_bits m =
        (all_evidence_types.filter (fun t => evidence_has m t)).length) ∧
    (evidence_has_three_unique m = true ↔ 3 ≤ evidence_count_bits m) ∧
    (∀ t : EvidenceType, evidence_has m t = false →
      evidence_count_bits (evidence_set m t) = evidence_count_bits m + 1) ∧
    (∀ t : EvidenceType, evidence_has m t = true →
      evidence_count_bits (evidence_set m t) = evidence_count_bits m) :=
  ⟨evidence_count_bits_eq_filter m,
   fun hm i hi => List.mem_range.mpr (testBit_lt_of_lt_256 m i hm hi),
   evidence_count_bits_kinds m, evidence_has_three_unique_iff m,
   evidence_count_bits_set_new m, evidence_count_bits_set_old m⟩

/-- Instance of C27: the mask 34 holds ORBS and WRITING; adding EMF gives a count
of 3, adding ORBS again leaves the count at 2. -/
theorem evidence_count_bits_counts_witness :
    evidence_count_bits 34 = 2 ∧
    evidence_count_bits (evidence_set 34 EvidenceType.EV_EMF) = 2 + 1 ∧
    evidence_count_bits (evidence_set 34 EvidenceType.EV_ORBS) = 2 ∧
    evidence_has_three_unique (evidence_set 34 EvidenceType.EV_EMF) = true :=
  ⟨(evidence_count_bits_counts 34).1,
   (evidence_count_bits_counts 34).2.2.2.2.1 EvidenceType.EV_EMF (by decide),
   (evidence_count_bits_counts 34).2.2.2.2.2 EvidenceType.EV_ORBS (by decide),
   (evidence_count_bits_counts (evidence_set 34 EvidenceType.EV_EMF)).2.2.2.1.mpr (by decide)⟩

/-- C23 (the code at the failing input): a connection to a full room is one-way.
In the hub house room 0 has 8 connections and room 9 has none.  After
`room_connect` of rooms 0 and 9, room 0 is adjacent to room 9 but room 9 is not
adjacent to room 0; the counts are 8 and 1. -/
theorem room_connect_full_one_way :
    (hub_house.rooms 0).connection_count = MAX_CONNECTIONS ∧
    (hub_house.rooms 9).connection_count = 0 ∧
    some 0 ∈ ((room_connect hub_house 0 9).rooms 9).neighbours ∧
    some 9 ∉ ((room_connect hub_house 0 9).rooms 0).neighbours ∧
    some 9 ∉ ((room_connect hub_house 0 9).rooms 0).connections ∧
    ((room_connect hub_house 0 9).rooms 0).connection_count = 8 ∧
    ((room_connect hub_house 0 9).rooms 9).connection_count = 1 := by
  decide

/-- C24 (the code at the failing input): a failed growth of the hunter array
leaves the capacity doubled.  The staffed house has 4 hunters in a block of 4
slots.  A call of `house_add_hunter` whose `realloc` fails adds no hunter and
keeps the block, but `hunter_capacity` is 8 afterwards.  The next call finds
`hunter_count < hunter_capacity`, does not grow the block and stores the new
hunter at index 4 of the 4-slot block.  A failed allocation in `roomstack_push`
leaves the stack as it is. -/
theorem house_add_hunter_failed_growth :
    staffed_house.hunter_count = 4 ∧
    staffed_house.hunter_capacity = 4 ∧
    staffed_house.hunter_slots = 4 ∧
    (house_add_hunter staffed_house 5 0 false).hunter_count = 4 ∧
    (house_add_hunter staffed_house 5 0 false).hunters = staffed_house.hunters ∧
    (house_add_hunter staffed_house 5 0 false).hunter_slots = 4 ∧
    (house_add_hunter staffed_house 5 0 false).hunter_capacity = 8 ∧
    (∀ realloc_ok : Bool,
      (house_add_hunter (house_add_hunter staffed_house 5 0 false) 6 0 realloc_ok).hunter_slots =
        4 ∧
      (house_add_hunter (house_add_hunter staffed_house 5 0 false) 6 0 realloc_ok).hunter_count =
        5 ∧
      ((house_add_hunter (house_add_hunter staffed_house 5 0 false) 6 0 realloc_ok).hunters
        4).id = 6) ∧
    (∀ (stack : RoomStack) (room : Option RoomPtr), roomstack_push stack room false = stack) := by
  refine ⟨by decide, by decide, by decide, by decide, rfl, by decide, by decide, ?_, ?_⟩
  · intro b; cases b <;> decide
  · intro stack room; rfl

/-- C25: `room_remove_hunter` removes exactly the given hunter.  In a room whose
count does not exceed the slots of `hunters`: when the hunter is among the
occupants (the first `hunter_count` slots), the occupants split at its first
occurrence into those before and those after, and afterwards the occupants are
those before followed by those after, the count is one less, and the slot that
held the last occupant is `NULL`; when the hunter is not among the occupants the
room is unchanged.  For a room with 8 slots, fewer than 8 occupants and the
hunter not among them, `room_add_hunter` followed by `room_remove_hunter` gives
back the occupants and the count. -/
theorem room_remove_hunter_exact (room : Room) (hunter : HunterPtr)
    (hc : room.hunter_count ≤ room.hunters.length) :
    (some hunter ∈ room.occupants →
      (∃ before after : List (Option HunterPtr),
        some hunter ∉ before ∧
        room.occupants = before ++ some hunter :: after ∧
        (room_remove_hunter room hunter).occupants = before ++ after) ∧
      (room_remove_hunter room hunter).hunter_count + 1 = room.hunter_count ∧
      (room_remove_hunter room hunter).hunters.get? (room.hunter_count - 1) = some none) ∧
    (some hunter ∉ room.occupants → room_remove_hunter room hunter = room) ∧
    (room.hunters.length = MAX_ROOM_OCCUPANCY → room.hunter_count < MAX_ROOM_OCCUPANCY →
      some hunter ∉ room.occupants →
      (room_remove_hunter (room_add_hunter room hunter).2 hunter).occupants = room.occupants ∧
      (room_remove_hunter (room_add_hunter room hunter).2 hunter).hunter_count =
        room.hunter_count) := by
  refine ⟨fun hin => ⟨?_, room_remove_hunter_count room hunter hc hin,
    room_remove_hunter_vacated room hunter hc hin⟩, room_remove_hunter_absent room hunter,
    fun hlen hlt hnot => ?_⟩
  · obtain ⟨l1, l2, h1, h2, h3⟩ := List.exists_erase_eq hin
    exact ⟨l1, l2, h1, h2, by rw [room_remove_hunter_occupants room hunter hc, h3]⟩
  · obtain ⟨a1, a2⟩ := room_add_hunter_occupants room hunter hlt hlen
    have hl := (room_add_hunter_frame room hunter).1
    have hc2 : (room_add_hunter room hunter).2.hunter_count ≤
        (room_add_hunter room hunter).2.hunters.length := by
      rw [a2, hl]; omega
    have hin2 : some hunter ∈ (room_add_hunter room hunter).2.occupants := by
      rw [a1]; simp
    refine ⟨?_, ?_⟩
    · rw [room_remove_hunter_occupants _ hunter hc2, a1, List.erase_append_right _ hnot]
      simp
    · have := room_remove_hunter_count _ hunter hc2 hin2
      rw [a2] at this
      omega

/-- Instance of C25 on room 1 of the queue house, where hunters 1, 0 and 2 are
listed: removing hunter 0 leaves hunters 1 and 2 and a `NULL` third slot,
removing hunter 9 changes nothing, and adding and removing hunter 9 gives the
three occupants back. -/
theorem room_remove_hunter_exact_witness :
    (room_remove_hunter (queue_house.rooms 1) 0).hunter_count + 1 = 3 ∧
    (room_remove_hunter (queue_house.rooms 1) 0).hunters.get? 2 = some none ∧
    room_remove_hunter (queue_house.rooms 1) 9 = queue_house.rooms 1 ∧
    (room_remove_hunter (room_add_hunter (queue_house.rooms 1) 9).2 9).occupants =
      [some 1, some 0, some 2] :=
  ⟨((room_remove_hunter_exact (queue_house.rooms 1) 0 (by decide)).1 (by decide)).2.1,
   ((room_remove_hunter_exact (queue_house.rooms 1) 0 (by decide)).1 (by decide)).2.2,
   (room_remove_hunter_exact (queue_house.rooms 1) 9 (by decide)).2.1 (by decide),
   ((room_remove_hunter_exact (queue_house.rooms 1) 9 (by decide)).2.2 (by decide) (by decide)
     (by decide)).1⟩

/-- C28: a solved case identifies the real ghost.  Start from a house whose room
masks are 0 (as `room_init` leaves them) and whose case file is empty and
unsolved (as `house_init` leaves it), place the ghost with `ghost_init`, and run
any sequence of hunter and ghost operations.  Then the ghost type is still the
one drawn by `ghost_init`, every kind in the mask of a room or in the ledger is
a kind of the ghost type, and when `solved` is true the ledger equals the ghost
type.  For every mask, the profile match of `hunter_check_van` implies its test
for three kinds. -/
theorem solved_case_identifies_ghost (w : House) (rnd_type rnd_room : Nat) (ops : List Op)
    (hrooms : ∀ p : RoomPtr, (w.rooms p).evidence = 0)
    (hledger : w.caseFile = { collected := 0, solved := false })
    (hops : ∀ op ∈ ops, op.by_actor = true) :
    (run_ops (ghost_init w rnd_type rnd_room) ops).ghost.type =
      (ghost_init w rnd_type rnd_room).ghost.type ∧
    (∀ (p : RoomPtr) (t : EvidenceType),
      evidence_has ((run_ops (ghost_init w rnd_type rnd_room) ops).rooms p).evidence t = true →
      evidence_has (run_ops (ghost_init w rnd_type rnd_room) ops).ghost.type.val t = true) ∧
    (∀ t : EvidenceType,
      evidence_has (run_ops (ghost_init w rnd_type rnd_room) ops).caseFile.collected t = true →
      evidence_has (run_ops (ghost_init w rnd_type rnd_room) ops).ghost.type.val t = true) ∧
    ((run_ops (ghost_init w rnd_type rnd_room) ops).caseFile.solved = true →
      (run_ops (ghost_init w rnd_type rnd_room) ops).caseFile.collected =
        (run_ops (ghost_init w rnd_type rnd_room) ops).ghost.type.val) ∧
    (∀ mask : EvidenceByte,
      evidence_is_valid_ghost mask = true → evidence_has_three_unique mask = true) := by
  have h0 : OnProfile (ghost_init w rnd_type rnd_room) := by
    have hz : ∀ t : EvidenceType, evidence_has 0 t = false := by
      intro t; cases t <;> rfl
    refine ⟨fun p t ht => ?_, fun t ht => ?_, fun hs => ?_⟩
    · have e : ((ghost_init w rnd_type rnd_room).rooms p).evidence = 0 := by
        simp only [ghost_init, setRoom_rooms]
        by_cases hp : p = rnd_room
        · subst hp; simp [hrooms]
        · simp [Function.update, hp, hrooms]
      rw [e, hz] at ht
      exact absurd ht (by simp)
    · have e : (ghost_init w rnd_type rnd_room).caseFile.collected = 0 := by
        show w.caseFile.collected = 0
        rw [hledger]
      rw [e, hz] at ht
      exact absurd ht (by simp)
    · have e : (ghost_init w rnd_type rnd_room).caseFile.solved = false := by
        show w.caseFile.solved = false
        rw [hledger]
      rw [e] at hs
      exact absurd hs (by simp)
  obtain ⟨h1, h2, h3⟩ := on_profile_run_ops _ ops hops h0
  exact ⟨run_ops_keeps_type _ ops hops, h1, h2, h3, valid_ghost_three_unique⟩

/-- Instance of C28 on the case house: the poltergeist placed in room 1 leaves
its three kinds, three hunters gather them and a fourth solves the case in the
van; the ledger is then the value of a poltergeist. -/
theorem solved_case_identifies_ghost_witness :
    (run_ops (ghost_init case_house 0 1) case_ops).caseFile.solved = true ∧
    (run_ops (ghost_init case_house 0 1) case_ops).caseFile.collected =
      GhostType.GH_POLTERGEIST.val :=
  ⟨by decide!,
   ((solved_case_identifies_ghost case_house 0 1 case_ops (fun _ => rfl) rfl
      (by decide)).2.2.2.1 (by decide!)).trans
    (congrArg GhostType.val ((solved_case_identifies_ghost case_house 0 1 case_ops
      (fun _ => rfl) rfl (by decide)).1))⟩

/-- C29 (the code at the failing input): a failed return move leads to a move
into the hunter's own room.  Hunter 0 of the corridor house walks from the van
to room 1, to room 2 and back to room 1 (trail: rooms 2, 1, 0); room 2 fills up,
the hunter sets `return_to_van` and its move back to room 2 fails, which takes
room 2 off the trail.  After these four iterations the hunter stands in room 1
with room 1 on top of its trail: the next `hunter_choose_move` pops room 1 and
calls `hunter_move` with the hunter's current room as target, which waits twice
on the semaphore of room 1; run statement by statement with the semaphore at 1,
the call never gets past the second `sem_wait`. -/
theorem choose_move_targets_own_room :
    (stalled_house.hunters 0).should_exit = false ∧
    (stalled_house.hunters 0).return_to_van = true ∧
    (stalled_house.hunters 0).current_room = 1 ∧
    (roomstack_pop (stalled_house.hunters 0).path).1 = some 1 ∧
    lock_events stalled_house (hunter_choose_move stalled_house 0 0 true) =
      [LockEvent.wait (LockId.room 1), LockEvent.wait (LockId.room 1),
       LockEvent.post (LockId.room 1), LockEvent.post (LockId.room 1)] ∧
    lock_events stalled_house (hunter_thread_body stalled_house 0 0 50 0 true) =
      [LockEvent.wait (LockId.room 1), LockEvent.post (LockId.room 1),
       LockEvent.wait (LockId.room 1), LockEvent.post (LockId.room 1),
       LockEvent.wait (LockId.room 1), LockEvent.wait (LockId.room 1),
       LockEvent.post (LockId.room 1), LockEvent.post (LockId.room 1)] ∧
    (MoveThread.run_alone 20 { house := stalled_house, sem := fun _ => 1 }
      { hunter := 0, target_room := 1, from_room := 0, pc := MovePc.start }).2.pc =
      MovePc.wait_second := by
  refine ⟨by decide, by decide, by decide, by decide, by decide, by decide, by decide!⟩

/-- C30: a single ghost reference.  Write `GhostRef` for: a room refers to the
ghost exactly when the ghost has not exited and the room is its current room.
(1) After `ghost_init` on rooms without a ghost reference `GhostRef` holds and
`has_exited` is false.  (2) Every operation of the ghost thread, run while
`has_exited` is false as the loop of the thread does, keeps `GhostRef`; (3) so
does every operation of a hunter thread; (4) so does any number of iterations of
the loop of the ghost thread with operations of hunters in between.  (5) With
`GhostRef`, while `has_exited` is false the rooms with a reference are exactly
the ghost's current room, and once it is true no room has a reference. -/
theorem single_ghost_reference :
    (∀ (w : House) (rnd_type rnd_room : Nat), (∀ p : RoomPtr, (w.rooms p).ghost = false) →
      GhostRef (ghost_init w rnd_type rnd_room) ∧
      (ghost_init w rnd_type rnd_room).ghost.has_exited = false) ∧
    (∀ (w : House) (op : GhostOp), GhostRef w → w.ghost.has_exited = false →
      GhostRef (op.run w)) ∧
    (∀ (w : House) (hunter : HunterPtr) (op : HunterOp), GhostRef w →
      GhostRef (op.run w hunter)) ∧
    (∀ (w : House) (draws : Nat → Nat × Nat) (others : Nat → List Op) (n : Nat),
      (∀ i, ∀ op ∈ others i, op.by_hunter = true) → GhostRef w →
      GhostRef (ghost_thread_iterations draws others n w)) ∧
    (∀ w : House, GhostRef w →
      (w.ghost.has_exited = false →
        ∀ p : RoomPtr, (w.rooms p).ghost = true ↔ p = w.ghost.current_room) ∧
      (w.ghost.has_exited = true → ∀ p : RoomPtr, (w.rooms p).ghost = false)) := by
  refine ⟨ghost_ref_init, ghost_ref_ghost_op, ghost_ref_hunter_op,
    fun w draws others n ho h => ghost_ref_iterations w draws others ho h n,
    fun w h => ⟨?_, ?_⟩⟩
  · intro hx p
    rw [h p, hx]; simp
  · intro hx p
    rw [h p, hx]; simp

/-- Instance of C30: in the lone house the ghost was placed in room 2 by
`ghost_init`; after 15 iterations of its loop, with hunter 0 running in between,
room 2 is the only room with a ghost reference, and after 16 iterations, when the
ghost has exited, no room has one. -/
theorem single_ghost_reference_witness :
    (∀ p : RoomPtr,
      ((ghost_thread_iterations (fun _ => (2, 0))
        (fun _ => [Op.hunter 0 (HunterOp.thread_body 0 50 0 true)]) 15 lone_house).rooms
        p).ghost = true ↔ p = 2) ∧
    (∀ p : RoomPtr,
      ((ghost_thread_iterations (fun _ => (2, 0))
        (fun _ => [Op.hunter 0 (HunterOp.thread_body 0 50 0 true)]) 16 lone_house).rooms
        p).ghost = false) :=
  have href : GhostRef lone_house := (single_ghost_reference.1 sample_house 0 2 (fun _ => rfl)).1
  have hiter := fun n => single_ghost_reference.2.2.2.1 lone_house (fun _ => (2, 0))
    (fun _ => [Op.hunter 0 (HunterOp.thread_body 0 50 0 true)]) n
    (fun _ op hop => by rw [List.mem_singleton.mp hop]; rfl) href
  ⟨(single_ghost_reference.2.2.2.2 _ (hiter 15)).1 (by decide),
   (single_ghost_reference.2.2.2.2 _ (hiter 16)).2 (by decide)⟩

/-- C31 (the code at the failing input): a hunter added to the house is listed
in no room.  `hunter_init` sets `current_room` to the starting room and
`should_exit` to false, and `house_add_hunter` changes no room, so the starting
room does not list the new hunter.  In the corridor house hunter 0, just added,
stands in the van (room 0) with `should_exit` false, yet no room lists it, the
van has no occupants and `room_has_hunters` is false for the van.  This is
still so after `hunter_update_stats`, the first operation of the loop of the
hunter.  The hunter is listed for the first time by `hunter_move`: after the
first iteration of its loop it stands in room 1 and is the only occupant of
room 1, and the van still has no occupants. -/
theorem new_hunter_not_listed :
    (∀ (old : Hunter) (id : Int) (starting_room : RoomPtr) (rnd : Nat),
      (hunter_init old id starting_room rnd).current_room = starting_room ∧
      (hunter_init old id starting_room rnd).should_exit = false) ∧
    (∀ (w : House) (id : Int) (rnd : Nat) (realloc_ok : Bool),
      (house_add_hunter w id rnd realloc_ok).rooms = w.rooms) ∧
    corridor_house.starting_room = some 0 ∧
    corridor_house.hunter_count = 1 ∧
    (corridor_house.hunters 0).should_exit = false ∧
    (corridor_house.hunters 0).current_room = 0 ∧
    (∀ p : RoomPtr, (corridor_house.rooms p).listed 0 = 0) ∧
    (corridor_house.rooms 0).occupants = [] ∧
    (room_has_hunters corridor_house 0).1 = false ∧
    ((hunter_update_stats corridor_house 0).hunters 0).should_exit = false ∧
    ((hunter_update_stats corridor_house 0).hunters 0).current_room = 0 ∧
    ((hunter_update_stats corridor_house 0).rooms 0).listed 0 = 0 ∧
    ((hunter_thread_iterations 0 corridor_draws corridor_others 1 corridor_house).hunters
      0).should_exit = false ∧
    ((hunter_thread_iterations 0 corridor_draws corridor_others 1 corridor_house).hunters
      0).current_room = 1 ∧
    ((hunter_thread_iterations 0 corridor_draws corridor_others 1 corridor_house).rooms
      1).occupants = [some 0] ∧
    ((hunter_thread_iterations 0 corridor_draws corridor_others 1 corridor_house).rooms
      0).occupants = [] := by
  refine ⟨fun _ _ _ _ => ⟨rfl, rfl⟩, house_add_hunter_rooms, by decide, by decide, by decide,
    by decide, ?_, by decide, by decide, by decide, by decide, by decide, by decide, by decide,
    by decide, by decide⟩
  intro p
  have h := house_add_hunter_rooms
    (room_connect (room_connect { sample_house with room_count := 3, hunter_count := 0 } 0 1) 1 2)
    7 0 true
  show ((house_add_hunter _ 7 0 true).rooms p).listed 0 = 0
  rw [h]
  simp [room_connect, House.setRoom, Function.update, sample_house, room_init, Room.listed,
    Room.occupants, MAX_CONNECTIONS]
  split_ifs <;> simp

end GhostHunt
